import Mathlib

/-!
Bazaar: a shallow embedding of `src/bz-carousel.c` and of the measure, duplicate-check and
colour-conversion functions of `bz-fading-clamp.c`, `bz-preferences-dialog.c` and
`bz-truck-paintable.c`.

The C `double` is modelled by `ℚ` (exact arithmetic), `int` and `guint` by `Int` and `Nat`;
the resize callback also has a variant with binary64 rounding.
A `ChildInfo *` is modelled by the address `ptr` carried by the record it points to, a
`GtkWidget *` by `Option Nat` (`none` is `NULL`), and the `GList *children` by the list of
the records its nodes point to, in node order; a `GList` link is a raw index in that list.
Toolkit calls whose result the carousel reads (measurement, expand flags, text direction,
destruction flag, mapped flag, parent of a widget) are taken as inputs or kept as explicit
state.
A callback that receives the address of a record that is not in the list (which the C code
never does, since the animation is released with the record) leaves the state as it is.
-/

namespace Bazaar

/-! ## GLib helpers used by the carousel -/

/-- GLib `MAX (a, b)`: `((a) > (b)) ? (a) : (b)`. -/
def MAX {α : Type} [LinearOrder α] (a b : α) : α := if a > b then a else b

/-- GLib `CLAMP (x, low, high)`: `((x) > (high)) ? (high) : (((x) < (low)) ? (low) : (x))`. -/
def CLAMP {α : Type} [LinearOrder α] (x low high : α) : α :=
  if x > high then high else if x < low then low else x

/-- GLib `ABS (a)`: `((a) < 0) ? -(a) : (a)`. -/
def ABS (a : ℚ) : ℚ := if a < 0 then -a else a

/-- C `DBL_EPSILON` for IEEE-754 binary64: `2^-52`. -/
def DBL_EPSILON : ℚ := 1 / 2 ^ 52

/-- GLib `G_APPROX_VALUE (a, b, epsilon)`:
`(((a) > (b) ? (a) - (b) : (b) - (a)) < (epsilon))`. -/
def G_APPROX_VALUE (a b epsilon : ℚ) : Bool :=
  decide ((if a > b then a - b else b - a) < epsilon)

/-- C `round`: nearest integer, halfway cases away from zero. -/
def c_round (x : ℚ) : Int := if 0 ≤ x then ⌊x + 1 / 2⌋ else -⌊-x + 1 / 2⌋

/-- C conversion of a `double` to `int`: truncation toward zero. -/
def c_trunc (x : ℚ) : Int := if 0 ≤ x then ⌊x⌋ else ⌈x⌉

/-! ## Data model -/

/-- The `AdwTimedAnimation` a child record owns while it is resizing: the arguments
`adw_timed_animation_new` was given by `animate_child_resize`. -/
structure TimedAnimation where
  value_from : ℚ
  value_to : ℚ
  duration : Nat
deriving DecidableEq, Repr

/-- The record `ChildInfo` of `bz-carousel.c`; `ptr` is the address of the record. -/
structure ChildInfo where
  ptr : Nat
  widget : Option Nat
  position : Int
  visible : Bool
  size : ℚ
  snap_point : ℚ
  adding : Bool
  removing : Bool
  shift_position : Bool
  resize_animation : Option TimedAnimation
deriving DecidableEq, Repr

/-- The configuration of the carousel's `AdwSpringAnimation` that `scroll_to` and the
layout pass write. -/
structure SpringAnimation where
  value_from : ℚ
  value_to : ℚ
  initial_velocity : ℚ
  playing : Bool
deriving DecidableEq, Repr

/-- The enum `GtkOrientation`. -/
inductive GtkOrientation where
  | HORIZONTAL
  | VERTICAL
deriving DecidableEq, Repr

/-- The fields of `struct _BzCarousel` the carousel logic reads or writes, and three pieces
of state of the underlying `GtkWidget`: its `in_destruction` flag, `widget_children`, the
widgets whose GTK parent is the carousel, and `mapped`, the condition `adw_animation_play`
tests before it leaves an animation running (the widget is mapped and the toolkit's
animations are enabled). -/
structure BzCarousel where
  children : List ChildInfo
  distance : ℚ
  position : ℚ
  spacing : Nat
  uniform_spacing : Bool
  orientation : GtkOrientation
  reveal_duration : Nat
  animation_source_position : ℚ
  animation : SpringAnimation
  animation_target_child : Option Nat
  allow_scroll_wheel : Bool
  position_shift : ℚ
  scroll_timeout_id : Nat
  is_being_allocated : Bool
  in_destruction : Bool
  widget_children : List Nat
  mapped : Bool
deriving Repr

/-- The carousel right after `bz_carousel_init` (`g_object_new` zero-fills the instance);
a new widget is not mapped. -/
def bz_carousel_new : BzCarousel where
  children := []
  distance := 0
  position := 0
  spacing := 0
  uniform_spacing := true
  orientation := GtkOrientation.HORIZONTAL
  reveal_duration := 0
  animation_source_position := 0
  animation := { value_from := 0, value_to := 0, initial_velocity := 0, playing := false }
  animation_target_child := none
  allow_scroll_wheel := true
  position_shift := 0
  scroll_timeout_id := 0
  is_being_allocated := false
  in_destruction := false
  widget_children := []
  mapped := false

/-! ## Access to child records through their address -/

/-- Dereference of a `ChildInfo *` that points into the children list. -/
def deref (children : List ChildInfo) (p : Nat) : Option ChildInfo :=
  children.find? (fun c => c.ptr == p)

/-- A write through a `ChildInfo *`: every node whose data is that address sees it. -/
def update_child (children : List ChildInfo) (p : Nat) (f : ChildInfo → ChildInfo) :
    List ChildInfo :=
  children.map (fun c => if c.ptr = p then f c else c)

/-- Loop of GLib `g_list_index`, with the counter `i` as an argument. -/
def g_list_index_from : List ChildInfo → Nat → Int → Int
  | [], _, _ => -1
  | c :: l, p, i => if c.ptr = p then i else g_list_index_from l p (i + 1)

/-- GLib `g_list_index (list, data)`: position of the first node holding `data`, or -1. -/
def g_list_index (children : List ChildInfo) (p : Nat) : Int :=
  g_list_index_from children p 0

/-- GLib `g_list_remove (list, data)`: unlinks the first node holding `data`. -/
def g_list_remove (children : List ChildInfo) (p : Nat) : List ChildInfo :=
  children.eraseP (fun c => c.ptr == p)

/-! ## Lookups -/

/-- Source `find_child_info`: the first record whose widget is `widget`. -/
def find_child_info (self : BzCarousel) (widget : Option Nat) : Option ChildInfo :=
  self.children.find? (fun info => widget == info.widget)

/-- Loop of `find_child_index`, with the counter `i` as an argument. -/
def find_child_index_from (widget : Option Nat) (count_removing : Bool) :
    List ChildInfo → Int → Int
  | [], _ => -1
  | info :: l, i =>
    if info.removing && !count_removing then find_child_index_from widget count_removing l i
    else if widget = info.widget then i
    else find_child_index_from widget count_removing l (i + 1)

/-- Source `find_child_index`. -/
def find_child_index (self : BzCarousel) (widget : Option Nat) (count_removing : Bool) : Int :=
  find_child_index_from widget count_removing self.children 0

/-- Loop of `get_nth_link`: `raw` is the raw index of the head of the remaining list and
`i` the countdown; the result is the raw index of the link found. -/
def get_nth_link_from : List ChildInfo → Nat → Int → Option Nat
  | [], _, _ => none
  | info :: l, raw, i =>
    if info.removing then get_nth_link_from l (raw + 1) i
    else if i = 0 then some raw
    else get_nth_link_from l (raw + 1) (i - 1)

/-- Source `get_nth_link`: the link of the `n`-th record that is not being removed. -/
def get_nth_link (self : BzCarousel) (n : Int) : Option Nat :=
  get_nth_link_from self.children 0 n

/-- Source `get_closest_child_at`. -/
def get_closest_child_at (self : BzCarousel) (position : ℚ) (count_adding count_removing : Bool) :
    Option ChildInfo :=
  self.children.foldl
    (fun closest_child child =>
      if child.adding && !count_adding then closest_child
      else if child.removing && !count_removing then closest_child
      else match closest_child with
        | none => some child
        | some cc =>
          if ABS (cc.snap_point - position) > ABS (child.snap_point - position) then some child
          else closest_child)
    none

/-- Source `get_range`: the pair `(lower, upper)`. -/
def get_range (self : BzCarousel) : ℚ × ℚ :=
  let child := self.children.getLast?
  (0, MAX 0 (self.position_shift + (match child with
                                    | some c => c.snap_point
                                    | none => 0)))

/-- Source `get_page_at_position`. -/
def get_page_at_position (self : BzCarousel) (position : ℚ) : Option Nat :=
  let range := get_range self
  let position := CLAMP position range.1 range.2
  match get_closest_child_at self position true false with
  | none => none
  | some child => child.widget

/-- Source `update_shift_position_flag`; `child` is the address of the record. -/
def update_shift_position_flag (self : BzCarousel) (child : Nat) : BzCarousel :=
  match get_closest_child_at self self.position false true with
  | none => self
  | some closest_child =>
    let animating_index := g_list_index self.children child
    let closest_index := g_list_index self.children closest_child.ptr
    { self with
      children := update_child self.children child
        (fun c => { c with shift_position := decide (closest_index ≥ animating_index) }) }

/-- Source `set_position`. -/
def set_position (self : BzCarousel) (position : ℚ) : BzCarousel :=
  let range := get_range self
  let position := CLAMP position range.1 range.2
  let self := { self with position := position }
  self.children.foldl
    (fun s child =>
      if child.adding || child.removing then update_shift_position_flag s child.ptr else s)
    self

/-! ## Child resize animations -/

/-- Source `resize_animation_value_cb`; `child` is the address of the record. -/
def resize_animation_value_cb (self : BzCarousel) (value : ℚ) (child : Nat) : BzCarousel :=
  match deref self.children child with
  | none => self
  | some c =>
    let delta := value - c.size
    let self := { self with
      children := update_child self.children child (fun c => { c with size := value }) }
    if c.shift_position then { self with position_shift := self.position_shift + delta }
    else self

/-- Source `resize_animation_done_cb`; `child` is the address of the record. -/
def resize_animation_done_cb (self : BzCarousel) (child : Nat) : BzCarousel :=
  match deref self.children child with
  | none => self
  | some c =>
    let children := update_child self.children child
      (fun c => { c with resize_animation := none, adding := false })
    if c.removing then { self with children := g_list_remove children child }
    else { self with children := children }

/-- Toolkit `adw_animation_skip` on a child's resize animation: the animation jumps to its
end value, which runs the value callback with `value_to`, and then emits `done`, which runs
the done callback. A normal completion of the animation does the same. -/
def adw_animation_skip (self : BzCarousel) (child : Nat) (a : TimedAnimation) : BzCarousel :=
  resize_animation_done_cb (resize_animation_value_cb self a.value_to child) child

/-- Toolkit `adw_animation_play` on the resize animation `a` that has just been stored on
the record `child`: in a mapped carousel the animation is left running, and its ticks and
its completion come later; otherwise the toolkit skips it at once, before
`adw_animation_play` returns. -/
def adw_animation_play (self : BzCarousel) (child : Nat) (a : TimedAnimation) : BzCarousel :=
  if self.mapped then self else adw_animation_skip self child a

/-- The tail of `animate_child_resize`: the new animation `a` is stored in
`child->resize_animation` and `adw_animation_play` is called on it. -/
def start_resize_animation (self : BzCarousel) (child : Nat) (a : TimedAnimation) :
    BzCarousel :=
  adw_animation_play
    { self with
      children := update_child self.children child
        (fun c => { c with resize_animation := some a }) }
    child a

/-- Source `animate_child_resize`; `child` is the address of the record. -/
def animate_child_resize (self : BzCarousel) (child : Nat) (value : ℚ) (duration : Nat) :
    BzCarousel :=
  match deref self.children child with
  | none => self
  | some c =>
    let old_size := c.size
    let self := update_shift_position_flag self child
    let play := fun (s : BzCarousel) =>
      start_resize_animation s child ⟨old_size, value, duration⟩
    match c.resize_animation with
    | some a =>
      let been_removing := c.removing
      let self := adw_animation_skip self child a
      if been_removing then self else play self
    | none => play self

/-! ## Scrolling -/

/-- Source `scroll_to`. `playing` records the call of `adw_animation_play` on the spring
animation; the values the spring then reports reach the carousel as position updates. -/
def scroll_to (self : BzCarousel) (widget : Option Nat) (velocity : ℚ) : BzCarousel :=
  match find_child_info self widget with
  | none => { self with animation_target_child := none }
  | some target =>
    { self with
      animation_target_child := some target.ptr
      animation_source_position := self.position
      animation :=
        { value_from := self.position
          value_to := target.snap_point
          initial_velocity := velocity
          playing := true } }

/-- Source `get_closest_snap_point`. -/
def get_closest_snap_point (self : BzCarousel) : ℚ :=
  match get_closest_child_at self self.position true true with
  | none => 0
  | some closest_child => closest_child.snap_point

/-- Source `update_swipe_cb`. -/
def update_swipe_cb (self : BzCarousel) (progress : ℚ) : BzCarousel :=
  set_position self progress

/-- Source `scroll_animation_value_cb`. -/
def scroll_animation_value_cb (self : BzCarousel) (value : ℚ) : BzCarousel :=
  set_position self value

/-- Source `end_swipe_cb`. -/
def end_swipe_cb (self : BzCarousel) (velocity : ℚ) (to_progress : ℚ) : BzCarousel :=
  let child := get_page_at_position self to_progress
  scroll_to self child velocity

/-! ## Pages -/

/-- Source `bz_carousel_get_n_pages`. -/
def bz_carousel_get_n_pages (self : BzCarousel) : Nat :=
  self.children.countP (fun child => !child.removing)

/-- Source `bz_carousel_get_nth_page`; `none` is `NULL`. -/
def bz_carousel_get_nth_page (self : BzCarousel) (n : Nat) : Option Nat :=
  if n < bz_carousel_get_n_pages self then
    match get_nth_link self n with
    | some j => (self.children.get? j).bind (fun info => info.widget)
    | none => none
  else none

/-- GLib `g_list_insert_before (list, sibling, data)`; `sibling = none` appends. -/
def g_list_insert_before (children : List ChildInfo) (sibling : Option Nat) (info : ChildInfo) :
    List ChildInfo :=
  match sibling with
  | some j => children.take j ++ info :: children.drop j
  | none => children ++ [info]

/-- The record `bz_carousel_insert` allocates with `g_new0` (all fields zero) at the address
`info_ptr` and initialises with `widget`, size 0 and `adding = TRUE`. -/
def new_child_info (info_ptr : Nat) (widget : Nat) : ChildInfo where
  ptr := info_ptr
  widget := some widget
  position := 0
  visible := false
  size := 0
  snap_point := 0
  adding := true
  removing := false
  shift_position := false
  resize_animation := none

/-- Source `bz_carousel_insert`; `info_ptr` is the address `g_new0` returns for the new
record. -/
def bz_carousel_insert (self : BzCarousel) (widget : Nat) (position : Int) (info_ptr : Nat) :
    BzCarousel :=
  if widget ∈ self.widget_children then self
  else if position < -1 then self
  else
    let info : ChildInfo := new_child_info info_ptr widget
    let next_link := if position ≥ 0 then get_nth_link self position else none
    let self := { self with
      children := g_list_insert_before self.children next_link info
      widget_children := widget :: self.widget_children
      is_being_allocated := true }
    animate_child_resize self info_ptr 1 self.reveal_duration

/-- Source `bz_carousel_prepend`. -/
def bz_carousel_prepend (self : BzCarousel) (widget : Nat) (info_ptr : Nat) : BzCarousel :=
  if widget ∈ self.widget_children then self else bz_carousel_insert self widget 0 info_ptr

/-- Source `bz_carousel_append`. -/
def bz_carousel_append (self : BzCarousel) (widget : Nat) (info_ptr : Nat) : BzCarousel :=
  if widget ∈ self.widget_children then self else bz_carousel_insert self widget (-1) info_ptr

/-- The first statements of `bz_carousel_remove` on the record `info` it has found:
`info->removing = TRUE`, `gtk_widget_unparent (child)` and `info->widget = NULL`. -/
def unparent_child (self : BzCarousel) (child : Nat) (info : Nat) : BzCarousel :=
  { self with
    children := update_child self.children info
      (fun c => { c with removing := true, widget := none })
    widget_children := self.widget_children.erase child }

/-- Source `bz_carousel_remove`. A failed `g_assert_nonnull` aborts; the model leaves the
state as it is. -/
def bz_carousel_remove (self : BzCarousel) (child : Nat) : BzCarousel :=
  if child ∉ self.widget_children then self
  else
    match find_child_info self (some child) with
    | none => self
    | some info =>
      let self := unparent_child self child info.ptr
      if !self.in_destruction then animate_child_resize self info.ptr 0 self.reveal_duration
      else self

/-- GLib `g_list_remove_link (list, link)`. -/
def g_list_remove_link (children : List ChildInfo) (link : Nat) : List ChildInfo :=
  children.eraseIdx link

/-- GLib `g_list_insert_before_link (list, sibling, link)` as `bz_carousel_reorder` calls it:
`children` is the list `link` has just been unlinked from, and `link` and `sibling` are raw
indices in the list before the unlinking. When `sibling` is the unlinked node itself the
GLib code only makes the node point to itself and returns the list as it is. -/
def g_list_insert_before_link (children : List ChildInfo) (sibling link : Nat)
    (info : ChildInfo) : List ChildInfo :=
  if sibling = link then children
  else if sibling < link then children.take sibling ++ info :: children.drop sibling
  else children.take (sibling - 1) ++ info :: children.drop (sibling - 1)

/-- Snap point of the record at a raw index (0 where the C code would read through `NULL`). -/
def snap_point_at (children : List ChildInfo) (j : Nat) : ℚ :=
  match children.get? j with
  | some c => c.snap_point
  | none => 0

/-- The choice of `next_link` in `bz_carousel_reorder`, for the adjusted `position`. -/
def reorder_next_link (self : BzCarousel) (old_position position n_pages : Int) : Option Nat :=
  if position = n_pages then none
  else if position > old_position then get_nth_link self (position + 1)
  else get_nth_link self position

/-- The value of `new_point` in `bz_carousel_reorder`. -/
def reorder_new_point (self : BzCarousel) (next_link : Option Nat) (old_position position : Int) :
    ℚ :=
  match next_link with
  | some j =>
    if position > old_position then snap_point_at self.children (j - 1)
    else snap_point_at self.children j
  | none =>
    match self.children.getLast? with
    | some last_info => last_info.snap_point
    | none => 0

/-- The relinking done by `bz_carousel_reorder`: the node at raw index `link` is unlinked and
put back before `next_link`, or appended. -/
def reorder_children (self : BzCarousel) (next_link : Option Nat) (link : Nat)
    (info : ChildInfo) : List ChildInfo :=
  match next_link with
  | some j => g_list_insert_before_link (g_list_remove_link self.children link) j link info
  | none => g_list_remove_link self.children link ++ [info]

/-- The update of `position_shift` at the end of `bz_carousel_reorder`. -/
def reorder_position_shift (self : BzCarousel) (closest_point old_point new_point size : ℚ) :
    ℚ :=
  if G_APPROX_VALUE closest_point old_point DBL_EPSILON then
    self.position_shift + (new_point - old_point)
  else if (G_APPROX_VALUE old_point closest_point DBL_EPSILON || old_point > closest_point)
      && (G_APPROX_VALUE closest_point new_point DBL_EPSILON || closest_point > new_point)
  then self.position_shift + size
  else if (G_APPROX_VALUE new_point closest_point DBL_EPSILON || new_point > closest_point)
      && (G_APPROX_VALUE closest_point old_point DBL_EPSILON || closest_point > old_point)
  then self.position_shift - size
  else self.position_shift

/-- Source `bz_carousel_reorder`. A `child` without a record makes the C code read through
`NULL`; the model leaves the state as it is. -/
def bz_carousel_reorder (self : BzCarousel) (child : Nat) (position : Int) : BzCarousel :=
  if position < -1 then self
  else
    let closest_point := get_closest_snap_point self
    match find_child_info self (some child) with
    | none => self
    | some info =>
      let old_position := g_list_index self.children info.ptr
      if position = old_position then self
      else
        let old_point := info.snap_point
        let n_pages : Int := (bz_carousel_get_n_pages self : Int)
        let position := if position < 0 ∨ position > n_pages then n_pages else position
        if old_position = n_pages - 1 ∧ position = n_pages then self
        else
          let next_link := reorder_next_link self old_position position n_pages
          let new_point := reorder_new_point self next_link old_position position
          { self with
            children := reorder_children self next_link old_position.toNat info
            position_shift :=
              reorder_position_shift self closest_point old_point new_point info.size
            is_being_allocated := true }

/-! ## Layout -/

/-- What the layout pass asks the toolkit: `gtk_widget_measure` (minimum, natural),
`gtk_widget_get_hexpand`, `gtk_widget_get_vexpand`, `gtk_widget_get_visible` of a child
widget, and whether the text direction of the carousel is right-to-left. -/
structure Toolkit where
  measure : Option Nat → GtkOrientation → Int → Int × Int
  hexpand : Option Nat → Bool
  vexpand : Option Nat → Bool
  visible : Option Nat → Bool
  is_rtl : Bool

/-- One `gtk_widget_allocate` call of the layout pass: the widget, its offset along the
scroll axis (`child_info->position`) and the size it is given. -/
structure Allocation where
  widget : Option Nat
  position : Int
  child_width : Int
  child_height : Int
deriving DecidableEq, Repr

/-- The `child_size` (and `this_child_size`) computation of `bz_carousel_size_allocate`. -/
def measured_child_size (self : BzCarousel) (tk : Toolkit) (width height : Int)
    (child : Option Nat) : Int :=
  match self.orientation with
  | GtkOrientation.HORIZONTAL =>
    let m := tk.measure child self.orientation height
    if tk.hexpand child then width else CLAMP m.2 m.1 width
  | GtkOrientation.VERTICAL =>
    let m := tk.measure child self.orientation width
    if tk.vexpand child then height else CLAMP m.2 m.1 height

/-- First loop of `bz_carousel_size_allocate`: sizes and `max_size`. -/
def size_loop (self : BzCarousel) (tk : Toolkit) (width height : Int) :
    List ChildInfo → Int → List ChildInfo × Int
  | [], max_size => ([], max_size)
  | child_info :: l, max_size =>
    if child_info.removing then
      let r := size_loop self tk width height l max_size
      (child_info :: r.1, r.2)
    else
      let child_size := measured_child_size self tk width height child_info.widget
      let size : ℚ := if self.uniform_spacing then 1 else (child_size : ℚ) / (width : ℚ)
      let r := size_loop self tk width height l (MAX max_size child_size)
      ({ child_info with size := size } :: r.1, r.2)

/-- Second loop of `bz_carousel_size_allocate`: snap points, and the end value of the
scroll animation when the record is the animation target. -/
def snap_point_loop (animation_target_child : Option Nat) :
    List ChildInfo → ℚ → SpringAnimation → List ChildInfo × SpringAnimation
  | [], _, animation => ([], animation)
  | child_info :: l, snap_point, animation =>
    if child_info.removing then
      let r := snap_point_loop animation_target_child l snap_point animation
      (child_info :: r.1, r.2)
    else
      let child_snap := snap_point + child_info.size - 1
      let animation :=
        if some child_info.ptr = animation_target_child then
          { animation with value_to := child_snap }
        else animation
      let r := snap_point_loop animation_target_child l (snap_point + child_info.size) animation
      ({ child_info with snap_point := child_snap } :: r.1, r.2)

/-- The `accumulated_distance` loop of the non-uniform branch. -/
def accumulated_distance_loop (distance : ℚ) (spacing : Nat) (position : ℚ)
    (target_index : Int) : List ChildInfo → Int → ℚ → ℚ
  | [], _, accumulated_distance => accumulated_distance
  | child_info :: l, current_index, accumulated_distance =>
    if child_info.removing then
      accumulated_distance_loop distance spacing position target_index l current_index
        accumulated_distance
    else if current_index < target_index then
      accumulated_distance_loop distance spacing position target_index l (current_index + 1)
        (accumulated_distance + (distance * child_info.size + (spacing : ℚ)))
    else if current_index = target_index then
      let frac := position - (target_index : ℚ)
      accumulated_distance + (distance * child_info.size + (spacing : ℚ)) * frac
    else
      accumulated_distance_loop distance spacing position target_index l (current_index + 1)
        accumulated_distance

/-- Last loop of `bz_carousel_size_allocate`: `coord` is the running `x` (horizontal) or
`y` (vertical). The sum `this_child_size + self->spacing` is computed in `unsigned int`. -/
def allocate_loop (self : BzCarousel) (tk : Toolkit) (width height max_size : Int) :
    List ChildInfo → ℚ → List ChildInfo × List Allocation
  | [], _ => ([], [])
  | child_info :: l, coord =>
    if child_info.removing then
      let r := allocate_loop self tk width height max_size l coord
      (child_info :: r.1, r.2)
    else if !tk.visible child_info.widget then
      let r := allocate_loop self tk width height max_size l coord
      (child_info :: r.1, r.2)
    else
      let this_child_size := measured_child_size self tk width height child_info.widget
      let child_width :=
        if self.uniform_spacing then
          (if self.orientation = GtkOrientation.HORIZONTAL then max_size else width)
        else (if self.orientation = GtkOrientation.HORIZONTAL then this_child_size else width)
      let child_height :=
        if self.uniform_spacing then
          (if self.orientation = GtkOrientation.HORIZONTAL then height else max_size)
        else (if self.orientation = GtkOrientation.HORIZONTAL then height else this_child_size)
      let position := c_trunc coord
      let visible :=
        if self.orientation = GtkOrientation.VERTICAL then
          decide (position < height) && decide (position + child_height > 0)
        else decide (position < width) && decide (position + child_width > 0)
      let advance : ℚ :=
        if self.uniform_spacing then self.distance * child_info.size
        else (((this_child_size + (self.spacing : Int)) % 2 ^ 32 : Int) : ℚ)
      let coord :=
        if self.orientation = GtkOrientation.VERTICAL then coord + advance
        else if tk.is_rtl then coord - advance
        else coord + advance
      let r := allocate_loop self tk width height max_size l coord
      ({ child_info with position := position, visible := visible } :: r.1,
        { widget := child_info.widget, position := position, child_width := child_width,
          child_height := child_height } :: r.2)

/-- Head of `bz_carousel_size_allocate`: the pending position shift is applied. -/
def apply_position_shift (self : BzCarousel) : BzCarousel :=
  if !G_APPROX_VALUE self.position_shift 0 DBL_EPSILON then
    { set_position self (self.position + self.position_shift) with position_shift := 0 }
  else self

/-- Source `bz_carousel_size_allocate`, with the list of `gtk_widget_allocate` calls it
makes. The sum `max_size + self->spacing` is computed in `unsigned int`. -/
def bz_carousel_size_allocate_calls (self : BzCarousel) (tk : Toolkit) (width height : Int) :
    BzCarousel × List Allocation :=
  let self := apply_position_shift self
  let sized := size_loop self tk width height self.children 0
  let max_size := sized.2
  let distance : ℚ :=
    if self.uniform_spacing then (((max_size + (self.spacing : Int)) % 2 ^ 32 : Int) : ℚ)
    else (max_size : ℚ)
  let snapped := snap_point_loop self.animation_target_child sized.1 0 self.animation
  let self := { self with children := snapped.1, distance := distance, animation := snapped.2 }
  let offset : ℚ :=
    if self.uniform_spacing then
      if self.orientation = GtkOrientation.VERTICAL then
        self.distance * self.position - ((height - max_size : Int) : ℚ) / 2
      else if tk.is_rtl then
        -(self.distance * self.position) - ((width - max_size : Int) : ℚ) / 2
      else self.distance * self.position - ((width - max_size : Int) : ℚ) / 2
    else
      let target_index := c_round self.position
      let accumulated_distance :=
        accumulated_distance_loop self.distance self.spacing self.position target_index
          self.children 0 0
      if self.orientation = GtkOrientation.VERTICAL then
        accumulated_distance - ((height - max_size : Int) : ℚ) / 2
      else if tk.is_rtl then
        -accumulated_distance - ((width - max_size : Int) : ℚ) / 2
      else accumulated_distance - ((width - max_size : Int) : ℚ) / 2
  let allocated := allocate_loop self tk width height max_size self.children (0 - offset)
  ({ self with children := allocated.1, is_being_allocated := false }, allocated.2)

/-- Source `bz_carousel_size_allocate`: the state it leaves. -/
def bz_carousel_size_allocate (self : BzCarousel) (tk : Toolkit) (width height : Int) :
    BzCarousel :=
  (bz_carousel_size_allocate_calls self tk width height).1

/-- Source `bz_carousel_get_snap_points`: the snap points of all records, in sequence
order (a single 0 when there is no record). -/
def bz_carousel_get_snap_points (self : BzCarousel) : List ℚ :=
  if self.children = [] then [0] else self.children.map (fun info => info.snap_point)

/-! ## The carousel as a state machine -/

/-- What can happen to a carousel between two observations: the public calls that change
the children, the callbacks of a child's resize animation, a position update (from the
swipe tracker or from the scroll animation), a layout pass, and a change of what
`adw_animation_play` will do (the toolkit maps or unmaps the widget). -/
inductive Event where
  | insert (widget : Nat) (position : Int) (info_ptr : Nat)
  | remove (widget : Nat)
  | reorder (widget : Nat) (position : Int)
  | resize_value (child : Nat) (value : ℚ)
  | resize_done (child : Nat)
  | set_position (value : ℚ)
  | size_allocate (tk : Toolkit) (width height : Int)
  | set_mapped (mapped : Bool)

/-- The effect of one event. The allocator never returns the address of a live record; a
resize animation only reports values between its two ends, and only while it is in flight;
its completion reports the end value and then runs the done callback. The animations the
toolkit ends when it unmaps the widget are completion events of their own. -/
def step (s : BzCarousel) : Event → BzCarousel
  | Event.insert widget position info_ptr =>
    if info_ptr ∈ s.children.map (fun c => c.ptr) then s
    else bz_carousel_insert s widget position info_ptr
  | Event.remove widget => bz_carousel_remove s widget
  | Event.reorder widget position => bz_carousel_reorder s widget position
  | Event.resize_value child value =>
    match (deref s.children child).bind (fun c => c.resize_animation) with
    | some a =>
      if min a.value_from a.value_to ≤ value ∧ value ≤ max a.value_from a.value_to then
        resize_animation_value_cb s value child
      else s
    | none => s
  | Event.resize_done child =>
    match (deref s.children child).bind (fun c => c.resize_animation) with
    | some a => adw_animation_skip s child a
    | none => s
  | Event.set_position value => set_position s value
  | Event.size_allocate tk width height => bz_carousel_size_allocate s tk width height
  | Event.set_mapped mapped => { s with mapped := mapped }

/-- The state after a sequence of events, starting from a new carousel. -/
def run (events : List Event) : BzCarousel :=
  events.foldl step bz_carousel_new

/-- A state is reachable when some sequence of events leads to it from a new carousel. -/
def Reachable (s : BzCarousel) : Prop :=
  ∃ events : List Event, s = run events

/-- Snap point of the last child record in the sequence, 0 when the sequence is empty. -/
def last_snap_point (self : BzCarousel) : ℚ :=
  match self.children.getLast? with
  | some c => c.snap_point
  | none => 0

/-- Snap points of the pages (the records not being removed), in sequence order. -/
def page_snap_points (self : BzCarousel) : List ℚ :=
  (self.children.filter (fun c => !c.removing)).map (fun c => c.snap_point)

/-- A run of resize-animation ticks of one child, `resize_animation_value_cb (v1)`, ...,
`resize_animation_value_cb (vn)`, with nothing in between. -/
def resize_ticks (self : BzCarousel) (child : Nat) (values : List ℚ) : BzCarousel :=
  values.foldl (fun s v => resize_animation_value_cb s v child) self

/-! ## Well-formedness of the children list -/

/-- Addresses of the child records, in sequence order. -/
def child_ptrs (children : List ChildInfo) : List Nat :=
  children.map (fun c => c.ptr)

/-- Distinct nodes of the children list hold distinct records. -/
def PtrsDistinct (self : BzCarousel) : Prop :=
  (child_ptrs self.children).Nodup

/-- No widget is held by two child records. -/
def WidgetsDistinct (self : BzCarousel) : Prop :=
  (self.children.filterMap (fun c => c.widget)).Nodup

/-- A function on child records that may only change the `shift_position` flag. -/
def FlagOnly (g : ChildInfo → ChildInfo) : Prop :=
  ∀ c, ∃ b, g c = { c with shift_position := b }

/-- For every child record, in sequence order: its address, its `removing` flag and, when
it is being removed, its snap point. -/
def removing_records (children : List ChildInfo) : List (Nat × Bool × Option ℚ) :=
  children.map (fun c => (c.ptr, c.removing, if c.removing then some c.snap_point else none))

/-- Widgets of the pages (the records not being removed), in sequence order. -/
def page_widgets (children : List ChildInfo) : List (Option Nat) :=
  (children.filter (fun c => !c.removing)).map (fun c => c.widget)

/-- Address and widget of every child record, in sequence order. -/
def child_ids (children : List ChildInfo) : List (Nat × Option Nat) :=
  children.map (fun c => (c.ptr, c.widget))

/-- The record at address `p` is in the children sequence and holds no widget (it has been
unparented by `bz_carousel_remove`). -/
def Held (p : Nat) (children : List ChildInfo) : Prop :=
  p ∈ child_ptrs children ∧ ∀ c ∈ children, c.ptr = p → c.widget = none

/-- Whether an event is the completion of the resize animation of the record at `p`. -/
def completes (p : Nat) : Event → Bool
  | Event.resize_done child => child == p
  | _ => false

/-- Whether `get_closest_child_at` considers a record, given its two `count_` arguments. -/
def counted (count_adding count_removing : Bool) (child : ChildInfo) : Bool :=
  !(child.adding && !count_adding) && !(child.removing && !count_removing)

/-- Body of the loop of `get_closest_child_at`. -/
def closest_step (position : ℚ) (count_adding count_removing : Bool)
    (closest_child : Option ChildInfo) (child : ChildInfo) : Option ChildInfo :=
  if child.adding && !count_adding then closest_child
  else if child.removing && !count_removing then closest_child
  else match closest_child with
    | none => some child
    | some cc =>
      if ABS (cc.snap_point - position) > ABS (child.snap_point - position) then some child
      else closest_child

/-- The value of `max_size` in `bz_carousel_size_allocate` when no shift is pending: the
largest measured size of a page, and at least 0. -/
def layout_max_size (self : BzCarousel) (tk : Toolkit) (width height : Int) : Int :=
  (size_loop self tk width height self.children 0).2

/-- The extent of the carousel along the scroll axis: its width when horizontal, its height
when vertical. -/
def layout_extent (self : BzCarousel) (width height : Int) : Int :=
  if self.orientation = GtkOrientation.VERTICAL then height else width

/-- The direction in which the last loop of `bz_carousel_size_allocate` advances: -1 for a
horizontal carousel with right-to-left text, 1 otherwise. -/
def layout_direction (self : BzCarousel) (tk : Toolkit) : ℚ :=
  if self.orientation = GtkOrientation.VERTICAL then 1 else if tk.is_rtl then -1 else 1

/-- Source `bz_carousel_set_uniform_spacing`. -/
def bz_carousel_set_uniform_spacing (self : BzCarousel) (uniform_spacing : Bool) : BzCarousel :=
  if self.uniform_spacing = uniform_spacing then self
  else { self with uniform_spacing := uniform_spacing }

/-- Relation between a child record before and after `set_position`: only the
`shift_position` flag may differ, and only for a record that is adding or removing. -/
def FlagUpdated (c c1 : ChildInfo) : Prop :=
  ∃ b, c1 = { c with shift_position := b } ∧
    (c.adding = false → c.removing = false → b = c.shift_position)

/-- The `PROP_ORIENTATION` case of source `bz_carousel_set_property`. -/
def bz_carousel_set_orientation (self : BzCarousel) (orientation : GtkOrientation) :
    BzCarousel :=
  if orientation ≠ self.orientation then { self with orientation := orientation } else self

/-- The enum `AdwNavigationDirection`. -/
inductive AdwNavigationDirection where
  | BACK
  | FORWARD
deriving DecidableEq, Repr

/-- The value of the `guint index` of `navigate_to_direction`: `round (self->position)`
converted to unsigned (the position is never negative in a reachable state). -/
def navigation_index (self : BzCarousel) : Nat :=
  (c_round self.position).toNat

/-- Source `navigate_to_direction`: the returned boolean and the state it leaves. -/
def navigate_to_direction (self : BzCarousel) (direction : AdwNavigationDirection) :
    Bool × BzCarousel :=
  let n_pages := bz_carousel_get_n_pages self
  if n_pages = 0 then (false, self)
  else
    let index := navigation_index self
    match direction with
    | AdwNavigationDirection.BACK =>
      if index > 0 then
        (true, scroll_to self (bz_carousel_get_nth_page self (index - 1)) 0)
      else (false, self)
    | AdwNavigationDirection.FORWARD =>
      if index < n_pages - 1 then
        (true, scroll_to self (bz_carousel_get_nth_page self (index + 1)) 0)
      else (false, self)


/-! ## The colour conversions of the truck paintable (`bz-truck-paintable.c`) -/

/-- The `HSV` struct: hue, saturation and value as doubles. -/
structure HSV where
  h : ℚ
  s : ℚ
  v : ℚ
deriving DecidableEq, Repr

/-- C `fmax` on numbers: the larger argument. -/
def fmax (a b : ℚ) : ℚ := if a < b then b else a

/-- C `fmin` on numbers: the smaller argument. -/
def fmin (a b : ℚ) : ℚ := if b < a then b else a

/-- C `fmod (x, y)`: `x - n * y` where `n` is `x / y` truncated toward zero. -/
def c_fmod (x y : ℚ) : ℚ := x - (c_trunc (x / y) : ℚ) * y

/-- Source `rgb_to_hsv`: the `HSV` written through the out-pointer. -/
def rgb_to_hsv (r g b : ℚ) : HSV :=
  let max := fmax (fmax r g) b
  let min := fmin (fmin r g) b
  let delta := max - min
  let v := max
  let s := if max = 0 then 0 else delta / max
  let h :=
    if delta = 0 then 0
    else if max = r then c_fmod ((g - b) / delta + (if g < b then 6 else 0)) 6 / 6
    else if max = g then ((b - r) / delta + 2) / 6
    else ((r - g) / delta + 4) / 6
  { h := h, s := s, v := v }

/-- Source `hsv_to_rgb`: the triple `(*r, *g, *b)`. `i` is `(int) floor (h)` and the
`switch` is on the C remainder `i % 6`, which is negative for a negative `i`. -/
def hsv_to_rgb (hsv : HSV) : ℚ × ℚ × ℚ :=
  let h := hsv.h * 6
  let s := hsv.s
  let v := hsv.v
  let i : Int := ⌊h⌋
  let f := h - i
  let p := v * (1 - s)
  let q := v * (1 - f * s)
  let t := v * (1 - (1 - f) * s)
  match Int.tmod i 6 with
  | 0 => (v, t, p)
  | 1 => (q, v, p)
  | 2 => (p, v, t)
  | 3 => (p, q, v)
  | 4 => (t, p, v)
  | 5 => (v, p, q)
  | _ => (0, 0, 0)

/-- The round-trip property of the two conversions at one colour: converting to HSV and
back returns the colour, and the HSV components are in range. -/
def ColourRoundTrip (r g b : ℚ) : Prop :=
  hsv_to_rgb (rgb_to_hsv r g b) = (r, g, b) ∧
  0 ≤ (rgb_to_hsv r g b).h ∧ (rgb_to_hsv r g b).h < 1 ∧
  0 ≤ (rgb_to_hsv r g b).s ∧ (rgb_to_hsv r g b).s ≤ 1 ∧
  0 ≤ (rgb_to_hsv r g b).v ∧ (rgb_to_hsv r g b).v ≤ 1

/-! ## The fading clamp (`bz-fading-clamp.c`) -/

/-- GLib `MIN (a, b)`: `((a) < (b)) ? (a) : (b)`. -/
def MIN {α : Type} [LinearOrder α] (a b : α) : α := if a < b then a else b

/-- The fields of `struct _BzFadingClamp` that `bz_fading_clamp_measure` reads or writes.
`child` is the `GtkWidget *` (`none` is `NULL`); the heights and the width are C `int`. -/
structure BzFadingClamp where
  child : Option Nat
  max_height : Int
  min_max_height : Int
  current_height : Int
  allocated_width : Int
  animating_max_height : Bool
  will_change : Bool
deriving DecidableEq, Repr

/-- The answers of `gtk_widget_measure` on the child of a fading clamp: for an orientation
and a `for_size`, the pair `(minimum, natural)`. -/
abbrev ChildMeasure := GtkOrientation → Int → Int × Int

/-- Source `bz_fading_clamp_update_will_change`: recomputes `will_change` from the child's
natural height at the allocated width (or at its natural width when none is allocated). -/
def bz_fading_clamp_update_will_change (self : BzFadingClamp) (measure : ChildMeasure) :
    BzFadingClamp :=
  let new_value : Bool :=
    match self.child with
    | none => false
    | some _ =>
      let width :=
        if self.allocated_width > 0 then self.allocated_width
        else (measure GtkOrientation.HORIZONTAL (-1)).2
      let natural_height := (measure GtkOrientation.VERTICAL width).2
      decide (natural_height > self.min_max_height)
  if self.will_change ≠ new_value then { self with will_change := new_value } else self

/-- The out-parameters `*minimum` and `*natural` of `bz_fading_clamp_measure`, with the
state of the clamp after the call. -/
structure MeasureResult where
  self : BzFadingClamp
  minimum : Int
  natural : Int
deriving DecidableEq, Repr

/-- Source `bz_fading_clamp_measure` (the baselines are not modelled). -/
def bz_fading_clamp_measure (self : BzFadingClamp) (measure : ChildMeasure)
    (orientation : GtkOrientation) (for_size : Int) : MeasureResult :=
  match self.child with
  | none => ⟨self, 0, 0⟩
  | some _ =>
    if orientation = GtkOrientation.HORIZONTAL then
      ⟨self, (measure orientation for_size).1, (measure orientation for_size).2⟩
    else
      let minimum := (measure GtkOrientation.VERTICAL for_size).1
      let natural := (measure GtkOrientation.VERTICAL for_size).2
      let target_height := MIN natural self.max_height
      let self1 := bz_fading_clamp_update_will_change self measure
      let self2 :=
        if self1.animating_max_height = false ∧ target_height ≠ self1.current_height then
          { self1 with current_height := target_height }
        else self1
      ⟨self2, MIN minimum self2.current_height, MIN natural self2.current_height⟩

/-! ## The preferences dialog (`bz-preferences-dialog.c`) -/

/-- A `BzRepository` as far as the dialog reads it: its `name` property. -/
structure BzRepository where
  name : String
deriving DecidableEq, Repr

/-- A `BzStateInfo` as far as the dialog reads it: the repository list model. -/
structure BzStateInfo where
  repositories : List BzRepository
deriving DecidableEq, Repr

/-- The fields of `struct _BzPreferencesDialog` the duplicate check reads or writes. -/
structure BzPreferencesDialog where
  state : BzStateInfo
  scope_dropdown_visible : Bool
deriving DecidableEq, Repr

/-- The `for` loop of `check_duplicate_repositories` over the items not yet visited; `seen`
holds the keys of the hash table. `g_hash_table_add` returns `FALSE` exactly when the key
is already in the table, and the loop then returns `TRUE`. -/
def check_duplicate_loop : List BzRepository → List String → Bool
  | [], _ => false
  | repository :: rest, seen =>
    if repository.name ∈ seen then true
    else check_duplicate_loop rest (repository.name :: seen)

/-- Source `check_duplicate_repositories`. -/
def check_duplicate_repositories (self : BzPreferencesDialog) : Bool :=
  check_duplicate_loop self.state.repositories []

/-- Source `bz_preferences_dialog_init`, as far as the modelled fields go: the instance
`g_object_new` returns before the state is attached. -/
def bz_preferences_dialog_init (state : BzStateInfo) : BzPreferencesDialog :=
  { state := state, scope_dropdown_visible := false }

/-- Source `bz_preferences_dialog_new` (for a valid `state`). -/
def bz_preferences_dialog_new (state : BzStateInfo) : BzPreferencesDialog :=
  let dialog := bz_preferences_dialog_init state
  { dialog with scope_dropdown_visible := check_duplicate_repositories dialog }

/-- An example clamp with a child, limited to 300 pixels. -/
def example_clamp : BzFadingClamp :=
  { child := some 1, max_height := 300, min_max_height := 200, current_height := 0,
    allocated_width := 0, animating_max_height := false, will_change := false }

/-- An example child that needs 120 pixels and would like 500. -/
def example_child_measure : ChildMeasure :=
  fun orientation _ =>
    match orientation with
    | GtkOrientation.HORIZONTAL => (50, 80)
    | GtkOrientation.VERTICAL => (120, 500)

/-! ## Binary64 arithmetic of the resize callback -/

/-- The rational `2 ^ e` for an integer exponent. -/
def pow2 (e : Int) : ℚ :=
  if 0 ≤ e then (2 : ℚ) ^ e.toNat else 1 / (2 : ℚ) ^ (-e).toNat

/-- Number of binary digits of `n`, counted by halving; `fuel` bounds the number of steps. -/
def bit_length_loop : Nat → Nat → Nat
  | 0, _ => 0
  | fuel + 1, n => if n = 0 then 0 else bit_length_loop fuel (n / 2) + 1

/-- Number of binary digits of `n` (0 for 0). -/
def bit_length (n : Nat) : Nat := bit_length_loop n n

/-- The binary exponent of a positive rational `a`: the `e` with `2 ^ e ≤ a < 2 ^ (e + 1)`.
The difference of the bit lengths of numerator and denominator is `e` or `e + 1`. -/
def binary64_exponent (a : ℚ) : Int :=
  let e : Int := (bit_length a.num.natAbs : Int) - (bit_length a.den : Int)
  if a < pow2 e then e - 1 else e

/-- Rounding of a real result to IEEE-754 binary64 in the default mode: the nearest number
with a 53-bit significand, ties to the even significand. The exponent range is not bounded
(no overflow, no subnormal numbers), which agrees with binary64 for magnitudes between
`2^-1022` and `2^1024`. -/
def binary64_round (x : ℚ) : ℚ :=
  if x = 0 then 0
  else
    let a := ABS x
    let ulp := pow2 (binary64_exponent a - 52)
    let q := a / ulp
    let n : Int := ⌊q⌋
    let r := q - n
    let m : Int :=
      if r < 1 / 2 then n
      else if 1 / 2 < r then n + 1
      else if n % 2 = 0 then n else n + 1
    if x < 0 then -((m : ℚ) * ulp) else (m : ℚ) * ulp

/-- Source `resize_animation_value_cb` with the two `double` operations rounded to
binary64: the subtraction `value - child->size` and the addition
`self->position_shift += delta`. -/
def resize_animation_value_cb_binary64 (self : BzCarousel) (value : ℚ) (child : Nat) :
    BzCarousel :=
  match deref self.children child with
  | none => self
  | some c =>
    let delta := binary64_round (value - c.size)
    let self := { self with
      children := update_child self.children child (fun c => { c with size := value }) }
    if c.shift_position then
      { self with position_shift := binary64_round (self.position_shift + delta) }
    else self

/-- A run of resize-animation ticks of one child in binary64 arithmetic. -/
def resize_ticks_binary64 (self : BzCarousel) (child : Nat) (values : List ℚ) : BzCarousel :=
  values.foldl (fun s v => resize_animation_value_cb_binary64 s v child) self
/-! ## Concrete toolkits, states and event sequences used by the examples

Every example sequence first maps the carousel, so that a resize animation stays in flight
until its completion event. -/

/-- A toolkit in which every page measures minimum 10, natural 50, does not expand, is
visible, and the text direction is left-to-right. -/
def example_toolkit : Toolkit where
  measure := fun _ _ _ => (10, 50)
  hexpand := fun _ => false
  vexpand := fun _ => false
  visible := fun _ => true
  is_rtl := false

/-- Page 1 is appended and grows to full size, a layout pass runs, page 2 is inserted in
front of it and its grow animation reports the value 1/2. -/
def shifted_state : BzCarousel :=
  run [Event.set_mapped true, Event.insert 1 (-1) 101, Event.resize_done 101,
    Event.size_allocate example_toolkit 100 100,
    Event.insert 2 0 102, Event.resize_value 102 (1 / 2)]

/-- Pages 1 and 2 are appended and grow to full size, a layout pass runs, a swipe moves the
position to 2/5, page 2 is removed and its shrink animation completes. -/
def removed_last_page : List Event :=
  [Event.set_mapped true, Event.insert 1 (-1) 101, Event.resize_done 101,
    Event.insert 2 (-1) 102, Event.resize_done 102,
    Event.size_allocate example_toolkit 100 100,
    Event.set_position (2 / 5),
    Event.remove 2, Event.resize_done 102]

/-- Pages 1, 2 and 3 are appended and grow to full size, a layout pass runs, then page 2 and
page 1 are removed; their shrink animations are still in flight. -/
def two_pages_shrinking : List Event :=
  [Event.set_mapped true, Event.insert 1 (-1) 101, Event.resize_done 101,
    Event.insert 2 (-1) 102, Event.resize_done 102,
    Event.insert 3 (-1) 103, Event.resize_done 103,
    Event.size_allocate example_toolkit 100 100,
    Event.remove 2, Event.remove 1]

/-- Page 1 is appended and grows to full size, a layout pass runs, page 2 is inserted in
front of it and its grow animation reports the value `2^-53`. -/
def tiny_shift_state : BzCarousel :=
  run [Event.set_mapped true, Event.insert 1 (-1) 101, Event.resize_done 101,
    Event.size_allocate example_toolkit 100 100,
    Event.insert 2 0 102, Event.resize_value 102 (1 / 2 ^ 53)]

/-- Pages 1 and 2 are appended and grow to full size, a layout pass runs, and page 2 is
removed; its shrink animation is in flight. -/
def last_page_shrinking : BzCarousel :=
  run [Event.set_mapped true, Event.insert 1 (-1) 101, Event.resize_done 101,
    Event.insert 2 (-1) 102, Event.resize_done 102,
    Event.size_allocate example_toolkit 100 100,
    Event.remove 2]

/-- Pages 1 and 2 are appended and grow to full size and a layout pass runs. -/
def two_pages : BzCarousel :=
  run [Event.set_mapped true, Event.insert 1 (-1) 101, Event.resize_done 101,
    Event.insert 2 (-1) 102, Event.resize_done 102,
    Event.size_allocate example_toolkit 100 100]

/-- Page 1 is appended and grows to full size, then page 2 is appended; the grow animation
of page 2 is still in flight. -/
def page_growing : BzCarousel :=
  run [Event.set_mapped true, Event.insert 1 (-1) 101, Event.resize_done 101,
    Event.insert 2 (-1) 102]

/-- The record of page 2 in `page_growing`: its grow animation from 0 to 1 is in flight. -/
def new_page_two : ChildInfo where
  ptr := 102
  widget := some 2
  position := 0
  visible := false
  size := 0
  snap_point := 0
  adding := true
  removing := false
  shift_position := false
  resize_animation := some ⟨0, 1, 0⟩

/-- The record of page 1 in `two_pages`. -/
def idle_page_one : ChildInfo where
  ptr := 101
  widget := some 1
  position := 25
  visible := true
  size := 1
  snap_point := 0
  adding := false
  removing := false
  shift_position := false
  resize_animation := none

/-- The record of page 2 in `two_pages`. -/
def idle_page_two : ChildInfo where
  ptr := 102
  widget := some 2
  position := 75
  visible := true
  size := 1
  snap_point := 1
  adding := false
  removing := false
  shift_position := false
  resize_animation := none

/-- A new carousel is switched to non-uniform spacing, pages 1 and 2 are appended and grow
to full size, and a layout pass runs in a carousel 100 wide; each page measures 50. -/
def nonuniform_two_pages : BzCarousel :=
  [Event.set_mapped true, Event.insert 1 (-1) 101, Event.resize_done 101,
    Event.insert 2 (-1) 102, Event.resize_done 102,
    Event.size_allocate example_toolkit 100 100].foldl step
    (bz_carousel_set_uniform_spacing bz_carousel_new false)

/-- Pages 1, 2 and 3 are appended and grow to full size, a layout pass runs, and page 1 is
removed; its shrink animation is in flight, so its record is still first in the sequence. -/
def first_page_shrinking : BzCarousel :=
  run [Event.set_mapped true, Event.insert 1 (-1) 101, Event.resize_done 101,
    Event.insert 2 (-1) 102, Event.resize_done 102,
    Event.insert 3 (-1) 103, Event.resize_done 103,
    Event.size_allocate example_toolkit 100 100,
    Event.remove 1]

/-- The record of page 2 in `last_page_shrinking`: removed, shrinking from 1 to 0. -/
def shrinking_page_two : ChildInfo where
  ptr := 102
  widget := none
  position := 75
  visible := true
  size := 1
  snap_point := 1
  adding := false
  removing := true
  shift_position := false
  resize_animation := some ⟨1, 0, 0⟩

/-- A toolkit in which every page measures minimum 10, natural 150, does not expand and is
visible. -/
def tall_toolkit : Toolkit where
  measure := fun _ _ _ => (10, 150)
  hexpand := fun _ => false
  vexpand := fun _ => false
  visible := fun _ => true
  is_rtl := false

/-- A new carousel is switched to non-uniform spacing and vertical orientation, page 1 is
appended and grows to full size. -/
def vertical_nonuniform_page : BzCarousel :=
  [Event.set_mapped true, Event.insert 1 (-1) 101, Event.resize_done 101].foldl step
    (bz_carousel_set_orientation (bz_carousel_set_uniform_spacing bz_carousel_new false)
      GtkOrientation.VERTICAL)

/-- Pages 1, 2 and 3 are appended and grow to full size, a layout pass runs, and a swipe
moves the position to 2, the snap point of page 3. -/
def three_pages_at_last : BzCarousel :=
  run [Event.set_mapped true, Event.insert 1 (-1) 101, Event.resize_done 101,
    Event.insert 2 (-1) 102, Event.resize_done 102,
    Event.insert 3 (-1) 103, Event.resize_done 103,
    Event.size_allocate example_toolkit 100 100,
    Event.set_position 2]

/-- Page 1 is appended and grows to full size, a layout pass runs, and page 1 is removed;
its shrink animation is in flight, so its record is the only one in the sequence. -/
def only_page_shrinking : BzCarousel :=
  run [Event.set_mapped true, Event.insert 1 (-1) 101, Event.resize_done 101,
    Event.size_allocate example_toolkit 100 100,
    Event.remove 1]

/-- Pages 1, 2 and 3 are appended, a layout pass runs while they are still growing, the
position is moved to 2, and pages 3 and 2 are removed while still growing. -/
def position_past_pages : BzCarousel :=
  run [Event.set_mapped true,
    Event.insert 1 (-1) 101, Event.insert 2 (-1) 102, Event.insert 3 (-1) 103,
    Event.size_allocate example_toolkit 100 100,
    Event.set_position 2,
    Event.remove 3, Event.remove 2]

/-- Pages 1, 2 and 3 are appended and grow to full size, and a layout pass runs; the
position is 0, the snap point of page 1. -/
def three_pages_at_first : BzCarousel :=
  run [Event.set_mapped true, Event.insert 1 (-1) 101, Event.resize_done 101,
    Event.insert 2 (-1) 102, Event.resize_done 102,
    Event.insert 3 (-1) 103, Event.resize_done 103,
    Event.size_allocate example_toolkit 100 100]

/-- Pages 1 to 4 are appended and grow to full size, a layout pass runs, then page 2 and
page 1 are removed; their shrink animations are still in flight. -/
def two_of_four_shrinking : BzCarousel :=
  run [Event.set_mapped true, Event.insert 1 (-1) 101, Event.resize_done 101,
    Event.insert 2 (-1) 102, Event.resize_done 102,
    Event.insert 3 (-1) 103, Event.resize_done 103,
    Event.insert 4 (-1) 104, Event.resize_done 104,
    Event.size_allocate example_toolkit 100 100,
    Event.remove 2, Event.remove 1]

/-- Pages 1, 2 and 3 are appended and grow to full size, a layout pass runs, a swipe moves
the position to 2 (the snap point of page 3), page 2 is removed (its shrink animation is
in flight) and page 3 is reordered to the front. -/
def reordered_past_shrinking_page : BzCarousel :=
  run [Event.set_mapped true, Event.insert 1 (-1) 101, Event.resize_done 101,
    Event.insert 2 (-1) 102, Event.resize_done 102,
    Event.insert 3 (-1) 103, Event.resize_done 103,
    Event.size_allocate example_toolkit 100 100,
    Event.set_position 2,
    Event.remove 2, Event.reorder 3 0]

/-- Page 1 is appended and grows to full size, a layout pass runs, page 2 is inserted in
front and grows to full size, which leaves a pending shift of 1, and page 3 is inserted in
front; its grow animation is in flight, its size is 0 and its shift flag is set. -/
def growing_page_with_pending_shift : BzCarousel :=
  run [Event.set_mapped true, Event.insert 1 (-1) 101, Event.resize_done 101,
    Event.size_allocate example_toolkit 100 100,
    Event.insert 2 0 102, Event.resize_done 102,
    Event.insert 3 0 103]

/-! # Theorems -/


/-! ## Frame lemmas for the shift flags and `set_position` -/

theorem update_shift_position_flag_position (s : BzCarousel) (c : Nat) :
    (update_shift_position_flag s c).position = s.position := by
  unfold update_shift_position_flag
  split <;> rfl

theorem update_shift_position_flag_position_shift (s : BzCarousel) (c : Nat) :
    (update_shift_position_flag s c).position_shift = s.position_shift := by
  unfold update_shift_position_flag
  split <;> rfl

theorem flag_loop_position (l : List ChildInfo) (s : BzCarousel) :
    (l.foldl (fun s child =>
      if child.adding || child.removing then update_shift_position_flag s child.ptr else s)
      s).position = s.position := by
  induction l generalizing s with
  | nil => rfl
  | cons c l ih =>
    simp only [List.foldl_cons]
    rw [ih]
    split
    · exact update_shift_position_flag_position s c.ptr
    · rfl

theorem flag_loop_position_shift (l : List ChildInfo) (s : BzCarousel) :
    (l.foldl (fun s child =>
      if child.adding || child.removing then update_shift_position_flag s child.ptr else s)
      s).position_shift = s.position_shift := by
  induction l generalizing s with
  | nil => rfl
  | cons c l ih =>
    simp only [List.foldl_cons]
    rw [ih]
    split
    · exact update_shift_position_flag_position_shift s c.ptr
    · rfl

theorem get_range_eq (s : BzCarousel) :
    get_range s = (0, MAX 0 (s.position_shift + last_snap_point s)) := by
  unfold get_range last_snap_point
  rfl

theorem set_position_position (s : BzCarousel) (p : ℚ) :
    (set_position s p).position = CLAMP p 0 (MAX 0 (s.position_shift + last_snap_point s)) := by
  unfold set_position
  simp only [flag_loop_position, get_range_eq]

theorem set_position_position_shift (s : BzCarousel) (p : ℚ) :
    (set_position s p).position_shift = s.position_shift := by
  unfold set_position
  simp only [flag_loop_position_shift]

theorem MAX_zero_nonneg (a : ℚ) : 0 ≤ MAX 0 a := by
  unfold MAX
  split
  · exact le_refl 0
  · rename_i h
    exact not_lt.mp h

theorem CLAMP_bounds (x low high : ℚ) (h : low ≤ high) :
    low ≤ CLAMP x low high ∧ CLAMP x low high ≤ high := by
  unfold CLAMP
  split
  · exact ⟨h, le_refl _⟩
  · rename_i h1
    split
    · exact ⟨le_refl _, h⟩
    · rename_i h2
      exact ⟨not_lt.mp h2, not_lt.mp h1⟩

theorem CLAMP_of_mem (x low high : ℚ) (h1 : low ≤ x) (h2 : x ≤ high) : CLAMP x low high = x := by
  unfold CLAMP
  rw [if_neg (not_lt.mpr h2), if_neg (not_lt.mpr h1)]


/-! ## The scroll position is only written by `set_position` -/

theorem resize_animation_value_cb_position (s : BzCarousel) (v : ℚ) (c : Nat) :
    (resize_animation_value_cb s v c).position = s.position := by
  unfold resize_animation_value_cb
  split
  · rfl
  · dsimp only
    split <;> rfl

theorem resize_animation_done_cb_position (s : BzCarousel) (c : Nat) :
    (resize_animation_done_cb s c).position = s.position := by
  unfold resize_animation_done_cb
  split
  · rfl
  · dsimp only
    split <;> rfl

theorem adw_animation_skip_position (s : BzCarousel) (c : Nat) (a : TimedAnimation) :
    (adw_animation_skip s c a).position = s.position := by
  unfold adw_animation_skip
  rw [resize_animation_done_cb_position, resize_animation_value_cb_position]

theorem start_resize_animation_position (s : BzCarousel) (c : Nat) (a : TimedAnimation) :
    (start_resize_animation s c a).position = s.position := by
  unfold start_resize_animation adw_animation_play
  split
  · rfl
  · rw [adw_animation_skip_position]

theorem animate_child_resize_position (s : BzCarousel) (c : Nat) (v : ℚ) (d : Nat) :
    (animate_child_resize s c v d).position = s.position := by
  unfold animate_child_resize
  split
  · rfl
  · dsimp only
    split
    · split
      · rw [adw_animation_skip_position, update_shift_position_flag_position]
      · rw [start_resize_animation_position, adw_animation_skip_position,
          update_shift_position_flag_position]
    · rw [start_resize_animation_position, update_shift_position_flag_position]

theorem bz_carousel_insert_position (s : BzCarousel) (w : Nat) (p : Int) (a : Nat) :
    (bz_carousel_insert s w p a).position = s.position := by
  unfold bz_carousel_insert
  split
  · rfl
  · split
    · rfl
    · dsimp only
      rw [animate_child_resize_position]

theorem bz_carousel_remove_position (s : BzCarousel) (w : Nat) :
    (bz_carousel_remove s w).position = s.position := by
  unfold bz_carousel_remove
  split
  · rfl
  · split
    · rfl
    · dsimp only
      split
      · rw [animate_child_resize_position]; rfl
      · rfl

theorem bz_carousel_reorder_position (s : BzCarousel) (w : Nat) (p : Int) :
    (bz_carousel_reorder s w p).position = s.position := by
  unfold bz_carousel_reorder
  split
  · rfl
  · dsimp only
    split
    · rfl
    · split_ifs <;> rfl

theorem apply_position_shift_position (s : BzCarousel) :
    (apply_position_shift s).position =
      if G_APPROX_VALUE s.position_shift 0 DBL_EPSILON = true then s.position
      else CLAMP (s.position + s.position_shift) 0
        (MAX 0 (s.position_shift + last_snap_point s)) := by
  unfold apply_position_shift
  cases h : G_APPROX_VALUE s.position_shift 0 DBL_EPSILON
  · simp [set_position_position]
  · simp

theorem bz_carousel_size_allocate_position (s : BzCarousel) (tk : Toolkit) (width height : Int) :
    (bz_carousel_size_allocate s tk width height).position = (apply_position_shift s).position :=
  rfl

theorem apply_position_shift_position_nonneg (s : BzCarousel) (h : 0 ≤ s.position) :
    0 ≤ (apply_position_shift s).position := by
  rw [apply_position_shift_position]
  split
  · exact h
  · exact (CLAMP_bounds _ 0 _ (MAX_zero_nonneg _)).1

theorem step_position_nonneg (s : BzCarousel) (e : Event) (h : 0 ≤ s.position) :
    0 ≤ (step s e).position := by
  cases e with
  | insert w p a =>
    simp only [step]
    split
    · exact h
    · rw [bz_carousel_insert_position]; exact h
  | remove w => simp only [step]; rw [bz_carousel_remove_position]; exact h
  | reorder w p => simp only [step]; rw [bz_carousel_reorder_position]; exact h
  | resize_value c v =>
    simp only [step]
    split
    · split
      · rw [resize_animation_value_cb_position]; exact h
      · exact h
    · exact h
  | resize_done c =>
    simp only [step]
    split
    · rw [adw_animation_skip_position]; exact h
    · exact h
  | set_position v =>
    simp only [step]
    rw [set_position_position]
    exact (CLAMP_bounds _ 0 _ (MAX_zero_nonneg _)).1
  | size_allocate tk width height =>
    simp only [step]
    rw [bz_carousel_size_allocate_position]
    exact apply_position_shift_position_nonneg s h
  | set_mapped m => exact h

theorem foldl_step_position_nonneg (events : List Event) (s : BzCarousel) (h : 0 ≤ s.position) :
    0 ≤ (events.foldl step s).position := by
  induction events generalizing s with
  | nil => exact h
  | cons e l ih => exact ih (step s e) (step_position_nonneg s e h)

theorem run_position_nonneg (events : List Event) : 0 ≤ (run events).position :=
  foldl_step_position_nonneg events bz_carousel_new (le_refl 0)

/-! ## Claims about the scroll range -/

/-- C1 (as amended): `set_position` stores the requested value clamped into
`[0, MAX (0, position_shift + s)]`, where `s` is the snap point of the last child record
(0 when there is none): the stored position lies in that range, and a value already inside
the range is stored unchanged. -/
theorem set_position_clamps_to_shifted_range (s : BzCarousel) (p : ℚ) :
    0 ≤ (set_position s p).position ∧
    (set_position s p).position ≤ MAX 0 (s.position_shift + last_snap_point s) ∧
    (0 ≤ p ∧ p ≤ MAX 0 (s.position_shift + last_snap_point s) →
      (set_position s p).position = p) := by
  rw [set_position_position]
  refine ⟨(CLAMP_bounds _ 0 _ (MAX_zero_nonneg _)).1, (CLAMP_bounds _ 0 _ (MAX_zero_nonneg _)).2, ?_⟩
  intro h
  exact CLAMP_of_mem p 0 _ h.1 h.2

/-- C1 as stated fails: in a reachable state with a pending position shift of 1/2 and last
snap point 0, `set_position` with the value 1/2 stores 1/2, which is not in `[0, 0]`. -/
theorem set_position_exceeds_last_snap_point :
    ¬ (0 ≤ (set_position shifted_state (1 / 2)).position ∧
       (set_position shifted_state (1 / 2)).position ≤ last_snap_point shifted_state) := by
  decide!

/-- C2 (as amended): after a layout pass in any reachable state the scroll position is
non-negative; when the pass applies a pending shift the position is at most
`MAX (0, position_shift + s)` for the shift and last snap point `s` from before the pass, and
when it applies none the pass leaves the position as it was. -/
theorem position_after_size_allocate (events : List Event) (tk : Toolkit) (width height : Int) :
    0 ≤ (bz_carousel_size_allocate (run events) tk width height).position ∧
    (G_APPROX_VALUE (run events).position_shift 0 DBL_EPSILON = false →
      (bz_carousel_size_allocate (run events) tk width height).position ≤
        MAX 0 ((run events).position_shift + last_snap_point (run events))) ∧
    (G_APPROX_VALUE (run events).position_shift 0 DBL_EPSILON = true →
      (bz_carousel_size_allocate (run events) tk width height).position =
        (run events).position) := by
  rw [bz_carousel_size_allocate_position]
  refine ⟨apply_position_shift_position_nonneg _ (run_position_nonneg events), ?_, ?_⟩
  · intro h
    rw [apply_position_shift_position, h]
    simp only [Bool.false_eq_true, if_false]
    exact (CLAMP_bounds _ 0 _ (MAX_zero_nonneg _)).2
  · intro h
    rw [apply_position_shift_position, h]
    simp

/-- C2 as stated fails: after page 2 of two pages is removed while the position is 2/5, the
next layout pass leaves the position at 2/5, above the last snap point 0. -/
theorem position_above_last_snap_point_after_size_allocate :
    ¬ (0 ≤ (run (removed_last_page ++
          [Event.size_allocate example_toolkit 100 100])).position ∧
       (run (removed_last_page ++ [Event.size_allocate example_toolkit 100 100])).position ≤
         last_snap_point
           (run (removed_last_page ++ [Event.size_allocate example_toolkit 100 100]))) := by
  decide!

/-! ## Snap points after a layout pass -/

theorem update_shift_position_flag_eq (s : BzCarousel) (c : Nat) :
    update_shift_position_flag s c =
      { s with children := (update_shift_position_flag s c).children } := by
  unfold update_shift_position_flag
  split <;> rfl

theorem flag_loop_eq (l : List ChildInfo) (s : BzCarousel) :
    l.foldl (fun s child =>
      if child.adding || child.removing then update_shift_position_flag s child.ptr else s) s =
    { s with children := (l.foldl (fun s child =>
      if child.adding || child.removing then update_shift_position_flag s child.ptr else s)
      s).children } := by
  induction l generalizing s with
  | nil => rfl
  | cons c l ih =>
    simp only [List.foldl_cons]
    rw [ih]
    split
    · rw [update_shift_position_flag_eq]
    · rfl

theorem set_position_eq (s : BzCarousel) (p : ℚ) :
    set_position s p =
      { s with children := (set_position s p).children, position := (set_position s p).position } := by
  unfold set_position
  dsimp only
  rw [flag_loop_eq]

theorem apply_position_shift_uniform_spacing (s : BzCarousel) :
    (apply_position_shift s).uniform_spacing = s.uniform_spacing := by
  unfold apply_position_shift
  split
  · rw [set_position_eq]
  · rfl

theorem measured_child_size_nonneg (s : BzCarousel) (tk : Toolkit) (width height : Int)
    (w : Option Nat) (hw : 0 ≤ width) (hh : 0 ≤ height)
    (hm : ∀ w o f, 0 ≤ (tk.measure w o f).1) :
    0 ≤ measured_child_size s tk width height w := by
  unfold measured_child_size CLAMP
  split
  · dsimp only
    split_ifs with h1 h2 h3
    · exact hw
    · exact hw
    · exact hm _ _ _
    · exact le_trans (hm w s.orientation height) (not_lt.mp h3)
  · dsimp only
    split_ifs with h1 h2 h3
    · exact hh
    · exact hh
    · exact hm _ _ _
    · exact le_trans (hm w s.orientation width) (not_lt.mp h3)

theorem size_loop_size_nonneg (s : BzCarousel) (tk : Toolkit) (width height : Int)
    (h : s.uniform_spacing = true ∨
      (0 < width ∧ 0 ≤ height ∧ ∀ w o f, 0 ≤ (tk.measure w o f).1))
    (l : List ChildInfo) (m : Int) :
    ∀ c ∈ (size_loop s tk width height l m).1, c.removing = false → 0 ≤ c.size := by
  induction l generalizing m with
  | nil => intro c hc; simp [size_loop] at hc
  | cons a l ih =>
    intro c hc hr
    unfold size_loop at hc
    split at hc
    · rename_i hrem
      simp only [List.mem_cons] at hc
      rcases hc with rfl | hc
      · rw [hrem] at hr; exact absurd hr (by simp)
      · exact ih m c hc hr
    · simp only [List.mem_cons] at hc
      rcases hc with rfl | hc
      · dsimp only
        rcases h with hu | ⟨hw, hh, hm⟩
        · rw [if_pos hu]; exact zero_le_one
        · split
          · exact zero_le_one
          · apply div_nonneg
            · exact_mod_cast measured_child_size_nonneg s tk width height a.widget (le_of_lt hw) hh hm
            · exact_mod_cast le_of_lt hw
      · exact ih _ c hc hr

theorem snap_point_loop_sorted (target : Option Nat) (l : List ChildInfo) (acc : ℚ)
    (anim : SpringAnimation) (h : ∀ c ∈ l, c.removing = false → 0 ≤ c.size) :
    List.Sorted (· ≤ ·)
      (((snap_point_loop target l acc anim).1.filter (fun c => !c.removing)).map
        (fun c => c.snap_point)) ∧
    ∀ x ∈ ((snap_point_loop target l acc anim).1.filter (fun c => !c.removing)).map
        (fun c => c.snap_point), acc - 1 ≤ x := by
  induction l generalizing acc anim with
  | nil => simp [snap_point_loop]
  | cons a l ih =>
    have hl : ∀ c ∈ l, c.removing = false → 0 ≤ c.size :=
      fun c hc => h c (List.mem_cons_of_mem a hc)
    unfold snap_point_loop
    split
    · rename_i hrem
      dsimp only
      rw [List.filter_cons_of_neg (by simp [hrem])]
      exact ih acc anim hl
    · rename_i hrem
      have hsize : 0 ≤ a.size := h a (List.mem_cons_self a l) (by simpa using hrem)
      dsimp only
      rw [List.filter_cons_of_pos (by simpa using hrem)]
      simp only [List.map_cons, List.sorted_cons, List.mem_cons]
      obtain ⟨ih1, ih2⟩ := ih (acc + a.size) _ hl
      refine ⟨⟨?_, ih1⟩, ?_⟩
      · intro x hx
        have := ih2 x hx
        linarith
      · intro x hx
        rcases hx with rfl | hx
        · linarith
        · have := ih2 x hx
          linarith

theorem allocate_loop_page_snap_points (s : BzCarousel) (tk : Toolkit)
    (width height max_size : Int) (l : List ChildInfo) (coord : ℚ) :
    ((allocate_loop s tk width height max_size l coord).1.filter (fun c => !c.removing)).map
        (fun c => c.snap_point) =
      (l.filter (fun c => !c.removing)).map (fun c => c.snap_point) := by
  induction l generalizing coord with
  | nil => simp [allocate_loop]
  | cons a l ih =>
    unfold allocate_loop
    split
    · rename_i hrem
      dsimp only
      rw [List.filter_cons_of_neg (by simp [hrem]), List.filter_cons_of_neg (by simp [hrem])]
      exact ih coord
    · rename_i hrem
      split
      · dsimp only
        rw [List.filter_cons_of_pos (by simpa using hrem),
          List.filter_cons_of_pos (by simpa using hrem)]
        simp only [List.map_cons]
        rw [ih coord]
      · dsimp only
        rw [List.filter_cons_of_pos (by simpa using hrem),
          List.filter_cons_of_pos (by simpa using hrem)]
        simp only [List.map_cons]
        rw [ih]

theorem bz_carousel_size_allocate_children (s : BzCarousel) (tk : Toolkit) (width height : Int) :
    ∃ max_size coord,
      (bz_carousel_size_allocate s tk width height).children =
        (allocate_loop
          { apply_position_shift s with
            children := (snap_point_loop (apply_position_shift s).animation_target_child
              (size_loop (apply_position_shift s) tk width height
                (apply_position_shift s).children 0).1 0 (apply_position_shift s).animation).1
            distance := if (apply_position_shift s).uniform_spacing then
                (((max_size + ((apply_position_shift s).spacing : Int)) % 2 ^ 32 : Int) : ℚ)
              else (max_size : ℚ)
            animation := (snap_point_loop (apply_position_shift s).animation_target_child
              (size_loop (apply_position_shift s) tk width height
                (apply_position_shift s).children 0).1 0 (apply_position_shift s).animation).2 }
          tk width height max_size
          (snap_point_loop (apply_position_shift s).animation_target_child
            (size_loop (apply_position_shift s) tk width height
              (apply_position_shift s).children 0).1 0 (apply_position_shift s).animation).1
          coord).1 :=
  ⟨_, _, rfl⟩

/-- C3 as stated fails: with pages 1, 2, 3 laid out and then pages 2 and 1 removed, the next
layout pass leaves the snap points 0, 1, 0 in sequence order. -/
theorem snap_points_not_sorted_after_size_allocate :
    ¬ List.Sorted (· ≤ ·)
      (bz_carousel_get_snap_points
        (run (two_pages_shrinking ++ [Event.size_allocate example_toolkit 100 100]))) := by
  decide!

/-! ## The pending position shift -/

theorem apply_position_shift_position_shift (s : BzCarousel) :
    (apply_position_shift s).position_shift =
      if G_APPROX_VALUE s.position_shift 0 DBL_EPSILON = true then s.position_shift else 0 := by
  unfold apply_position_shift
  cases h : G_APPROX_VALUE s.position_shift 0 DBL_EPSILON <;> simp

theorem bz_carousel_size_allocate_position_shift (s : BzCarousel) (tk : Toolkit)
    (width height : Int) :
    (bz_carousel_size_allocate s tk width height).position_shift =
      (apply_position_shift s).position_shift :=
  rfl

/-- C8 (as amended): after a layout pass the pending position shift is 0 when its magnitude
before the pass was at least `DBL_EPSILON`, and is left as it was when its magnitude was
below `DBL_EPSILON`; in both cases its magnitude after the pass is below `DBL_EPSILON`. -/
theorem position_shift_after_size_allocate (s : BzCarousel) (tk : Toolkit) (width height : Int) :
    (bz_carousel_size_allocate s tk width height).position_shift =
      (if G_APPROX_VALUE s.position_shift 0 DBL_EPSILON = true then s.position_shift else 0) ∧
    G_APPROX_VALUE (bz_carousel_size_allocate s tk width height).position_shift 0 DBL_EPSILON
      = true := by
  rw [bz_carousel_size_allocate_position_shift, apply_position_shift_position_shift]
  refine ⟨rfl, ?_⟩
  split
  · assumption
  · decide!

/-- C8 as stated fails: a pending shift of `2^-53`, left by a resize tick, is below
`DBL_EPSILON`, so the layout pass does not consume it and it is still `2^-53` afterwards. -/
theorem position_shift_not_zero_after_size_allocate :
    ¬ (bz_carousel_size_allocate tiny_shift_state example_toolkit 100 100).position_shift = 0 := by
  decide!

theorem deref_update_child (l : List ChildInfo) (q : Nat) (f : ChildInfo → ChildInfo)
    (hf : ∀ c, (f c).ptr = c.ptr) :
    deref (update_child l q f) q = (deref l q).map f := by
  unfold deref update_child
  induction l with
  | nil => rfl
  | cons a l ih =>
    simp only [List.map_cons, List.find?_cons]
    by_cases h : a.ptr = q
    · simp [h, hf]
    · have hb : (a.ptr == q) = false := by simpa using h
      simp only [if_neg h, hb]
      exact ih

theorem resize_animation_value_cb_deref (s : BzCarousel) (v : ℚ) (p : Nat) (c : ChildInfo)
    (hc : deref s.children p = some c) :
    deref (resize_animation_value_cb s v p).children p = some { c with size := v } ∧
    (resize_animation_value_cb s v p).position_shift =
      if c.shift_position = true then s.position_shift + (v - c.size) else s.position_shift := by
  unfold resize_animation_value_cb
  rw [hc]
  dsimp only
  have hd := deref_update_child s.children p (fun c => { c with size := v }) (fun _ => rfl)
  rw [hc] at hd
  split
  · exact ⟨hd, rfl⟩
  · exact ⟨hd, rfl⟩

/-- C9 (as amended): with doubles as exact rationals, for a child record whose
`shift_position` flag is set, a run of resize ticks `v1, ..., vn` with nothing in between
adds exactly `vn` minus the child's size before the first tick to `position_shift`; for a
child whose flag is not set the run leaves `position_shift` as it was; in both cases the
child's size ends at `vn`. -/
theorem resize_ticks_accumulate (s : BzCarousel) (p : Nat) (c : ChildInfo) (vs : List ℚ)
    (vn : ℚ) (hc : deref s.children p = some c) :
    (c.shift_position = true →
      (resize_ticks s p (vs ++ [vn])).position_shift = s.position_shift + (vn - c.size)) ∧
    (c.shift_position = false →
      (resize_ticks s p (vs ++ [vn])).position_shift = s.position_shift) ∧
    deref (resize_ticks s p (vs ++ [vn])).children p = some { c with size := vn } := by
  induction vs generalizing s c with
  | nil =>
    obtain ⟨h1, h2⟩ := resize_animation_value_cb_deref s vn p c hc
    simp only [resize_ticks, List.nil_append, List.foldl_cons, List.foldl_nil]
    refine ⟨fun h => ?_, fun h => ?_, h1⟩
    · rw [h2, if_pos h]
    · rw [h2, if_neg (by simp [h])]
  | cons v vs ih =>
    obtain ⟨h1, h2⟩ := resize_animation_value_cb_deref s v p c hc
    obtain ⟨i1, i2, i3⟩ := ih (resize_animation_value_cb s v p) { c with size := v } h1
    simp only [resize_ticks, List.cons_append, List.foldl_cons] at i1 i2 i3 ⊢
    refine ⟨fun h => ?_, fun h => ?_, i3⟩
    · rw [i1 h, h2, if_pos h]
      ring
    · rw [i2 h, h2, if_neg (by simp [h])]

/-- C9 (as amended) at a concrete input: the ticks 1/4, 1/2, 3/4 of the grow animation of the page
inserted in front of the current page, whose `shift_position` flag is set. -/
theorem resize_ticks_accumulate_witness :
    (resize_ticks shifted_state 102 ([1 / 4, 1 / 2] ++ [3 / 4])).position_shift =
      shifted_state.position_shift + (3 / 4 - 1 / 2) :=
  (resize_ticks_accumulate shifted_state 102
    { ptr := 102, widget := some 2, position := 0, visible := false, size := 1 / 2,
      snap_point := 0, adding := true, removing := false, shift_position := true,
      resize_animation := some ⟨0, 1, 0⟩ }
    [1 / 4, 1 / 2] (3 / 4) (by decide!)).1 rfl

/-! ## Scrolling to a page -/

theorem update_child_of_not_mem (l : List ChildInfo) (q : Nat) (f : ChildInfo → ChildInfo)
    (h : q ∉ child_ptrs l) : update_child l q f = l := by
  unfold update_child
  induction l with
  | nil => rfl
  | cons a l ih =>
    simp only [child_ptrs, List.map_cons, List.mem_cons, not_or] at h
    rw [List.map_cons, if_neg (fun e => h.1 e.symm), ih h.2]

theorem update_child_append_cons (l1 l2 : List ChildInfo) (c : ChildInfo) (q : Nat)
    (f : ChildInfo → ChildInfo) (hc : c.ptr = q) (h1 : q ∉ child_ptrs l1)
    (h2 : q ∉ child_ptrs l2) :
    update_child (l1 ++ c :: l2) q f = l1 ++ f c :: l2 := by
  have e1 := update_child_of_not_mem l1 q f h1
  have e2 := update_child_of_not_mem l2 q f h2
  unfold update_child at e1 e2 ⊢
  rw [List.map_append, List.map_cons, e1, e2, if_pos hc]

theorem deref_append_cons (l1 l2 : List ChildInfo) (c : ChildInfo) (q : Nat)
    (hc : c.ptr = q) (h1 : q ∉ child_ptrs l1) : deref (l1 ++ c :: l2) q = some c := by
  unfold deref
  induction l1 with
  | nil => simp [hc]
  | cons a l ih =>
    simp only [child_ptrs, List.map_cons, List.mem_cons, not_or] at h1
    have hb : (a.ptr == q) = false := by simpa using fun e => h1.1 e.symm
    simp only [List.cons_append, List.find?_cons, hb]
    exact ih h1.2

theorem g_list_remove_append_cons (l1 l2 : List ChildInfo) (c : ChildInfo) (q : Nat)
    (hc : c.ptr = q) (h1 : q ∉ child_ptrs l1) : g_list_remove (l1 ++ c :: l2) q = l1 ++ l2 := by
  unfold g_list_remove
  induction l1 with
  | nil => simp [hc]
  | cons a l ih =>
    simp only [child_ptrs, List.map_cons, List.mem_cons, not_or] at h1
    have hb : (a.ptr == q) = false := by simpa using fun e => h1.1 e.symm
    simp only [List.cons_append, List.eraseP_cons, hb]
    rw [show (bif false then l ++ c :: l2 else a :: List.eraseP (fun c => c.ptr == q) (l ++ c :: l2))
      = a :: List.eraseP (fun c => c.ptr == q) (l ++ c :: l2) from rfl, ih h1.2]

theorem nodup_split (l1 l2 : List ChildInfo) (c : ChildInfo)
    (h : (child_ptrs (l1 ++ c :: l2)).Nodup) :
    c.ptr ∉ child_ptrs l1 ∧ c.ptr ∉ child_ptrs l2 := by
  unfold child_ptrs at h ⊢
  rw [List.map_append, List.map_cons, List.nodup_append] at h
  obtain ⟨_, h2, h3⟩ := h
  rw [List.nodup_cons] at h2
  refine ⟨fun hm => ?_, h2.1⟩
  exact h3 hm (List.mem_cons_self _ _)

/-! ## Completion of a shrink animation -/

theorem resize_animation_done_cb_children_of_split (t : BzCarousel) (c : ChildInfo)
    (l1 l2 : List ChildInfo) (hs : t.children = l1 ++ c :: l2)
    (h1 : c.ptr ∉ child_ptrs l1) (h2 : c.ptr ∉ child_ptrs l2) (hr : c.removing = true) :
    (resize_animation_done_cb t c.ptr).children = l1 ++ l2 := by
  unfold resize_animation_done_cb
  rw [hs, deref_append_cons l1 l2 c c.ptr rfl h1]
  dsimp only
  rw [if_pos hr, update_child_append_cons l1 l2 c c.ptr _ rfl h1 h2]
  exact g_list_remove_append_cons l1 l2 _ c.ptr rfl h1

theorem not_mem_child_ptrs_append (p : Nat) (l1 l2 : List ChildInfo)
    (h1 : p ∉ child_ptrs l1) (h2 : p ∉ child_ptrs l2) : p ∉ child_ptrs (l1 ++ l2) := by
  unfold child_ptrs at h1 h2 ⊢
  rw [List.map_append, List.mem_append]
  exact fun h => h.elim h1 h2

/-- C5: when `resize_animation_done_cb` runs for a child record flagged removing, exactly
that record leaves the children sequence: the records before it and the records after it
stay, in the same order and with unchanged fields, and the sequence is one record shorter. -/
theorem resize_animation_done_cb_unlinks (s : BzCarousel) (c : ChildInfo)
    (hd : PtrsDistinct s) (hc : c ∈ s.children) (hr : c.removing = true) :
    ∃ l1 l2, s.children = l1 ++ c :: l2 ∧
      (resize_animation_done_cb s c.ptr).children = l1 ++ l2 ∧
      c.ptr ∉ child_ptrs (resize_animation_done_cb s c.ptr).children ∧
      (resize_animation_done_cb s c.ptr).children.length + 1 = s.children.length := by
  obtain ⟨l1, l2, hs⟩ := List.append_of_mem hc
  unfold PtrsDistinct at hd
  rw [hs] at hd
  obtain ⟨h1, h2⟩ := nodup_split l1 l2 c hd
  have hres := resize_animation_done_cb_children_of_split s c l1 l2 hs h1 h2 hr
  refine ⟨l1, l2, hs, hres, ?_, ?_⟩
  · rw [hres]
    exact not_mem_child_ptrs_append c.ptr l1 l2 h1 h2
  · rw [hres, hs]
    simp only [List.length_append, List.length_cons]
    omega

/-- C5 at a concrete input: the shrink animation of page 2 of two pages completes. -/
theorem resize_animation_done_cb_unlinks_witness :
    ∃ l1 l2, last_page_shrinking.children = l1 ++
        { ptr := 102, widget := none, position := 75, visible := true, size := 1,
          snap_point := 1, adding := false, removing := true, shift_position := false,
          resize_animation := some ⟨1, 0, 0⟩ } :: l2 ∧
      (resize_animation_done_cb last_page_shrinking 102).children = l1 ++ l2 ∧
      102 ∉ child_ptrs (resize_animation_done_cb last_page_shrinking 102).children ∧
      (resize_animation_done_cb last_page_shrinking 102).children.length + 1 =
        last_page_shrinking.children.length :=
  resize_animation_done_cb_unlinks last_page_shrinking
    { ptr := 102, widget := none, position := 75, visible := true, size := 1,
      snap_point := 1, adding := false, removing := true, shift_position := false,
      resize_animation := some ⟨1, 0, 0⟩ }
    (by unfold PtrsDistinct; decide!) (by decide!) rfl

/-! ## Setting up a resize animation -/

theorem update_shift_position_flag_children (t : BzCarousel) (q : Nat) :
    ∃ g, FlagOnly g ∧ (update_shift_position_flag t q).children = update_child t.children q g := by
  unfold update_shift_position_flag
  split
  · refine ⟨fun c => c, fun c => ⟨c.shift_position, rfl⟩, ?_⟩
    unfold update_child
    simp
  · exact ⟨_, fun c => ⟨_, rfl⟩, rfl⟩

theorem update_shift_position_flag_children_of_split (t : BzCarousel) (q : Nat)
    (c : ChildInfo) (l1 l2 : List ChildInfo) (hs : t.children = l1 ++ c :: l2) (hq : c.ptr = q)
    (h1 : q ∉ child_ptrs l1) (h2 : q ∉ child_ptrs l2) :
    ∃ b, (update_shift_position_flag t q).children =
      l1 ++ { c with shift_position := b } :: l2 := by
  obtain ⟨g, hg, he⟩ := update_shift_position_flag_children t q
  obtain ⟨b, hb⟩ := hg c
  refine ⟨b, ?_⟩
  rw [he, hs, update_child_append_cons l1 l2 c q g hq h1 h2, hb]

theorem resize_animation_value_cb_children (t : BzCarousel) (v : ℚ) (q : Nat) :
    (resize_animation_value_cb t v q).children =
      update_child t.children q (fun c => { c with size := v }) := by
  unfold resize_animation_value_cb
  split
  · rename_i h
    rw [update_child_of_not_mem]
    unfold deref at h
    unfold child_ptrs
    intro hm
    obtain ⟨c, hc, hq⟩ := List.mem_map.mp hm
    have := List.find?_eq_none.mp h c hc
    simp [hq] at this
  · dsimp only
    split <;> rfl

theorem update_shift_position_flag_mapped (t : BzCarousel) (q : Nat) :
    (update_shift_position_flag t q).mapped = t.mapped := by
  unfold update_shift_position_flag
  split <;> rfl

theorem animate_child_resize_of_idle (t : BzCarousel) (q : Nat) (v : ℚ) (d : Nat)
    (c : ChildInfo) (hc : deref t.children q = some c) (hn : c.resize_animation = none) :
    animate_child_resize t q v d =
      start_resize_animation (update_shift_position_flag t q) q ⟨c.size, v, d⟩ := by
  unfold animate_child_resize
  rw [hc]
  dsimp only
  rw [hn]

theorem adw_animation_skip_children_of_kept (t : BzCarousel) (c : ChildInfo)
    (a : TimedAnimation) (l1 l2 : List ChildInfo) (hs : t.children = l1 ++ c :: l2)
    (h1 : c.ptr ∉ child_ptrs l1) (h2 : c.ptr ∉ child_ptrs l2) (hr : c.removing = false) :
    (adw_animation_skip t c.ptr a).children =
      l1 ++ { c with size := a.value_to, resize_animation := none, adding := false } :: l2 := by
  unfold adw_animation_skip
  have hv : (resize_animation_value_cb t a.value_to c.ptr).children =
      l1 ++ { c with size := a.value_to } :: l2 := by
    rw [resize_animation_value_cb_children, hs,
      update_child_append_cons l1 l2 c c.ptr _ rfl h1 h2]
  unfold resize_animation_done_cb
  rw [hv, deref_append_cons l1 l2 ({ c with size := a.value_to } : ChildInfo) c.ptr rfl h1]
  dsimp only
  rw [if_neg (by simp [hr]),
    update_child_append_cons l1 l2 ({ c with size := a.value_to } : ChildInfo) c.ptr _ rfl
      h1 h2]

/-- The children after the tail of `animate_child_resize` on a record that is not being
removed: in a mapped carousel the record holds the new animation, otherwise the animation
has been skipped and the record has its end size. -/
theorem start_resize_animation_children_of_kept (t : BzCarousel) (c : ChildInfo)
    (a : TimedAnimation) (l1 l2 : List ChildInfo) (hs : t.children = l1 ++ c :: l2)
    (h1 : c.ptr ∉ child_ptrs l1) (h2 : c.ptr ∉ child_ptrs l2) (hr : c.removing = false) :
    (start_resize_animation t c.ptr a).children =
      l1 ++ (if t.mapped = true then { c with resize_animation := some a }
        else { c with size := a.value_to, resize_animation := none, adding := false }) :: l2 := by
  have hu : update_child t.children c.ptr (fun x => { x with resize_animation := some a }) =
      l1 ++ { c with resize_animation := some a } :: l2 := by
    rw [hs, update_child_append_cons l1 l2 c c.ptr _ rfl h1 h2]
  unfold start_resize_animation adw_animation_play
  dsimp only
  by_cases hm : t.mapped = true
  · rw [if_pos hm, if_pos hm]
    exact hu
  · rw [if_neg hm, if_neg hm]
    exact adw_animation_skip_children_of_kept _ { c with resize_animation := some a } a l1 l2
      hu h1 h2 hr

theorem get_nth_link_from_le (l : List ChildInfo) (raw : Nat) (i : Int) (j : Nat)
    (h : get_nth_link_from l raw i = some j) : raw ≤ j ∧ j < raw + l.length := by
  induction l generalizing raw i with
  | nil => simp [get_nth_link_from] at h
  | cons a l ih =>
    unfold get_nth_link_from at h
    simp only [List.length_cons]
    split at h
    · have := ih _ _ h; omega
    · split at h
      · simp only [Option.some.injEq] at h; omega
      · have := ih _ _ h; omega

theorem g_list_insert_before_split (l : List ChildInfo) (sibling : Option Nat) (info : ChildInfo) :
    ∃ l1 l2, l = l1 ++ l2 ∧ g_list_insert_before l sibling info = l1 ++ info :: l2 := by
  unfold g_list_insert_before
  cases sibling with
  | none => exact ⟨l, [], by simp, by simp⟩
  | some j => exact ⟨l.take j, l.drop j, (List.take_append_drop j l).symm, rfl⟩

/-- C6 (as amended): for a widget `w` that has no parent, a position `p ≥ -1` and a fresh
record address, right after `bz_carousel_insert (w, p)` the children sequence is the
previous sequence, unchanged and in the same order, with exactly one new record inserted:
the record of `w`, with `removing` unset. In a mapped carousel the record has `adding` set
and size 0 and its resize animation runs from 0 to 1 over `reveal_duration`; in a carousel
that is not mapped the animation has been skipped inside the call, and the record has
`adding` unset, size 1 and no resize animation. -/
theorem bz_carousel_insert_adds_record (s : BzCarousel) (w : Nat) (p : Int) (a : Nat)
    (hw : w ∉ s.widget_children) (hp : -1 ≤ p) (ha : a ∉ child_ptrs s.children) :
    ∃ l1 l2 info, s.children = l1 ++ l2 ∧
      (bz_carousel_insert s w p a).children = l1 ++ info :: l2 ∧
      info.ptr = a ∧ info.widget = some w ∧ info.removing = false ∧
      (s.mapped = true → info.adding = true ∧ info.size = 0 ∧
        info.resize_animation = some ⟨0, 1, s.reveal_duration⟩) ∧
      (s.mapped = false → info.adding = false ∧ info.size = 1 ∧
        info.resize_animation = none) := by
  obtain ⟨l1, l2, hs, hins⟩ := g_list_insert_before_split s.children
    (if p ≥ 0 then get_nth_link s p else none) (new_child_info a w)
  have h12 : a ∉ child_ptrs l1 ∧ a ∉ child_ptrs l2 := by
    rw [hs] at ha
    unfold child_ptrs at ha ⊢
    rw [List.map_append, List.mem_append, not_or] at ha
    exact ha
  unfold bz_carousel_insert
  rw [if_neg hw, if_neg (by omega)]
  dsimp only
  rw [hins]
  have hderef := deref_append_cons l1 l2 (new_child_info a w) a rfl h12.1
  rw [animate_child_resize_of_idle _ a 1 s.reveal_duration _ hderef rfl]
  obtain ⟨b, hb⟩ := update_shift_position_flag_children_of_split
    { s with
      children := l1 ++ new_child_info a w :: l2
      widget_children := w :: s.widget_children
      is_being_allocated := true } a (new_child_info a w) l1 l2 rfl rfl h12.1 h12.2
  have hk := start_resize_animation_children_of_kept _
    ({ new_child_info a w with shift_position := b } : ChildInfo)
    ⟨(new_child_info a w).size, 1, s.reveal_duration⟩ l1 l2 hb h12.1 h12.2 rfl
  rw [update_shift_position_flag_mapped] at hk
  refine ⟨l1, l2, _, hs, hk, ?_, ?_, ?_, ?_, ?_⟩
  · split <;> rfl
  · split <;> rfl
  · split <;> rfl
  · intro hm
    rw [if_pos hm]
    exact ⟨rfl, rfl, rfl⟩
  · intro hm
    rw [if_neg (by simp [hm])]
    exact ⟨rfl, rfl, rfl⟩

/-- C6 (as amended) at a concrete input: page 3 is inserted at position 1 of two pages of
a mapped carousel. -/
theorem bz_carousel_insert_adds_record_witness :
    two_pages.mapped = true ∧
    ∃ l1 l2 info, two_pages.children = l1 ++ l2 ∧
      (bz_carousel_insert two_pages 3 1 103).children = l1 ++ info :: l2 ∧
      info.ptr = 103 ∧ info.widget = some 3 ∧ info.removing = false ∧
      info.adding = true ∧ info.size = 0 ∧
      info.resize_animation = some ⟨0, 1, two_pages.reveal_duration⟩ := by
  obtain ⟨l1, l2, info, h1, h2, h3, h4, h5, h6, _⟩ :=
    bz_carousel_insert_adds_record two_pages 3 1 103 (by decide!) (by decide) (by decide!)
  exact ⟨by decide!, l1, l2, info, h1, h2, h3, h4, h5, h6 (by decide!)⟩

/-- C6 as stated fails: a new carousel is not mapped, so the grow animation of the first
page appended to it is skipped inside `bz_carousel_insert`; right after the call the record
has `adding` unset, size 1 and no resize animation. -/
theorem bz_carousel_insert_into_unmapped_carousel :
    bz_carousel_new.mapped = false ∧
    (bz_carousel_insert bz_carousel_new 1 (-1) 101).children.map
      (fun c => (c.widget, c.adding, c.removing, c.size, c.resize_animation)) =
      [(some 1, false, false, 1, none)] := by
  decide!

/-! ## Pages: the records that are not being removed -/

theorem page_widgets_update_child (l : List ChildInfo) (q : Nat) (f : ChildInfo → ChildInfo)
    (hf : ∀ c, (f c).removing = c.removing ∧ (f c).widget = c.widget) :
    page_widgets (update_child l q f) = page_widgets l := by
  unfold page_widgets update_child
  induction l with
  | nil => rfl
  | cons a l ih =>
    simp only [List.map_cons, List.filter_cons]
    by_cases h : a.ptr = q
    · simp only [if_pos h, (hf a).1]
      split
      · simp only [List.map_cons, (hf a).2, ih]
      · exact ih
    · simp only [if_neg h]
      split
      · simp only [List.map_cons, ih]
      · exact ih

theorem page_widgets_g_list_remove (l : List ChildInfo) (q : Nat) (c : ChildInfo)
    (hc : deref l q = some c) (hr : c.removing = true) :
    page_widgets (g_list_remove l q) = page_widgets l := by
  unfold page_widgets g_list_remove
  unfold deref at hc
  induction l with
  | nil => rfl
  | cons a l ih =>
    simp only [List.find?_cons] at hc
    simp only [List.eraseP_cons]
    cases hb : (a.ptr == q) with
    | true =>
      rw [hb] at hc
      simp only [Option.some.injEq] at hc
      subst hc
      simp only [cond_true]
      rw [List.filter_cons_of_neg (by simp [hr])]
    | false =>
      rw [hb] at hc
      simp only [cond_false, List.filter_cons]
      split
      · simp only [List.map_cons, ih hc]
      · exact ih hc

theorem update_shift_position_flag_page_widgets (t : BzCarousel) (q : Nat) :
    page_widgets (update_shift_position_flag t q).children = page_widgets t.children := by
  obtain ⟨g, hg, he⟩ := update_shift_position_flag_children t q
  rw [he]
  apply page_widgets_update_child
  intro c
  obtain ⟨b, hb⟩ := hg c
  rw [hb]
  exact ⟨rfl, rfl⟩

theorem resize_animation_value_cb_page_widgets (t : BzCarousel) (v : ℚ) (q : Nat) :
    page_widgets (resize_animation_value_cb t v q).children = page_widgets t.children := by
  rw [resize_animation_value_cb_children]
  exact page_widgets_update_child _ _ _ (fun _ => ⟨rfl, rfl⟩)

theorem resize_animation_done_cb_page_widgets (t : BzCarousel) (q : Nat) :
    page_widgets (resize_animation_done_cb t q).children = page_widgets t.children := by
  unfold resize_animation_done_cb
  split
  · rfl
  · rename_i c hc
    dsimp only
    have hd := deref_update_child t.children q
      (fun c => { c with resize_animation := none, adding := false }) (fun _ => rfl)
    rw [hc] at hd
    split
    · rename_i hr
      dsimp only
      rw [page_widgets_g_list_remove _ q _ hd hr]
      exact page_widgets_update_child _ _ _ (fun _ => ⟨rfl, rfl⟩)
    · exact page_widgets_update_child _ _ _ (fun _ => ⟨rfl, rfl⟩)

theorem adw_animation_skip_page_widgets (t : BzCarousel) (q : Nat) (a : TimedAnimation) :
    page_widgets (adw_animation_skip t q a).children = page_widgets t.children := by
  unfold adw_animation_skip
  rw [resize_animation_done_cb_page_widgets, resize_animation_value_cb_page_widgets]

theorem start_resize_animation_page_widgets (t : BzCarousel) (q : Nat) (a : TimedAnimation) :
    page_widgets (start_resize_animation t q a).children = page_widgets t.children := by
  have hu : page_widgets (update_child t.children q
      (fun c => { c with resize_animation := some a })) = page_widgets t.children :=
    page_widgets_update_child _ _ _ (fun _ => ⟨rfl, rfl⟩)
  unfold start_resize_animation adw_animation_play
  split
  · exact hu
  · rw [adw_animation_skip_page_widgets]
    exact hu

theorem animate_child_resize_page_widgets (t : BzCarousel) (q : Nat) (v : ℚ) (d : Nat) :
    page_widgets (animate_child_resize t q v d).children = page_widgets t.children := by
  unfold animate_child_resize
  split
  · rfl
  · dsimp only
    split
    · split
      · rw [adw_animation_skip_page_widgets, update_shift_position_flag_page_widgets]
      · rw [start_resize_animation_page_widgets, adw_animation_skip_page_widgets,
          update_shift_position_flag_page_widgets]
    · rw [start_resize_animation_page_widgets, update_shift_position_flag_page_widgets]

theorem bz_carousel_get_n_pages_eq (s : BzCarousel) :
    bz_carousel_get_n_pages s = (page_widgets s.children).length := by
  unfold bz_carousel_get_n_pages page_widgets
  rw [List.length_map, List.countP_eq_length_filter]

theorem get_nth_link_from_widget (l : List ChildInfo) (raw n : Nat) :
    (match get_nth_link_from l raw (n : Int) with
      | some j => (l.get? (j - raw)).bind (fun info => info.widget)
      | none => none) = ((page_widgets l).get? n).bind id := by
  induction l generalizing raw n with
  | nil => simp [get_nth_link_from, page_widgets]
  | cons a l ih =>
    unfold get_nth_link_from
    by_cases hr : a.removing = true
    · rw [if_pos hr]
      have hpw : page_widgets (a :: l) = page_widgets l := by
        unfold page_widgets
        rw [List.filter_cons_of_neg (by simp [hr])]
      rw [hpw, ← ih (raw + 1) n]
      cases hj : get_nth_link_from l (raw + 1) (n : Int) with
      | none => rfl
      | some j =>
        have := (get_nth_link_from_le l (raw + 1) n j hj).1
        have e : j - raw = (j - (raw + 1)) + 1 := by omega
        simp only [e, List.get?_cons_succ]
    · rw [if_neg hr]
      have hpw : page_widgets (a :: l) = a.widget :: page_widgets l := by
        unfold page_widgets
        rw [List.filter_cons_of_pos (by simpa using hr)]
        rfl
      rw [hpw]
      cases n with
      | zero => simp
      | succ m =>
        have hne : ¬ (((m + 1 : Nat) : Int) = 0) := by omega
        have hsub : (((m + 1 : Nat) : Int) - 1) = (m : Int) := by omega
        rw [if_neg hne, hsub, List.get?_cons_succ, ← ih (raw + 1) m]
        cases hj : get_nth_link_from l (raw + 1) (m : Int) with
        | none => rfl
        | some j =>
          have := (get_nth_link_from_le l (raw + 1) m j hj).1
          have e : j - raw = (j - (raw + 1)) + 1 := by omega
          simp only [e, List.get?_cons_succ]

theorem bz_carousel_get_nth_page_eq (s : BzCarousel) (n : Nat) :
    bz_carousel_get_nth_page s n = ((page_widgets s.children).get? n).bind id := by
  unfold bz_carousel_get_nth_page
  split
  · have := get_nth_link_from_widget s.children 0 n
    simp only [Nat.sub_zero] at this
    exact this
  · rename_i h
    rw [bz_carousel_get_n_pages_eq] at h
    rw [List.get?_eq_none.mpr (not_lt.mp h)]
    rfl

theorem bz_carousel_get_nth_page_mem (s : BzCarousel) (n w : Nat)
    (h : bz_carousel_get_nth_page s n = some w) : some w ∈ page_widgets s.children := by
  rw [bz_carousel_get_nth_page_eq] at h
  cases hg : (page_widgets s.children).get? n with
  | none => rw [hg] at h; simp at h
  | some x =>
    rw [hg] at h
    have h2 : x = some w := h
    rw [h2] at hg
    exact List.get?_mem hg

theorem find_child_info_spec (s : BzCarousel) (w : Option Nat) (info : ChildInfo)
    (h : find_child_info s w = some info) : info ∈ s.children ∧ info.widget = w := by
  unfold find_child_info at h
  refine ⟨List.mem_of_find?_eq_some h, ?_⟩
  have := List.find?_some h
  simp only [beq_iff_eq] at this
  exact this.symm

theorem page_widgets_append (l1 l2 : List ChildInfo) :
    page_widgets (l1 ++ l2) = page_widgets l1 ++ page_widgets l2 := by
  unfold page_widgets
  rw [List.filter_append, List.map_append]

theorem mem_page_widgets_filterMap (l : List ChildInfo) (w : Nat)
    (h : some w ∈ page_widgets l) : w ∈ l.filterMap (fun c => c.widget) := by
  unfold page_widgets at h
  obtain ⟨c, hc, hw⟩ := List.mem_map.mp h
  exact List.mem_filterMap.mpr ⟨c, (List.mem_filter.mp hc).1, hw⟩

theorem unparent_child_children (s : BzCarousel) (w : Nat) (info : ChildInfo)
    (l1 l2 : List ChildInfo) (hs : s.children = l1 ++ info :: l2)
    (h1 : info.ptr ∉ child_ptrs l1) (h2 : info.ptr ∉ child_ptrs l2) :
    (unparent_child s w info.ptr).children =
      l1 ++ { info with removing := true, widget := none } :: l2 := by
  unfold unparent_child
  dsimp only
  rw [hs, update_child_append_cons l1 l2 info info.ptr _ rfl h1 h2]

theorem bz_carousel_remove_page_widgets (s : BzCarousel) (w : Nat) (info : ChildInfo)
    (l1 l2 : List ChildInfo) (hw : w ∈ s.widget_children)
    (hf : find_child_info s (some w) = some info) (hs : s.children = l1 ++ info :: l2)
    (h1 : info.ptr ∉ child_ptrs l1) (h2 : info.ptr ∉ child_ptrs l2) :
    page_widgets (bz_carousel_remove s w).children = page_widgets l1 ++ page_widgets l2 := by
  have hun : page_widgets (unparent_child s w info.ptr).children =
      page_widgets l1 ++ page_widgets l2 := by
    rw [unparent_child_children s w info l1 l2 hs h1 h2, page_widgets_append]
    congr 1
  unfold bz_carousel_remove
  rw [if_neg (not_not.mpr hw), hf]
  dsimp only
  split
  · rw [animate_child_resize_page_widgets, hun]
  · exact hun

/-! ## A record that is being removed stays linked until its animation completes -/

theorem child_ptrs_eq_of_child_ids (l1 l2 : List ChildInfo) (h : child_ids l1 = child_ids l2) :
    child_ptrs l1 = child_ptrs l2 := by
  have e : ∀ l : List ChildInfo, child_ptrs l = (child_ids l).map Prod.fst := by
    intro l
    unfold child_ptrs child_ids
    rw [List.map_map]
    rfl
  rw [e, e, h]

theorem Held_congr (p : Nat) (l1 l2 : List ChildInfo) (h : child_ids l2 = child_ids l1)
    (hh : Held p l1) : Held p l2 := by
  refine ⟨?_, ?_⟩
  · rw [child_ptrs_eq_of_child_ids l2 l1 h]; exact hh.1
  · intro c hc hp
    have hm : (c.ptr, c.widget) ∈ child_ids l2 := List.mem_map.mpr ⟨c, hc, rfl⟩
    rw [h] at hm
    obtain ⟨c0, hc0, he⟩ := List.mem_map.mp hm
    simp only [Prod.mk.injEq] at he
    rw [← he.2]
    exact hh.2 c0 hc0 (he.1.trans hp)

theorem Held_map (p : Nat) (l : List ChildInfo) (F : ChildInfo → ChildInfo)
    (h1 : ∀ c, (F c).ptr = c.ptr) (h2 : ∀ c, c.ptr = p → c.widget = none → (F c).widget = none)
    (hh : Held p l) : Held p (l.map F) := by
  refine ⟨?_, ?_⟩
  · unfold child_ptrs
    rw [List.map_map]
    have : ((fun c => c.ptr) ∘ F) = (fun c : ChildInfo => c.ptr) := funext h1
    rw [this]
    exact hh.1
  · intro c hc hp
    obtain ⟨c0, hc0, rfl⟩ := List.mem_map.mp hc
    rw [h1] at hp
    exact h2 c0 hp (hh.2 c0 hc0 hp)

theorem Held_update_child (p q : Nat) (l : List ChildInfo) (f : ChildInfo → ChildInfo)
    (h1 : ∀ c, (f c).ptr = c.ptr) (h2 : q ≠ p ∨ ∀ c, c.widget = none → (f c).widget = none)
    (hh : Held p l) : Held p (update_child l q f) := by
  unfold update_child
  apply Held_map p l _ _ _ hh
  · intro c
    split
    · exact h1 c
    · rfl
  · intro c hp hw
    split
    · rename_i hq
      rcases h2 with h2 | h2
      · exact absurd (hq.symm.trans hp) h2
      · exact h2 c hw
    · exact hw

theorem Held_g_list_remove (p q : Nat) (l : List ChildInfo) (hq : q ≠ p) (hh : Held p l) :
    Held p (g_list_remove l q) := by
  unfold g_list_remove
  refine ⟨?_, ?_⟩
  · obtain ⟨c, hc, hp⟩ := List.mem_map.mp hh.1
    refine List.mem_map.mpr ⟨c, ?_, hp⟩
    apply List.mem_eraseP_of_neg _ |>.mpr hc
    simp only [beq_iff_eq]
    exact fun e => hq (e.symm.trans hp)
  · intro c hc hp
    exact hh.2 c (List.mem_of_mem_eraseP hc) hp

theorem Held_update_shift_position_flag (p q : Nat) (t : BzCarousel) (hh : Held p t.children) :
    Held p (update_shift_position_flag t q).children := by
  obtain ⟨g, hg, he⟩ := update_shift_position_flag_children t q
  rw [he]
  apply Held_update_child p q _ g _ _ hh
  · intro c
    obtain ⟨b, hb⟩ := hg c
    rw [hb]
  · right
    intro c hw
    obtain ⟨b, hb⟩ := hg c
    rw [hb]
    exact hw

theorem Held_resize_animation_value_cb (p q : Nat) (t : BzCarousel) (v : ℚ)
    (hh : Held p t.children) : Held p (resize_animation_value_cb t v q).children := by
  rw [resize_animation_value_cb_children]
  exact Held_update_child p q _ _ (fun _ => rfl) (Or.inr fun _ h => h) hh

theorem Held_resize_animation_done_cb (p q : Nat) (t : BzCarousel) (hq : q ≠ p)
    (hh : Held p t.children) : Held p (resize_animation_done_cb t q).children := by
  unfold resize_animation_done_cb
  split
  · exact hh
  · dsimp only
    have hu : Held p (update_child t.children q
        (fun c => { c with resize_animation := none, adding := false })) :=
      Held_update_child p q _ _ (fun _ => rfl) (Or.inr fun _ h => h) hh
    split
    · exact Held_g_list_remove p q _ hq hu
    · exact hu

theorem Held_adw_animation_skip (p q : Nat) (t : BzCarousel) (a : TimedAnimation) (hq : q ≠ p)
    (hh : Held p t.children) : Held p (adw_animation_skip t q a).children := by
  unfold adw_animation_skip
  exact Held_resize_animation_done_cb p q _ hq (Held_resize_animation_value_cb p q t _ hh)

theorem Held_start_resize_animation (p q : Nat) (t : BzCarousel) (a : TimedAnimation)
    (hq : q ≠ p) (hh : Held p t.children) :
    Held p (start_resize_animation t q a).children := by
  have hu : Held p (update_child t.children q
      (fun c => { c with resize_animation := some a })) :=
    Held_update_child p q _ _ (fun _ => rfl) (Or.inr fun _ h => h) hh
  unfold start_resize_animation adw_animation_play
  split
  · exact hu
  · exact Held_adw_animation_skip p q _ a hq hu

theorem Held_animate_child_resize (p q : Nat) (t : BzCarousel) (v : ℚ) (d : Nat) (hq : q ≠ p)
    (hh : Held p t.children) : Held p (animate_child_resize t q v d).children := by
  have hf := Held_update_shift_position_flag p q t hh
  unfold animate_child_resize
  split
  · exact hh
  · dsimp only
    split
    · split
      · exact Held_adw_animation_skip p q _ _ hq hf
      · exact Held_start_resize_animation p q _ _ hq
          (Held_adw_animation_skip p q _ _ hq hf)
    · exact Held_start_resize_animation p q _ _ hq hf

theorem Held_flag_loop (p : Nat) (l : List ChildInfo) (t : BzCarousel) (hh : Held p t.children) :
    Held p (l.foldl (fun s child =>
      if child.adding || child.removing then update_shift_position_flag s child.ptr else s)
      t).children := by
  induction l generalizing t with
  | nil => exact hh
  | cons c l ih =>
    simp only [List.foldl_cons]
    apply ih
    split
    · exact Held_update_shift_position_flag p c.ptr t hh
    · exact hh

theorem Held_set_position (p : Nat) (t : BzCarousel) (v : ℚ) (hh : Held p t.children) :
    Held p (set_position t v).children := by
  unfold set_position
  exact Held_flag_loop p _ _ hh

theorem size_loop_child_ids (s : BzCarousel) (tk : Toolkit) (width height : Int)
    (l : List ChildInfo) (m : Int) :
    child_ids (size_loop s tk width height l m).1 = child_ids l := by
  induction l generalizing m with
  | nil => rfl
  | cons a l ih =>
    unfold size_loop
    split
    · simp only [child_ids, List.map_cons] at ih ⊢
      rw [ih]
    · simp only [child_ids, List.map_cons] at ih ⊢
      rw [ih]

theorem snap_point_loop_child_ids (target : Option Nat) (l : List ChildInfo) (acc : ℚ)
    (anim : SpringAnimation) :
    child_ids (snap_point_loop target l acc anim).1 = child_ids l := by
  induction l generalizing acc anim with
  | nil => rfl
  | cons a l ih =>
    unfold snap_point_loop
    split
    · simp only [child_ids, List.map_cons] at ih ⊢
      rw [ih]
    · simp only [child_ids, List.map_cons] at ih ⊢
      rw [ih]

theorem allocate_loop_child_ids (s : BzCarousel) (tk : Toolkit) (width height max_size : Int)
    (l : List ChildInfo) (coord : ℚ) :
    child_ids (allocate_loop s tk width height max_size l coord).1 = child_ids l := by
  induction l generalizing coord with
  | nil => rfl
  | cons a l ih =>
    unfold allocate_loop
    split
    · simp only [child_ids, List.map_cons] at ih ⊢
      rw [ih]
    · split
      · simp only [child_ids, List.map_cons] at ih ⊢
        rw [ih]
      · simp only [child_ids, List.map_cons] at ih ⊢
        rw [ih]

theorem bz_carousel_size_allocate_child_ids (s : BzCarousel) (tk : Toolkit)
    (width height : Int) :
    child_ids (bz_carousel_size_allocate s tk width height).children =
      child_ids (apply_position_shift s).children := by
  obtain ⟨m, coord, hc⟩ := bz_carousel_size_allocate_children s tk width height
  rw [hc, allocate_loop_child_ids, snap_point_loop_child_ids, size_loop_child_ids]

theorem Held_bz_carousel_size_allocate (p : Nat) (t : BzCarousel) (tk : Toolkit)
    (width height : Int) (hh : Held p t.children) :
    Held p (bz_carousel_size_allocate t tk width height).children := by
  apply Held_congr p _ _ (bz_carousel_size_allocate_child_ids t tk width height)
  unfold apply_position_shift
  split
  · exact Held_set_position p t _ hh
  · exact hh

theorem Held_insert_mid (p : Nat) (l1 l2 : List ChildInfo) (x : ChildInfo) (hx : x.ptr ≠ p)
    (hh : Held p (l1 ++ l2)) : Held p (l1 ++ x :: l2) := by
  refine ⟨?_, ?_⟩
  · have := hh.1
    unfold child_ptrs at this ⊢
    simp only [List.map_append, List.map_cons, List.mem_append, List.mem_cons] at this ⊢
    tauto
  · intro c hc hp
    simp only [List.mem_append, List.mem_cons] at hc
    apply hh.2 c _ hp
    rcases hc with hc | rfl | hc
    · exact List.mem_append_left _ hc
    · exact absurd hp hx
    · exact List.mem_append_right _ hc

theorem Held_bz_carousel_insert (p : Nat) (t : BzCarousel) (w : Nat) (pos : Int) (a : Nat)
    (ha : a ∉ child_ptrs t.children) (hh : Held p t.children) :
    Held p (bz_carousel_insert t w pos a).children := by
  have hap : a ≠ p := fun e => ha (e ▸ hh.1)
  unfold bz_carousel_insert
  split
  · exact hh
  · split
    · exact hh
    · dsimp only
      apply Held_animate_child_resize p a _ _ _ hap
      dsimp only
      obtain ⟨l1, l2, hs, hins⟩ := g_list_insert_before_split t.children
        (if pos ≥ 0 then get_nth_link t pos else none) (new_child_info a w)
      rw [hins]
      apply Held_insert_mid p l1 l2 _ hap
      rw [← hs]
      exact hh

theorem Held_bz_carousel_remove (p : Nat) (t : BzCarousel) (w : Nat) (hh : Held p t.children) :
    Held p (bz_carousel_remove t w).children := by
  unfold bz_carousel_remove
  split
  · exact hh
  · split
    · exact hh
    · rename_i info hf
      obtain ⟨hmem, hwid⟩ := find_child_info_spec t (some w) info hf
      have hq : info.ptr ≠ p := by
        intro e
        have := hh.2 info hmem e
        rw [hwid] at this
        exact absurd this (by simp)
      have hu : Held p (unparent_child t w info.ptr).children :=
        Held_update_child p info.ptr _ _ (fun _ => rfl) (Or.inl hq) hh
      dsimp only
      split
      · exact Held_animate_child_resize p info.ptr _ _ _ hq hu
      · exact hu

theorem g_list_index_from_spec (l : List ChildInfo) (q : Nat) (i : Int)
    (h : q ∈ child_ptrs l) :
    ∃ (k : Nat) (c0 : ChildInfo),
      g_list_index_from l q i = i + (k : Int) ∧ l.get? k = some c0 ∧ c0.ptr = q := by
  induction l generalizing i with
  | nil => simp [child_ptrs] at h
  | cons a l ih =>
    unfold g_list_index_from
    by_cases ha : a.ptr = q
    · exact ⟨0, a, by simp [ha], rfl, ha⟩
    · rw [if_neg ha]
      have hl : q ∈ child_ptrs l := by
        simp only [child_ptrs, List.map_cons, List.mem_cons] at h
        rcases h with h | h
        · exact absurd h.symm ha
        · exact h
      obtain ⟨k, c0, h1, h2, h3⟩ := ih (i + 1) hl
      refine ⟨k + 1, c0, ?_, h2, h3⟩
      rw [h1]
      push_cast
      ring

theorem Held_eraseIdx (p : Nat) (l : List ChildInfo) (k : Nat) (c0 : ChildInfo)
    (hk : l.get? k = some c0) (hc0 : c0.ptr ≠ p) (hh : Held p l) : Held p (l.eraseIdx k) := by
  refine ⟨?_, fun c hc hp => hh.2 c ((List.eraseIdx_sublist l k).subset hc) hp⟩
  obtain ⟨c, hc, hp⟩ := List.mem_map.mp hh.1
  refine List.mem_map.mpr ⟨c, ?_, hp⟩
  clear hh
  induction l generalizing k with
  | nil => simp at hc
  | cons a l ih =>
    cases k with
    | zero =>
      simp only [List.get?_cons_zero, Option.some.injEq] at hk
      simp only [List.eraseIdx_cons_zero]
      rcases List.mem_cons.mp hc with rfl | hc
      · exact absurd (hk ▸ hp) hc0
      · exact hc
    | succ k =>
      simp only [List.get?_cons_succ] at hk
      simp only [List.eraseIdx_cons_succ]
      rcases List.mem_cons.mp hc with rfl | hc
      · exact List.mem_cons_self _ _
      · exact List.mem_cons_of_mem _ (ih k hk hc)

theorem Held_bz_carousel_reorder (p : Nat) (t : BzCarousel) (w : Nat) (pos : Int)
    (hh : Held p t.children) : Held p (bz_carousel_reorder t w pos).children := by
  unfold bz_carousel_reorder
  split
  · exact hh
  · dsimp only
    split
    · exact hh
    · rename_i info hf
      obtain ⟨hmem, hwid⟩ := find_child_info_spec t (some w) info hf
      have hq : info.ptr ≠ p := by
        intro e
        have := hh.2 info hmem e
        rw [hwid] at this
        exact absurd this (by simp)
      have hin : info.ptr ∈ child_ptrs t.children := List.mem_map.mpr ⟨info, hmem, rfl⟩
      obtain ⟨k, c0, h1, h2, h3⟩ := g_list_index_from_spec t.children info.ptr 0 hin
      have hidx : (g_list_index t.children info.ptr).toNat = k := by
        unfold g_list_index
        rw [h1]
        simp
      have he : Held p (g_list_remove_link t.children k) :=
        Held_eraseIdx p t.children k c0 h2 (h3 ▸ hq) hh
      have hre : ∀ nl, Held p (reorder_children t nl k info) := by
        intro nl
        unfold reorder_children
        cases nl with
        | none =>
          dsimp only
          have := Held_insert_mid p (g_list_remove_link t.children k) [] info hq
            (by simpa using he)
          exact this
        | some j =>
          dsimp only
          unfold g_list_insert_before_link
          split
          · exact he
          · split
            · exact Held_insert_mid p _ _ info hq (by rw [List.take_append_drop]; exact he)
            · exact Held_insert_mid p _ _ info hq (by rw [List.take_append_drop]; exact he)
      split_ifs
      all_goals first
        | exact hh
        | (dsimp only; rw [hidx]; exact hre _)

theorem Held_step (p : Nat) (t : BzCarousel) (e : Event) (he : completes p e = false)
    (hh : Held p t.children) : Held p (step t e).children := by
  cases e with
  | insert w pos a =>
    simp only [step]
    split
    · exact hh
    · rename_i ha
      exact Held_bz_carousel_insert p t w pos a ha hh
  | remove w => exact Held_bz_carousel_remove p t w hh
  | reorder w pos => exact Held_bz_carousel_reorder p t w pos hh
  | resize_value c v =>
    simp only [step]
    split
    · split
      · exact Held_resize_animation_value_cb p c t v hh
      · exact hh
    · exact hh
  | resize_done c =>
    simp only [step]
    have hc : c ≠ p := by
      simpa [completes] using he
    split
    · exact Held_adw_animation_skip p c t _ hc hh
    · exact hh
  | set_position v => exact Held_set_position p t v hh
  | size_allocate tk width height => exact Held_bz_carousel_size_allocate p t tk width height hh
  | set_mapped m => exact hh

theorem Held_foldl_step (p : Nat) (events : List Event) (t : BzCarousel)
    (he : ∀ e ∈ events, completes p e = false) (hh : Held p t.children) :
    Held p (events.foldl step t).children := by
  induction events generalizing t with
  | nil => exact hh
  | cons e l ih =>
    simp only [List.foldl_cons]
    exact ih _ (fun x hx => he x (List.mem_cons_of_mem _ hx))
      (Held_step p t e (he e (List.mem_cons_self _ _)) hh)

theorem adw_animation_skip_children_of_split (t : BzCarousel) (c : ChildInfo)
    (a : TimedAnimation) (l1 l2 : List ChildInfo) (hs : t.children = l1 ++ c :: l2)
    (h1 : c.ptr ∉ child_ptrs l1) (h2 : c.ptr ∉ child_ptrs l2) (hr : c.removing = true) :
    (adw_animation_skip t c.ptr a).children = l1 ++ l2 := by
  unfold adw_animation_skip
  have hv : (resize_animation_value_cb t a.value_to c.ptr).children =
      l1 ++ { c with size := a.value_to } :: l2 := by
    rw [resize_animation_value_cb_children, hs,
      update_child_append_cons l1 l2 c c.ptr _ rfl h1 h2]
  exact resize_animation_done_cb_children_of_split _ { c with size := a.value_to } l1 l2 hv
    h1 h2 hr

theorem animate_child_resize_of_busy_removing (t : BzCarousel) (q : Nat) (v : ℚ) (d : Nat)
    (c : ChildInfo) (a : TimedAnimation) (hc : deref t.children q = some c)
    (ha : c.resize_animation = some a) (hr : c.removing = true) :
    animate_child_resize t q v d = adw_animation_skip (update_shift_position_flag t q) q a := by
  unfold animate_child_resize
  rw [hc]
  dsimp only
  rw [ha]
  dsimp only
  rw [if_pos hr]

theorem start_resize_animation_children_of_removing (t : BzCarousel) (c : ChildInfo)
    (a : TimedAnimation) (l1 l2 : List ChildInfo) (hs : t.children = l1 ++ c :: l2)
    (h1 : c.ptr ∉ child_ptrs l1) (h2 : c.ptr ∉ child_ptrs l2) (hr : c.removing = true) :
    (start_resize_animation t c.ptr a).children =
      if t.mapped = true then l1 ++ { c with resize_animation := some a } :: l2
      else l1 ++ l2 := by
  have hu : update_child t.children c.ptr (fun x => { x with resize_animation := some a }) =
      l1 ++ { c with resize_animation := some a } :: l2 := by
    rw [hs, update_child_append_cons l1 l2 c c.ptr _ rfl h1 h2]
  unfold start_resize_animation adw_animation_play
  dsimp only
  by_cases hm : t.mapped = true
  · rw [if_pos hm, if_pos hm]
    exact hu
  · rw [if_neg hm, if_neg hm]
    exact adw_animation_skip_children_of_split _ { c with resize_animation := some a } a l1 l2
      hu h1 h2 hr

theorem animate_child_resize_children_of_idle_split (t : BzCarousel) (q : Nat) (v : ℚ)
    (d : Nat) (c : ChildInfo) (l1 l2 : List ChildInfo) (hs : t.children = l1 ++ c :: l2)
    (hq : c.ptr = q) (h1 : q ∉ child_ptrs l1) (h2 : q ∉ child_ptrs l2)
    (hn : c.resize_animation = none) (hr : c.removing = true) :
    ∃ b, (animate_child_resize t q v d).children =
      if t.mapped = true then
        l1 ++ { c with shift_position := b, resize_animation := some ⟨c.size, v, d⟩ } :: l2
      else l1 ++ l2 := by
  have hderef : deref t.children q = some c := by
    rw [hs]
    exact deref_append_cons l1 l2 c q hq h1
  obtain ⟨b, hb⟩ := update_shift_position_flag_children_of_split t q c l1 l2 hs hq h1 h2
  refine ⟨b, ?_⟩
  subst hq
  rw [animate_child_resize_of_idle t c.ptr v d c hderef hn]
  have hk := start_resize_animation_children_of_removing _
    ({ c with shift_position := b } : ChildInfo) ⟨c.size, v, d⟩ l1 l2 hb h1 h2 hr
  rw [update_shift_position_flag_mapped] at hk
  exact hk

theorem animate_child_resize_children_of_busy_split (t : BzCarousel) (q : Nat) (v : ℚ)
    (d : Nat) (c : ChildInfo) (a : TimedAnimation) (l1 l2 : List ChildInfo)
    (hs : t.children = l1 ++ c :: l2)
    (hq : c.ptr = q) (h1 : q ∉ child_ptrs l1) (h2 : q ∉ child_ptrs l2)
    (ha : c.resize_animation = some a) (hr : c.removing = true) :
    (animate_child_resize t q v d).children = l1 ++ l2 := by
  have hderef : deref t.children q = some c := by
    rw [hs]
    exact deref_append_cons l1 l2 c q hq h1
  obtain ⟨b, hb⟩ := update_shift_position_flag_children_of_split t q c l1 l2 hs hq h1 h2
  rw [animate_child_resize_of_busy_removing t q v d c a hderef ha hr]
  subst hq
  exact adw_animation_skip_children_of_split _ { c with shift_position := b } a l1 l2 hb h1 h2 hr

theorem bz_carousel_remove_eq (s : BzCarousel) (w : Nat) (info : ChildInfo)
    (hw : w ∈ s.widget_children) (hf : find_child_info s (some w) = some info)
    (hdes : s.in_destruction = false) :
    bz_carousel_remove s w =
      animate_child_resize (unparent_child s w info.ptr) info.ptr 0 s.reveal_duration := by
  unfold bz_carousel_remove
  rw [if_neg (not_not.mpr hw), hf]
  dsimp only
  rw [if_pos (by simp [unparent_child, hdes])]
  rfl

theorem bz_carousel_remove_children_of_idle (s : BzCarousel) (w : Nat) (info : ChildInfo)
    (l1 l2 : List ChildInfo) (hw : w ∈ s.widget_children)
    (hf : find_child_info s (some w) = some info) (hdes : s.in_destruction = false)
    (hs : s.children = l1 ++ info :: l2)
    (h1 : info.ptr ∉ child_ptrs l1) (h2 : info.ptr ∉ child_ptrs l2)
    (hn : info.resize_animation = none) :
    ∃ b, (bz_carousel_remove s w).children =
      if s.mapped = true then
        l1 ++ { info with
                removing := true, widget := none, shift_position := b,
                resize_animation := some ⟨info.size, 0, s.reveal_duration⟩ } :: l2
      else l1 ++ l2 := by
  rw [bz_carousel_remove_eq s w info hw hf hdes]
  have hu := unparent_child_children s w info l1 l2 hs h1 h2
  obtain ⟨b, hb⟩ := animate_child_resize_children_of_idle_split (unparent_child s w info.ptr)
    info.ptr 0 s.reveal_duration _ l1 l2 hu rfl h1 h2 hn rfl
  exact ⟨b, hb⟩

theorem bz_carousel_remove_children_of_busy (s : BzCarousel) (w : Nat) (info : ChildInfo)
    (a : TimedAnimation) (l1 l2 : List ChildInfo) (hw : w ∈ s.widget_children)
    (hf : find_child_info s (some w) = some info) (hdes : s.in_destruction = false)
    (hs : s.children = l1 ++ info :: l2)
    (h1 : info.ptr ∉ child_ptrs l1) (h2 : info.ptr ∉ child_ptrs l2)
    (ha : info.resize_animation = some a) :
    (bz_carousel_remove s w).children = l1 ++ l2 := by
  rw [bz_carousel_remove_eq s w info hw hf hdes]
  have hu := unparent_child_children s w info l1 l2 hs h1 h2
  exact animate_child_resize_children_of_busy_split (unparent_child s w info.ptr)
    info.ptr 0 s.reveal_duration _ a l1 l2 hu rfl h1 h2 ha rfl

theorem update_shift_position_flag_widget_children (t : BzCarousel) (q : Nat) :
    (update_shift_position_flag t q).widget_children = t.widget_children := by
  unfold update_shift_position_flag
  split <;> rfl

theorem adw_animation_skip_widget_children (t : BzCarousel) (q : Nat) (a : TimedAnimation) :
    (adw_animation_skip t q a).widget_children = t.widget_children := by
  have hv : ∀ (u : BzCarousel) (v : ℚ),
      (resize_animation_value_cb u v q).widget_children = u.widget_children := by
    intro u v
    unfold resize_animation_value_cb
    split
    · rfl
    · dsimp only
      split <;> rfl
  have hdone : ∀ u : BzCarousel,
      (resize_animation_done_cb u q).widget_children = u.widget_children := by
    intro u
    unfold resize_animation_done_cb
    split
    · rfl
    · dsimp only
      split <;> rfl
  unfold adw_animation_skip
  rw [hdone, hv]

theorem start_resize_animation_widget_children (t : BzCarousel) (q : Nat)
    (a : TimedAnimation) :
    (start_resize_animation t q a).widget_children = t.widget_children := by
  unfold start_resize_animation adw_animation_play
  split
  · rfl
  · rw [adw_animation_skip_widget_children]

theorem animate_child_resize_widget_children (t : BzCarousel) (q : Nat) (v : ℚ) (d : Nat) :
    (animate_child_resize t q v d).widget_children = t.widget_children := by
  unfold animate_child_resize
  split
  · rfl
  · dsimp only
    split
    · split
      · rw [adw_animation_skip_widget_children, update_shift_position_flag_widget_children]
      · rw [start_resize_animation_widget_children, adw_animation_skip_widget_children,
          update_shift_position_flag_widget_children]
    · rw [start_resize_animation_widget_children, update_shift_position_flag_widget_children]

theorem bz_carousel_remove_of_in_destruction (s : BzCarousel) (w : Nat) (info : ChildInfo)
    (hw : w ∈ s.widget_children) (hf : find_child_info s (some w) = some info)
    (hdes : s.in_destruction = true) :
    bz_carousel_remove s w = unparent_child s w info.ptr := by
  unfold bz_carousel_remove
  rw [if_neg (not_not.mpr hw), hf]
  dsimp only
  rw [if_neg (by simp [unparent_child, hdes])]

/-- The children after `bz_carousel_remove`: the record of the widget is either unlinked
or still at its place, flagged removing and without widget; it is still at its place when
the carousel is in destruction, and when it is mapped and the record had no animation in
flight. -/
theorem bz_carousel_remove_children_cases (s : BzCarousel) (w : Nat) (info : ChildInfo)
    (l1 l2 : List ChildInfo) (hw : w ∈ s.widget_children)
    (hf : find_child_info s (some w) = some info) (hs : s.children = l1 ++ info :: l2)
    (h1 : info.ptr ∉ child_ptrs l1) (h2 : info.ptr ∉ child_ptrs l2) :
    ((bz_carousel_remove s w).children = l1 ++ l2 ∧
      ¬ (s.in_destruction = true ∨ (s.mapped = true ∧ info.resize_animation = none))) ∨
    ∃ c, c.ptr = info.ptr ∧ c.removing = true ∧ c.widget = none ∧
      (bz_carousel_remove s w).children = l1 ++ c :: l2 := by
  cases hdes : s.in_destruction with
  | true =>
    refine Or.inr ⟨{ info with removing := true, widget := none }, rfl, rfl, rfl, ?_⟩
    rw [bz_carousel_remove_of_in_destruction s w info hw hf hdes]
    exact unparent_child_children s w info l1 l2 hs h1 h2
  | false =>
    cases ha : info.resize_animation with
    | some a =>
      refine Or.inl ⟨bz_carousel_remove_children_of_busy s w info a l1 l2 hw hf hdes hs h1 h2
        ha, ?_⟩
      simp
    | none =>
      obtain ⟨b, hb⟩ := bz_carousel_remove_children_of_idle s w info l1 l2 hw hf hdes hs h1 h2
        ha
      cases hm : s.mapped with
      | true =>
        rw [if_pos hm] at hb
        exact Or.inr
          ⟨{ info with
             removing := true, widget := none, shift_position := b,
             resize_animation := some ⟨info.size, 0, s.reveal_duration⟩ },
            rfl, rfl, rfl, hb⟩
      | false =>
        rw [if_neg (by simp [hm])] at hb
        refine Or.inl ⟨hb, ?_⟩
        simp

/-- C7: for a page widget `w` (its record `info` is not being removed), in a carousel whose
records have distinct addresses and distinct widgets, when `bz_carousel_remove (w)` returns
the widget has lost its parent, no record holds `w`, and the record of `w`, wherever it is
still in the sequence, has `removing` set and its widget reference cleared; it is still in
the sequence, so flagged, when the carousel is in destruction and when the carousel is
mapped and the record had no animation in flight. The record no longer counts as a page:
`bz_carousel_get_n_pages` is exactly one less than before and `bz_carousel_get_nth_page`
returns `w` for no index. -/
theorem bz_carousel_remove_unpages (s : BzCarousel) (w : Nat) (info : ChildInfo)
    (hw : w ∈ s.widget_children) (hf : find_child_info s (some w) = some info)
    (hr : info.removing = false) (hd : PtrsDistinct s) (hwd : WidgetsDistinct s) :
    (∀ c ∈ (bz_carousel_remove s w).children, c.ptr = info.ptr →
      c.removing = true ∧ c.widget = none) ∧
    (∀ c ∈ (bz_carousel_remove s w).children, c.widget ≠ some w) ∧
    ((s.in_destruction = true ∨ (s.mapped = true ∧ info.resize_animation = none)) →
      ∃ c, deref (bz_carousel_remove s w).children info.ptr = some c ∧
        c.removing = true ∧ c.widget = none) ∧
    (bz_carousel_remove s w).widget_children = s.widget_children.erase w ∧
    bz_carousel_get_n_pages (bz_carousel_remove s w) + 1 = bz_carousel_get_n_pages s ∧
    ∀ n, bz_carousel_get_nth_page (bz_carousel_remove s w) n ≠ some w := by
  obtain ⟨hmem, hwid⟩ := find_child_info_spec s (some w) info hf
  obtain ⟨l1, l2, hs⟩ := List.append_of_mem hmem
  have hd2 := hd
  unfold PtrsDistinct at hd2
  rw [hs] at hd2
  obtain ⟨h1, h2⟩ := nodup_split l1 l2 info hd2
  have hpw := bz_carousel_remove_page_widgets s w info l1 l2 hw hf hs h1 h2
  have hpw0 : page_widgets s.children = page_widgets l1 ++ some w :: page_widgets l2 := by
    rw [hs, page_widgets_append]
    congr 1
    unfold page_widgets
    rw [List.filter_cons_of_pos (by simp [hr]), List.map_cons, hwid]
  unfold WidgetsDistinct at hwd
  rw [hs, List.filterMap_append, List.filterMap_cons_some hwid, List.nodup_append] at hwd
  obtain ⟨_, hn2, hdis⟩ := hwd
  have hw1 : ∀ c ∈ l1, c.widget ≠ some w := fun c hc he =>
    hdis (List.mem_filterMap.mpr ⟨c, hc, he⟩) (List.mem_cons_self _ _)
  have hw2 : ∀ c ∈ l2, c.widget ≠ some w := fun c hc he =>
    (List.nodup_cons.mp hn2).1 (List.mem_filterMap.mpr ⟨c, hc, he⟩)
  have hp1 : ∀ c ∈ l1, c.ptr ≠ info.ptr := fun c hc he =>
    h1 (List.mem_map.mpr ⟨c, hc, he⟩)
  have hp2 : ∀ c ∈ l2, c.ptr ≠ info.ptr := fun c hc he =>
    h2 (List.mem_map.mpr ⟨c, hc, he⟩)
  have hcases := bz_carousel_remove_children_cases s w info l1 l2 hw hf hs h1 h2
  refine ⟨?_, ?_, ?_, ?_, ?_, ?_⟩
  · intro c hc hp
    rcases hcases with ⟨he, _⟩ | ⟨c0, _, hc2, hc3, he⟩
    · rw [he, List.mem_append] at hc
      rcases hc with hc | hc
      · exact absurd hp (hp1 c hc)
      · exact absurd hp (hp2 c hc)
    · rw [he] at hc
      simp only [List.mem_append, List.mem_cons] at hc
      rcases hc with hc | rfl | hc
      · exact absurd hp (hp1 c hc)
      · exact ⟨hc2, hc3⟩
      · exact absurd hp (hp2 c hc)
  · intro c hc
    rcases hcases with ⟨he, _⟩ | ⟨c0, _, _, hc3, he⟩
    · rw [he, List.mem_append] at hc
      rcases hc with hc | hc
      · exact hw1 c hc
      · exact hw2 c hc
    · rw [he] at hc
      simp only [List.mem_append, List.mem_cons] at hc
      rcases hc with hc | rfl | hc
      · exact hw1 c hc
      · rw [hc3]; simp
      · exact hw2 c hc
  · intro hstay
    rcases hcases with ⟨_, hno⟩ | ⟨c0, hc1, hc2, hc3, he⟩
    · exact absurd hstay hno
    · refine ⟨c0, ?_, hc2, hc3⟩
      rw [he]
      exact deref_append_cons l1 l2 c0 info.ptr hc1 h1
  · unfold bz_carousel_remove
    rw [if_neg (not_not.mpr hw), hf]
    dsimp only
    split
    · rw [animate_child_resize_widget_children]
      rfl
    · rfl
  · rw [bz_carousel_get_n_pages_eq, bz_carousel_get_n_pages_eq, hpw, hpw0]
    simp only [List.length_append, List.length_cons]
    omega
  · intro n hn
    have hm := bz_carousel_get_nth_page_mem _ n w hn
    rw [hpw, List.mem_append] at hm
    rcases hm with hm | hm
    · exact hdis (mem_page_widgets_filterMap l1 w hm) (List.mem_cons_self _ _)
    · exact (List.nodup_cons.mp hn2).1 (mem_page_widgets_filterMap l2 w hm)

/-- C7 at a concrete input: page 1 of two idle pages of a mapped carousel is removed; its
record is still first in the sequence, flagged removing and without widget, page 2 is the
only page left. -/
theorem bz_carousel_remove_unpages_witness :
    (∃ c, deref (bz_carousel_remove two_pages 1).children 101 = some c ∧
      c.removing = true ∧ c.widget = none) ∧
    (bz_carousel_remove two_pages 1).widget_children = [2] ∧
    bz_carousel_get_n_pages (bz_carousel_remove two_pages 1) = 1 ∧
    ∀ n, bz_carousel_get_nth_page (bz_carousel_remove two_pages 1) n ≠ some 1 :=
  ⟨(bz_carousel_remove_unpages two_pages 1 idle_page_one
      (by decide!) (by decide!) rfl (by unfold PtrsDistinct; decide!)
      (by unfold WidgetsDistinct; decide!)).2.2.1 (Or.inr ⟨by decide!, rfl⟩),
    by decide!, by decide!,
    (bz_carousel_remove_unpages two_pages 1 idle_page_one
      (by decide!) (by decide!) rfl (by unfold PtrsDistinct; decide!)
      (by unfold WidgetsDistinct; decide!)).2.2.2.2.2⟩

/-- C4 (as amended): for a widget `w` with record `info`, in a carousel that is not in
destruction and whose records have distinct addresses: when the carousel is mapped and the
record has no resize animation in flight, right after `bz_carousel_remove (w)` returns the
record is still linked at the same place, flagged removing, without widget and with a
shrink animation from its size to 0 over `reveal_duration`; it stays linked over every
sequence of later events that does not contain the completion of that animation, and that
completion unlinks it. When the carousel is not mapped, the shrink animation is skipped
inside the call, and when the record still has a (grow) animation in flight at the moment
of removal, that animation is skipped and its done callback runs with `removing` already
set: in both cases the record has left the sequence when `bz_carousel_remove` returns. -/
theorem bz_carousel_remove_keeps_record_until_done (s : BzCarousel) (w : Nat)
    (info : ChildInfo) (hw : w ∈ s.widget_children)
    (hf : find_child_info s (some w) = some info) (hd : PtrsDistinct s)
    (hdes : s.in_destruction = false) :
    (info.resize_animation = none → s.mapped = true →
      child_ptrs (bz_carousel_remove s w).children = child_ptrs s.children ∧
      (∃ b, deref (bz_carousel_remove s w).children info.ptr =
        some { info with
               removing := true, widget := none, shift_position := b,
               resize_animation := some ⟨info.size, 0, s.reveal_duration⟩ }) ∧
      (∀ events : List Event, (∀ e ∈ events, completes info.ptr e = false) →
        info.ptr ∈ child_ptrs (events.foldl step (bz_carousel_remove s w)).children) ∧
      info.ptr ∉
        child_ptrs (step (bz_carousel_remove s w) (Event.resize_done info.ptr)).children) ∧
    (info.resize_animation = none → s.mapped = false →
      info.ptr ∉ child_ptrs (bz_carousel_remove s w).children) ∧
    (∀ a, info.resize_animation = some a →
      info.ptr ∉ child_ptrs (bz_carousel_remove s w).children) := by
  obtain ⟨hmem, hwid⟩ := find_child_info_spec s (some w) info hf
  obtain ⟨l1, l2, hs⟩ := List.append_of_mem hmem
  have hd2 := hd
  unfold PtrsDistinct at hd2
  rw [hs] at hd2
  obtain ⟨h1, h2⟩ := nodup_split l1 l2 info hd2
  refine ⟨fun hn hm => ?_, fun hn hm => ?_, fun a ha => ?_⟩
  · obtain ⟨b, hb⟩ := bz_carousel_remove_children_of_idle s w info l1 l2 hw hf hdes hs h1 h2 hn
    rw [if_pos hm] at hb
    have hderef := deref_append_cons l1 l2
      ({ info with
         removing := true, widget := none, shift_position := b,
         resize_animation := some ⟨info.size, 0, s.reveal_duration⟩ } : ChildInfo)
      info.ptr rfl h1
    rw [← hb] at hderef
    have hheld : Held info.ptr (bz_carousel_remove s w).children := by
      rw [hb]
      refine ⟨?_, ?_⟩
      · simp [child_ptrs]
      · intro c hc hp
        simp only [List.mem_append, List.mem_cons] at hc
        rcases hc with hc | rfl | hc
        · exact absurd (List.mem_map.mpr ⟨c, hc, hp⟩) h1
        · rfl
        · exact absurd (List.mem_map.mpr ⟨c, hc, hp⟩) h2
    refine ⟨?_, ⟨b, hderef⟩, ?_, ?_⟩
    · rw [hb, hs]
      simp [child_ptrs]
    · intro events he
      exact (Held_foldl_step info.ptr events _ he hheld).1
    · simp only [step]
      rw [hderef]
      dsimp only [Option.bind]
      rw [adw_animation_skip_children_of_split (bz_carousel_remove s w)
        ({ info with
           removing := true, widget := none, shift_position := b,
           resize_animation := some ⟨info.size, 0, s.reveal_duration⟩ } : ChildInfo)
        _ l1 l2 hb h1 h2 rfl]
      exact not_mem_child_ptrs_append info.ptr l1 l2 h1 h2
  · obtain ⟨b, hb⟩ := bz_carousel_remove_children_of_idle s w info l1 l2 hw hf hdes hs h1 h2 hn
    rw [if_neg (by simp [hm])] at hb
    rw [hb]
    exact not_mem_child_ptrs_append info.ptr l1 l2 h1 h2
  · rw [bz_carousel_remove_children_of_busy s w info a l1 l2 hw hf hdes hs h1 h2 ha]
    exact not_mem_child_ptrs_append info.ptr l1 l2 h1 h2

/-- C4 (as amended) at a concrete input: page 2 of two idle pages of a mapped carousel is
removed, a layout pass and a swipe update follow, and the record of page 2 is still linked,
flagged removing and shrinking; the completion of its animation unlinks it. -/
theorem bz_carousel_remove_keeps_record_until_done_witness :
    two_pages.mapped = true ∧
    (bz_carousel_remove two_pages 2).children.map
      (fun c => (c.ptr, c.widget, c.removing, c.resize_animation)) =
      [(101, some 1, false, none), (102, none, true, some ⟨1, 0, 0⟩)] ∧
    102 ∈ child_ptrs
      ([Event.size_allocate example_toolkit 100 100, Event.set_position (1 / 2)].foldl step
        (bz_carousel_remove two_pages 2)).children ∧
    102 ∉ child_ptrs (step (bz_carousel_remove two_pages 2) (Event.resize_done 102)).children :=
  ⟨by decide!, by decide!,
    ((bz_carousel_remove_keeps_record_until_done two_pages 2 idle_page_two
      (by decide!) (by decide!) (by unfold PtrsDistinct; decide!) (by decide!)).1 rfl
        (by decide!)).2.2.1
      [Event.size_allocate example_toolkit 100 100, Event.set_position (1 / 2)]
      (by simp [completes]),
    ((bz_carousel_remove_keeps_record_until_done two_pages 2 idle_page_two
      (by decide!) (by decide!) (by unfold PtrsDistinct; decide!) (by decide!)).1 rfl
        (by decide!)).2.2.2⟩

/-- C4 as stated fails: page 2 is removed while its grow animation is still in flight; the
animation is skipped, its done callback unlinks the record, and the record is no longer in
the children sequence when `bz_carousel_remove` returns. -/
theorem bz_carousel_remove_unlinks_growing_page :
    ¬ (102 ∈ child_ptrs page_growing.children →
       102 ∈ child_ptrs (bz_carousel_remove page_growing 2).children) := by
  decide!

/-! ## The layout pass applies the pending shift in full -/

theorem G_APPROX_VALUE_zero_of_le (d : ℚ) (h : DBL_EPSILON ≤ |d|) :
    G_APPROX_VALUE d 0 DBL_EPSILON = false := by
  unfold G_APPROX_VALUE
  simp only [decide_eq_false_iff_not, not_lt]
  split
  · rename_i hd
    simpa [abs_of_pos hd] using h
  · rename_i hd
    simpa [abs_of_nonpos (not_lt.mp hd)] using h

theorem le_MAX_right (a b : ℚ) : b ≤ MAX a b := by
  unfold MAX
  split
  · rename_i h
    exact le_of_lt h
  · exact le_refl b

/-- C17: for a pending shift `d` of magnitude at least `DBL_EPSILON` and a scroll position
`x` with `x ≤` (snap point of the last child record) and `x + d ≥ 0` (in particular for
`0 ≤ x`), the layout pass sets the scroll position to exactly `x + d`: the range clamp does
not cut the shift. -/
theorem size_allocate_applies_shift_in_full (s : BzCarousel) (tk : Toolkit) (width height : Int)
    (hd : DBL_EPSILON ≤ |s.position_shift|)
    (h1 : s.position ≤ last_snap_point s) (h2 : 0 ≤ s.position + s.position_shift) :
    (bz_carousel_size_allocate s tk width height).position = s.position + s.position_shift := by
  rw [bz_carousel_size_allocate_position, apply_position_shift_position,
    G_APPROX_VALUE_zero_of_le _ hd]
  simp only [Bool.false_eq_true, if_false]
  apply CLAMP_of_mem _ _ _ h2
  refine le_trans ?_ (le_MAX_right 0 _)
  linarith

/-- C17 at a concrete input: the state with pending shift 1/2 and position 0 (last snap
point 0). -/
theorem size_allocate_applies_shift_in_full_witness :
    (bz_carousel_size_allocate shifted_state example_toolkit 100 100).position =
      shifted_state.position + shifted_state.position_shift :=
  size_allocate_applies_shift_in_full shifted_state example_toolkit 100 100
    (by decide!) (by decide!) (by decide!)

/-! ## Completion of a grow animation -/

/-- C20: when `resize_animation_done_cb` runs for a child record that is not flagged
removing (a record that finished growing), the record gets `adding = FALSE` and its resize
animation is cleared; the children sequence keeps its members and order and every other
record is unchanged. -/
theorem resize_animation_done_cb_finishes_adding (s : BzCarousel) (c : ChildInfo)
    (hd : PtrsDistinct s) (hc : c ∈ s.children) (hr : c.removing = false) :
    ∃ l1 l2, s.children = l1 ++ c :: l2 ∧
      (resize_animation_done_cb s c.ptr).children =
        l1 ++ { c with resize_animation := none, adding := false } :: l2 := by
  obtain ⟨l1, l2, hs⟩ := List.append_of_mem hc
  unfold PtrsDistinct at hd
  rw [hs] at hd
  obtain ⟨h1, h2⟩ := nodup_split l1 l2 c hd
  refine ⟨l1, l2, hs, ?_⟩
  unfold resize_animation_done_cb
  rw [hs, deref_append_cons l1 l2 c c.ptr rfl h1]
  dsimp only
  rw [if_neg (by simp [hr]), update_child_append_cons l1 l2 c c.ptr _ rfl h1 h2]

/-- C20 at a concrete input: the grow animation of page 2, appended after page 1,
completes. -/
theorem resize_animation_done_cb_finishes_adding_witness :
    ∃ l1 l2, page_growing.children = l1 ++ new_page_two :: l2 ∧
      (resize_animation_done_cb page_growing 102).children =
        l1 ++ { new_page_two with resize_animation := none, adding := false } :: l2 :=
  resize_animation_done_cb_finishes_adding page_growing new_page_two
    (by unfold PtrsDistinct; decide!) (by decide!) rfl

/-! ## Page lookup by index and by widget -/

theorem page_widgets_cons_removing (a : ChildInfo) (l : List ChildInfo)
    (h : a.removing = true) : page_widgets (a :: l) = page_widgets l := by
  unfold page_widgets
  rw [List.filter_cons_of_neg (by simp [h])]

theorem page_widgets_cons_page (a : ChildInfo) (l : List ChildInfo)
    (h : a.removing = false) : page_widgets (a :: l) = a.widget :: page_widgets l := by
  unfold page_widgets
  rw [List.filter_cons_of_pos (by simp [h])]
  rfl

theorem find_child_index_from_eq (w : Option Nat) (l : List ChildInfo) (i : Int)
    (l1 l2 : List (Option Nat)) (h : page_widgets l = l1 ++ w :: l2) (hw : w ∉ l1) :
    find_child_index_from w false l i = i + (l1.length : Int) := by
  induction l generalizing l1 i with
  | nil => simp [page_widgets] at h
  | cons a l ih =>
    unfold find_child_index_from
    cases hr : a.removing with
    | true =>
      rw [page_widgets_cons_removing a l hr] at h
      simp only [Bool.not_false, Bool.and_self, if_true]
      exact ih i l1 h hw
    | false =>
      rw [page_widgets_cons_page a l hr] at h
      simp only [Bool.not_false, Bool.and_true, Bool.false_eq_true, if_false]
      cases l1 with
      | nil =>
        simp only [List.nil_append, List.cons.injEq] at h
        rw [if_pos h.1.symm]
        simp
      | cons x l1 =>
        simp only [List.cons_append, List.cons.injEq] at h
        simp only [List.mem_cons, not_or] at hw
        rw [if_neg (fun e => hw.1 (e.trans h.1)), ih (i + 1) l1 h.2 hw.2]
        simp only [List.length_cons]
        push_cast
        ring

theorem nodup_take_not_mem {α : Type} (l : List α) (n : Nat) (x : α) (hn : l.Nodup)
    (hx : l.get? n = some x) : l = l.take n ++ x :: l.drop (n + 1) ∧ x ∉ l.take n := by
  have hlt : n < l.length := by
    by_contra hc
    rw [List.get?_eq_none.mpr (not_lt.mp hc)] at hx
    exact absurd hx (by simp)
  have hsplit : l = l.take n ++ x :: l.drop (n + 1) := by
    have hx2 : l[n] = x := by
      rw [List.get?_eq_getElem?, List.getElem?_eq_getElem hlt] at hx
      exact Option.some.inj hx
    conv_lhs => rw [← List.take_append_drop n l]
    rw [List.drop_eq_getElem_cons hlt, hx2]
  refine ⟨hsplit, ?_⟩
  rw [hsplit] at hn
  rw [List.nodup_append] at hn
  intro hm
  exact hn.2.2 hm (List.mem_cons_self _ _)

/-- C16: for a carousel whose pages are distinct widgets, `bz_carousel_get_n_pages` is the
number of child records not flagged removing, and for every `n` below that number
`bz_carousel_get_nth_page (n)` returns the widget of the `n`-th such record, and
`find_child_index` of that widget, not counting removing records, is `n`. -/
theorem nth_page_and_child_index_inverse (s : BzCarousel)
    (hn : (page_widgets s.children).Nodup) :
    bz_carousel_get_n_pages s = (s.children.filter (fun c => !c.removing)).length ∧
    ∀ n, n < bz_carousel_get_n_pages s →
      ∃ c, (s.children.filter (fun c => !c.removing)).get? n = some c ∧
        bz_carousel_get_nth_page s n = c.widget ∧
        find_child_index s c.widget false = (n : Int) := by
  refine ⟨?_, ?_⟩
  · unfold bz_carousel_get_n_pages
    rw [List.countP_eq_length_filter]
  · intro n hlt
    have hlen : n < (s.children.filter (fun c => !c.removing)).length := by
      unfold bz_carousel_get_n_pages at hlt
      rw [List.countP_eq_length_filter] at hlt
      exact hlt
    refine ⟨(s.children.filter (fun c => !c.removing))[n], ?_, ?_, ?_⟩
    · rw [List.get?_eq_getElem?, List.getElem?_eq_getElem hlen]
    · rw [bz_carousel_get_nth_page_eq]
      unfold page_widgets
      rw [List.get?_eq_getElem?, List.getElem?_map, List.getElem?_eq_getElem hlen]
      rfl
    · have hget : (page_widgets s.children).get? n =
          some (s.children.filter (fun c => !c.removing))[n].widget := by
        unfold page_widgets
        rw [List.get?_eq_getElem?, List.getElem?_map, List.getElem?_eq_getElem hlen]
        rfl
      obtain ⟨hsplit, hnot⟩ := nodup_take_not_mem _ n _ hn hget
      unfold find_child_index
      rw [find_child_index_from_eq _ s.children 0 _ _ hsplit hnot]
      have : ((page_widgets s.children).take n).length = n := by
        rw [List.length_take]
        unfold page_widgets
        rw [List.length_map]
        omega
      rw [this]
      simp

/-- C16 at a concrete input: two of three pages are shrinking, page 3 is the only page. -/
theorem nth_page_and_child_index_inverse_witness :
    bz_carousel_get_nth_page (run two_pages_shrinking) 0 = some 3 ∧
    find_child_index (run two_pages_shrinking) (some 3) false = 0 := by
  obtain ⟨c, h1, h2, h3⟩ := (nth_page_and_child_index_inverse (run two_pages_shrinking)
    (by decide!)).2 0 (by decide!)
  have hc : c.widget = some 3 := by
    have e : ((run two_pages_shrinking).children.filter (fun c => !c.removing)).get? 0 =
        some { ptr := 103, widget := some 3, position := 125, visible := false, size := 1,
               snap_point := 2, adding := false, removing := false, shift_position := false,
               resize_animation := none } := by decide!
    rw [e] at h1
    rw [← Option.some.inj h1]
  rw [hc] at h2 h3
  exact ⟨h2, h3⟩

/-! ## Snap points are prefix sums of the page sizes -/

theorem snap_point_loop_page_sizes (target : Option Nat) (l : List ChildInfo) (acc : ℚ)
    (anim : SpringAnimation) :
    ((snap_point_loop target l acc anim).1.filter (fun c => !c.removing)).map
        (fun c => c.size) =
      (l.filter (fun c => !c.removing)).map (fun c => c.size) := by
  induction l generalizing acc anim with
  | nil => rfl
  | cons a l ih =>
    unfold snap_point_loop
    split
    · rename_i hrem
      dsimp only
      rw [List.filter_cons_of_neg (by simp [hrem]), List.filter_cons_of_neg (by simp [hrem])]
      exact ih acc anim
    · rename_i hrem
      dsimp only
      rw [List.filter_cons_of_pos (by simpa using hrem),
        List.filter_cons_of_pos (by simpa using hrem)]
      simp only [List.map_cons]
      rw [ih]

theorem snap_point_loop_prefix_sum (target : Option Nat) (l : List ChildInfo) (acc : ℚ)
    (anim : SpringAnimation) (k : Nat) (c : ChildInfo)
    (h : ((snap_point_loop target l acc anim).1.filter (fun c => !c.removing)).get? k =
      some c) :
    c.snap_point =
      acc + (((l.filter (fun c => !c.removing)).map (fun c => c.size)).take (k + 1)).sum - 1 := by
  induction l generalizing acc anim k with
  | nil => simp [snap_point_loop] at h
  | cons a l ih =>
    unfold snap_point_loop at h
    split at h
    · rename_i hrem
      dsimp only at h
      rw [List.filter_cons_of_neg (by simp [hrem])] at h
      rw [List.filter_cons_of_neg (by simp [hrem])]
      exact ih acc anim k h
    · rename_i hrem
      dsimp only at h
      rw [List.filter_cons_of_pos (by simpa using hrem)] at h
      rw [List.filter_cons_of_pos (by simpa using hrem)]
      cases k with
      | zero =>
        simp only [List.get?_cons_zero, Option.some.injEq] at h
        rw [← h]
        simp
      | succ k =>
        simp only [List.get?_cons_succ] at h
        rw [ih _ _ k h]
        simp only [List.map_cons, List.take_succ_cons, List.sum_cons]
        ring

theorem allocate_loop_page_sizes_and_snap_points (s : BzCarousel) (tk : Toolkit)
    (width height max_size : Int) (l : List ChildInfo) (coord : ℚ) :
    ((allocate_loop s tk width height max_size l coord).1.filter (fun c => !c.removing)).map
        (fun c => (c.size, c.snap_point)) =
      (l.filter (fun c => !c.removing)).map (fun c => (c.size, c.snap_point)) := by
  induction l generalizing coord with
  | nil => simp [allocate_loop]
  | cons a l ih =>
    unfold allocate_loop
    split
    · rename_i hrem
      dsimp only
      rw [List.filter_cons_of_neg (by simp [hrem]), List.filter_cons_of_neg (by simp [hrem])]
      exact ih coord
    · rename_i hrem
      split
      · dsimp only
        rw [List.filter_cons_of_pos (by simpa using hrem),
          List.filter_cons_of_pos (by simpa using hrem)]
        simp only [List.map_cons]
        rw [ih coord]
      · dsimp only
        rw [List.filter_cons_of_pos (by simpa using hrem),
          List.filter_cons_of_pos (by simpa using hrem)]
        simp only [List.map_cons]
        rw [ih]

theorem map_fst_of_map_pair (l1 l2 : List ChildInfo)
    (h : l1.map (fun c => (c.size, c.snap_point)) = l2.map (fun c => (c.size, c.snap_point))) :
    l1.map (fun c => c.size) = l2.map (fun c => c.size) := by
  have := congrArg (List.map Prod.fst) h
  simpa [List.map_map, Function.comp] using this

theorem get?_of_map_pair (l1 l2 : List ChildInfo) (k : Nat) (c : ChildInfo)
    (h : l1.map (fun c => (c.size, c.snap_point)) = l2.map (fun c => (c.size, c.snap_point)))
    (hc : l1.get? k = some c) :
    ∃ c2, l2.get? k = some c2 ∧ c2.size = c.size ∧ c2.snap_point = c.snap_point := by
  have h1 : (l1.map (fun c => (c.size, c.snap_point))).get? k = some (c.size, c.snap_point) := by
    rw [List.get?_eq_getElem?, List.getElem?_map, ← List.get?_eq_getElem?, hc]
    rfl
  rw [h, List.get?_eq_getElem?, List.getElem?_map, ← List.get?_eq_getElem?] at h1
  cases h2 : l2.get? k with
  | none => rw [h2] at h1; simp at h1
  | some c2 =>
    rw [h2] at h1
    simp only [Option.map_some', Option.some.injEq, Prod.mk.injEq] at h1
    exact ⟨c2, rfl, h1.1, h1.2⟩

theorem size_allocate_page_pairs (s : BzCarousel) (tk : Toolkit) (width height : Int) :
    ((bz_carousel_size_allocate s tk width height).children.filter
        (fun c => !c.removing)).map (fun c => (c.size, c.snap_point)) =
      ((snap_point_loop (apply_position_shift s).animation_target_child
        (size_loop (apply_position_shift s) tk width height
          (apply_position_shift s).children 0).1 0
        (apply_position_shift s).animation).1.filter (fun c => !c.removing)).map
        (fun c => (c.size, c.snap_point)) := by
  obtain ⟨m, coord, hc⟩ := bz_carousel_size_allocate_children s tk width height
  rw [hc, allocate_loop_page_sizes_and_snap_points]

theorem size_allocate_page_sizes (s : BzCarousel) (tk : Toolkit) (width height : Int) :
    ((bz_carousel_size_allocate s tk width height).children.filter
        (fun c => !c.removing)).map (fun c => c.size) =
      ((size_loop (apply_position_shift s) tk width height
          (apply_position_shift s).children 0).1.filter (fun c => !c.removing)).map
        (fun c => c.size) := by
  have h := map_fst_of_map_pair _ _ (size_allocate_page_pairs s tk width height)
  rw [snap_point_loop_page_sizes] at h
  exact h

theorem size_allocate_snap_formula (s : BzCarousel) (tk : Toolkit) (width height : Int)
    (k : Nat) (c : ChildInfo)
    (hk : ((bz_carousel_size_allocate s tk width height).children.filter
      (fun c => !c.removing)).get? k = some c) :
    c.snap_point =
      ((((bz_carousel_size_allocate s tk width height).children.filter
        (fun c => !c.removing)).map (fun c => c.size)).take (k + 1)).sum - 1 := by
  obtain ⟨c2, h2, _, h4⟩ :=
    get?_of_map_pair _ _ k c (size_allocate_page_pairs s tk width height) hk
  rw [← h4, snap_point_loop_prefix_sum _ _ _ _ k c2 h2, size_allocate_page_sizes]
  ring

/-- C18: after every layout pass, taking the child records that are not being removed in
sequence order, the snap point of the `k`-th one is the sum of the sizes of the records
`0..k` minus 1; so, when these sizes are non-negative, the snap points of the pages are
non-decreasing in page order, and the snap point of the first page is its size minus 1. -/
theorem page_snap_points_are_prefix_sums (s : BzCarousel) (tk : Toolkit) (width height : Int) :
    (∀ k c,
      ((bz_carousel_size_allocate s tk width height).children.filter
        (fun c => !c.removing)).get? k = some c →
      c.snap_point =
        ((((bz_carousel_size_allocate s tk width height).children.filter
          (fun c => !c.removing)).map (fun c => c.size)).take (k + 1)).sum - 1) ∧
    ((∀ c ∈ (bz_carousel_size_allocate s tk width height).children,
        c.removing = false → 0 ≤ c.size) →
      List.Sorted (· ≤ ·) (page_snap_points (bz_carousel_size_allocate s tk width height))) ∧
    (∀ c,
      ((bz_carousel_size_allocate s tk width height).children.filter
        (fun c => !c.removing)).get? 0 = some c →
      c.snap_point = c.size - 1) := by
  have hsizes := size_allocate_page_sizes s tk width height
  refine ⟨size_allocate_snap_formula s tk width height, ?_, ?_⟩
  · intro hnn
    obtain ⟨m, coord, hc⟩ := bz_carousel_size_allocate_children s tk width height
    unfold page_snap_points
    rw [hc, allocate_loop_page_snap_points]
    refine (snap_point_loop_sorted _ _ 0 _ ?_).1
    intro c0 hc0 hr0
    have hm : c0.size ∈ ((size_loop (apply_position_shift s) tk width height
        (apply_position_shift s).children 0).1.filter (fun c => !c.removing)).map
        (fun c => c.size) :=
      List.mem_map.mpr ⟨c0, List.mem_filter.mpr ⟨hc0, by simp [hr0]⟩, rfl⟩
    rw [← hsizes] at hm
    obtain ⟨c1, hc1, he⟩ := List.mem_map.mp hm
    rw [← he]
    have := List.mem_filter.mp hc1
    exact hnn c1 this.1 (by simpa using this.2)
  · intro c h0
    have := size_allocate_snap_formula s tk width height 0 c h0
    rw [this]
    cases hl : (bz_carousel_size_allocate s tk width height).children.filter
        (fun c => !c.removing) with
    | nil => rw [hl] at h0; simp at h0
    | cons x xs =>
      rw [hl] at h0
      simp only [List.get?_cons_zero, Option.some.injEq] at h0
      subst h0
      simp

/-! ## The page index of an inserted widget -/

theorem get_nth_link_from_take (l : List ChildInfo) (raw n j : Nat)
    (h : get_nth_link_from l raw (n : Int) = some j) :
    (page_widgets (l.take (j - raw))).length = n := by
  induction l generalizing raw n with
  | nil => simp [get_nth_link_from] at h
  | cons a l ih =>
    unfold get_nth_link_from at h
    cases hr : a.removing with
    | true =>
      rw [hr] at h
      simp only [if_true] at h
      have hle := (get_nth_link_from_le l (raw + 1) n j h).1
      have e : j - raw = (j - (raw + 1)) + 1 := by omega
      rw [e, List.take_succ_cons, page_widgets_cons_removing a _ hr]
      exact ih (raw + 1) n h
    | false =>
      rw [hr] at h
      simp only [Bool.false_eq_true, if_false] at h
      cases n with
      | zero =>
        simp only [Nat.cast_zero, if_true, Option.some.injEq] at h
        subst h
        simp [page_widgets]
      | succ m =>
        have hne : ¬ (((m + 1 : Nat) : Int) = 0) := by omega
        have hsub : (((m + 1 : Nat) : Int) - 1) = (m : Int) := by omega
        rw [if_neg hne, hsub] at h
        have hle := (get_nth_link_from_le l (raw + 1) m j h).1
        have e : j - raw = (j - (raw + 1)) + 1 := by omega
        rw [e, List.take_succ_cons, page_widgets_cons_page a _ hr, List.length_cons,
          ih (raw + 1) m h]

theorem get_nth_link_from_none (l : List ChildInfo) (raw n : Nat)
    (h : get_nth_link_from l raw (n : Int) = none) : (page_widgets l).length ≤ n := by
  induction l generalizing raw n with
  | nil => simp [page_widgets]
  | cons a l ih =>
    unfold get_nth_link_from at h
    cases hr : a.removing with
    | true =>
      rw [hr] at h
      simp only [if_true] at h
      rw [page_widgets_cons_removing a _ hr]
      exact ih (raw + 1) n h
    | false =>
      rw [hr] at h
      simp only [Bool.false_eq_true, if_false] at h
      cases n with
      | zero => simp at h
      | succ m =>
        have hne : ¬ (((m + 1 : Nat) : Int) = 0) := by omega
        have hsub : (((m + 1 : Nat) : Int) - 1) = (m : Int) := by omega
        rw [if_neg hne, hsub] at h
        rw [page_widgets_cons_page a _ hr, List.length_cons]
        have := ih (raw + 1) m h
        omega

theorem get_nth_link_from_some_lt (l : List ChildInfo) (raw n j : Nat)
    (h : get_nth_link_from l raw (n : Int) = some j) : n < (page_widgets l).length := by
  induction l generalizing raw n with
  | nil => simp [get_nth_link_from] at h
  | cons a l ih =>
    unfold get_nth_link_from at h
    cases hr : a.removing with
    | true =>
      rw [hr] at h
      simp only [if_true] at h
      rw [page_widgets_cons_removing a _ hr]
      exact ih (raw + 1) n h
    | false =>
      rw [hr] at h
      simp only [Bool.false_eq_true, if_false] at h
      rw [page_widgets_cons_page a _ hr, List.length_cons]
      cases n with
      | zero => omega
      | succ m =>
        have hne : ¬ (((m + 1 : Nat) : Int) = 0) := by omega
        have hsub : (((m + 1 : Nat) : Int) - 1) = (m : Int) := by omega
        rw [if_neg hne, hsub] at h
        have := ih (raw + 1) m h
        omega

theorem page_widgets_insert_before (l : List ChildInfo) (p : Int) (hp : -1 ≤ p)
    (info : ChildInfo) (hr : info.removing = false) :
    page_widgets
        (g_list_insert_before l (if p ≥ 0 then get_nth_link_from l 0 p else none) info) =
      (page_widgets l).take
          (if 0 ≤ p ∧ p < ((page_widgets l).length : Int) then p.toNat
            else (page_widgets l).length) ++
        info.widget :: (page_widgets l).drop
          (if 0 ≤ p ∧ p < ((page_widgets l).length : Int) then p.toNat
            else (page_widgets l).length) := by
  have happ : page_widgets (l ++ [info]) =
      (page_widgets l).take (page_widgets l).length ++
        info.widget :: (page_widgets l).drop (page_widgets l).length := by
    rw [page_widgets_append, page_widgets_cons_page info [] hr, List.take_length,
      List.drop_length]
    rfl
  by_cases h0 : 0 ≤ p
  · obtain ⟨n, rfl⟩ := Int.eq_ofNat_of_zero_le h0
    rw [if_pos h0]
    cases hj : get_nth_link_from l 0 (n : Int) with
    | none =>
      have hle := get_nth_link_from_none l 0 n hj
      rw [if_neg (by omega)]
      exact happ
    | some j =>
      have hlt := get_nth_link_from_some_lt l 0 n j hj
      have hlen := get_nth_link_from_take l 0 n j hj
      simp only [Nat.sub_zero] at hlen
      rw [if_pos ⟨h0, by omega⟩]
      simp only [Int.toNat_ofNat]
      unfold g_list_insert_before
      dsimp only
      rw [page_widgets_append, page_widgets_cons_page info _ hr]
      have hsplit : page_widgets l = page_widgets (l.take j) ++ page_widgets (l.drop j) := by
        rw [← page_widgets_append, List.take_append_drop]
      rw [hsplit, ← hlen, List.take_left, List.drop_left]
  · have hm : p = -1 := by omega
    subst hm
    rw [if_neg (by omega), if_neg (by omega)]
    exact happ

theorem bz_carousel_insert_page_widgets (s : BzCarousel) (w : Nat) (p : Int) (a : Nat)
    (hw : w ∉ s.widget_children) (hp : -1 ≤ p) :
    page_widgets (bz_carousel_insert s w p a).children =
      (page_widgets s.children).take
          (if 0 ≤ p ∧ p < (bz_carousel_get_n_pages s : Int) then p.toNat
            else bz_carousel_get_n_pages s) ++
        some w :: (page_widgets s.children).drop
          (if 0 ≤ p ∧ p < (bz_carousel_get_n_pages s : Int) then p.toNat
            else bz_carousel_get_n_pages s) := by
  unfold bz_carousel_insert
  rw [if_neg hw, if_neg (by omega)]
  dsimp only
  rw [animate_child_resize_page_widgets, bz_carousel_get_n_pages_eq]
  exact page_widgets_insert_before s.children p hp (new_child_info a w) rfl

theorem get?_insert_at {α : Type} (l : List α) (k : Nat) (x : α) (hk : k ≤ l.length) :
    (l.take k ++ x :: l.drop k).get? k = some x ∧
    (∀ i, i < k → (l.take k ++ x :: l.drop k).get? i = l.get? i) ∧
    (∀ i, k ≤ i → (l.take k ++ x :: l.drop k).get? (i + 1) = l.get? i) := by
  have hlen : (l.take k).length = k := by rw [List.length_take]; omega
  refine ⟨?_, ?_, ?_⟩
  · rw [List.get?_eq_getElem?, List.getElem?_append_right (by omega), hlen]
    simp
  · intro i hi
    rw [List.get?_eq_getElem?, List.getElem?_append_left (by omega), List.getElem?_take,
      if_pos hi, List.get?_eq_getElem?]
  · intro i hi
    rw [List.get?_eq_getElem?, List.getElem?_append_right (by omega), hlen]
    have e : i + 1 - k = (i - k) + 1 := by omega
    rw [e, List.getElem?_cons_succ, List.getElem?_drop, List.get?_eq_getElem?]
    congr 1
    omega

/-- C14: for a carousel with `n` pages (records being removed may sit anywhere in the
sequence), a widget `w` without parent and `p ≥ -1`: after `bz_carousel_insert (w, p)` the
number of pages is `n + 1`; with `0 ≤ p < n`, `w` is the page at index `p`, pages formerly
below `p` keep their index and pages formerly at `p` or above move up by one; with `p = -1`
or `p ≥ n`, `w` is the last page (index `n`) and all other pages keep their index.
`bz_carousel_prepend` is the insert at 0 and `bz_carousel_append` the insert at -1. -/
theorem bz_carousel_insert_page_index (s : BzCarousel) (w : Nat) (p : Int) (a : Nat)
    (hw : w ∉ s.widget_children) (hp : -1 ≤ p) :
    bz_carousel_get_n_pages (bz_carousel_insert s w p a) = bz_carousel_get_n_pages s + 1 ∧
    (0 ≤ p ∧ p < (bz_carousel_get_n_pages s : Int) →
      bz_carousel_get_nth_page (bz_carousel_insert s w p a) p.toNat = some w ∧
      (∀ i, i < p.toNat →
        bz_carousel_get_nth_page (bz_carousel_insert s w p a) i =
          bz_carousel_get_nth_page s i) ∧
      (∀ i, p.toNat ≤ i →
        bz_carousel_get_nth_page (bz_carousel_insert s w p a) (i + 1) =
          bz_carousel_get_nth_page s i)) ∧
    (p = -1 ∨ (bz_carousel_get_n_pages s : Int) ≤ p →
      bz_carousel_get_nth_page (bz_carousel_insert s w p a) (bz_carousel_get_n_pages s) =
        some w ∧
      (∀ i, i < bz_carousel_get_n_pages s →
        bz_carousel_get_nth_page (bz_carousel_insert s w p a) i =
          bz_carousel_get_nth_page s i)) ∧
    bz_carousel_prepend s w a = bz_carousel_insert s w 0 a ∧
    bz_carousel_append s w a = bz_carousel_insert s w (-1) a := by
  have hpw := bz_carousel_insert_page_widgets s w p a hw hp
  have hn := bz_carousel_get_n_pages_eq s
  refine ⟨?_, ?_, ?_, ?_, ?_⟩
  · rw [bz_carousel_get_n_pages_eq, hpw, hn]
    simp only [List.length_append, List.length_cons, List.length_take, List.length_drop]
    split <;> omega
  · intro hin
    rw [if_pos hin] at hpw
    have hk : p.toNat ≤ (page_widgets s.children).length := by omega
    obtain ⟨g1, g2, g3⟩ := get?_insert_at (page_widgets s.children) p.toNat (some w) hk
    refine ⟨?_, ?_, ?_⟩
    · rw [bz_carousel_get_nth_page_eq, hpw, g1]
      rfl
    · intro i hi
      rw [bz_carousel_get_nth_page_eq, bz_carousel_get_nth_page_eq, hpw, g2 i hi]
    · intro i hi
      rw [bz_carousel_get_nth_page_eq, bz_carousel_get_nth_page_eq, hpw, g3 i hi]
  · intro hout
    rw [if_neg (by omega)] at hpw
    have hk : bz_carousel_get_n_pages s ≤ (page_widgets s.children).length := by omega
    obtain ⟨g1, g2, _⟩ := get?_insert_at (page_widgets s.children)
      (bz_carousel_get_n_pages s) (some w) hk
    refine ⟨?_, ?_⟩
    · rw [bz_carousel_get_nth_page_eq, hpw, g1]
      rfl
    · intro i hi
      rw [bz_carousel_get_nth_page_eq, bz_carousel_get_nth_page_eq, hpw, g2 i hi]
  · unfold bz_carousel_prepend
    rw [if_neg hw]
  · unfold bz_carousel_append
    rw [if_neg hw]

/-- C14 at a concrete input: page 4 is inserted at page index 0 while the first two of three
records are shrinking; it becomes page 0 and page 3 moves up to index 1. -/
theorem bz_carousel_insert_page_index_witness :
    bz_carousel_get_nth_page (bz_carousel_insert (run two_pages_shrinking) 4 0 104) 0 =
      some 4 ∧
    bz_carousel_get_nth_page (bz_carousel_insert (run two_pages_shrinking) 4 0 104) 1 =
      some 3 :=
  ⟨((bz_carousel_insert_page_index (run two_pages_shrinking) 4 0 104
      (by decide!) (by decide)).2.1 (by decide!)).1,
    (((bz_carousel_insert_page_index (run two_pages_shrinking) 4 0 104
      (by decide!) (by decide)).2.1 (by decide!)).2.2 0 (by decide)).trans (by decide!)⟩

/-! ## The closest child -/

theorem get_closest_child_at_eq (s : BzCarousel) (pos : ℚ) (ca cr : Bool) :
    get_closest_child_at s pos ca cr = s.children.foldl (closest_step pos ca cr) none :=
  rfl

theorem closest_step_of_not_counted (pos : ℚ) (ca cr : Bool) (acc : Option ChildInfo)
    (x : ChildInfo) (h : counted ca cr x = false) : closest_step pos ca cr acc x = acc := by
  unfold closest_step
  unfold counted at h
  by_cases h1 : (x.adding && !ca) = true
  · rw [if_pos h1]
  · rw [if_neg h1]
    have h2 : (x.removing && !cr) = true := by
      simp only [Bool.not_eq_true] at h1
      rw [h1] at h
      simpa using h
    rw [if_pos h2]

theorem closest_step_of_counted (pos : ℚ) (ca cr : Bool) (acc : Option ChildInfo)
    (x : ChildInfo) (h : counted ca cr x = true) :
    closest_step pos ca cr acc x =
      match acc with
      | none => some x
      | some cc =>
        if ABS (cc.snap_point - pos) > ABS (x.snap_point - pos) then some x else acc := by
  unfold closest_step
  unfold counted at h
  simp only [Bool.and_eq_true, Bool.not_eq_true', Bool.and_eq_false_imp] at h
  have h1 : ¬ (x.adding && !ca) = true := by
    intro e
    simp only [Bool.and_eq_true, Bool.not_eq_true'] at e
    have := h.1 e.1
    rw [e.2] at this
    exact absurd this (by simp)
  have h2 : ¬ (x.removing && !cr) = true := by
    intro e
    simp only [Bool.and_eq_true, Bool.not_eq_true'] at e
    have := h.2 e.1
    rw [e.2] at this
    exact absurd this (by simp)
  rw [if_neg h1, if_neg h2]

theorem closest_fold_some (pos : ℚ) (ca cr : Bool) (l : List ChildInfo) (a : ChildInfo) :
    ∃ r, l.foldl (closest_step pos ca cr) (some a) = some r ∧
      ((r = a ∧ ∀ c ∈ l, counted ca cr c = true →
          ABS (a.snap_point - pos) ≤ ABS (c.snap_point - pos)) ∨
       (∃ l1 l2, l = l1 ++ r :: l2 ∧ counted ca cr r = true ∧
          ABS (r.snap_point - pos) < ABS (a.snap_point - pos) ∧
          (∀ c ∈ l1, counted ca cr c = true →
            ABS (r.snap_point - pos) < ABS (c.snap_point - pos)) ∧
          (∀ c ∈ l2, counted ca cr c = true →
            ABS (r.snap_point - pos) ≤ ABS (c.snap_point - pos)))) := by
  induction l generalizing a with
  | nil => exact ⟨a, rfl, Or.inl ⟨rfl, fun c hc => absurd hc (List.not_mem_nil c)⟩⟩
  | cons x l ih =>
    simp only [List.foldl_cons]
    by_cases hx : counted ca cr x = true ∧
        ABS (a.snap_point - pos) > ABS (x.snap_point - pos)
    · have hstep : closest_step pos ca cr (some a) x = some x := by
        rw [closest_step_of_counted pos ca cr _ x hx.1]
        dsimp only
        rw [if_pos hx.2]
      rw [hstep]
      obtain ⟨r, hr, hcase⟩ := ih x
      refine ⟨r, hr, Or.inr ?_⟩
      rcases hcase with ⟨rfl, hall⟩ | ⟨l1, l2, hl, hcr, hlt, h1, h2⟩
      · exact ⟨[], l, rfl, hx.1, hx.2, fun c hc => absurd hc (List.not_mem_nil c), hall⟩
      · refine ⟨x :: l1, l2, by rw [hl]; rfl, hcr, lt_trans hlt hx.2, ?_, h2⟩
        intro c hc hcc
        rcases List.mem_cons.mp hc with rfl | hc
        · exact hlt
        · exact h1 c hc hcc
    · have hstep : closest_step pos ca cr (some a) x = some a := by
        cases hc : counted ca cr x with
        | false => exact closest_step_of_not_counted pos ca cr _ x hc
        | true =>
          rw [closest_step_of_counted pos ca cr _ x hc]
          dsimp only
          rw [if_neg (fun h => hx ⟨hc, h⟩)]
      have hle : counted ca cr x = true →
          ABS (a.snap_point - pos) ≤ ABS (x.snap_point - pos) :=
        fun hc => not_lt.mp (fun h => hx ⟨hc, h⟩)
      rw [hstep]
      obtain ⟨r, hr, hcase⟩ := ih a
      refine ⟨r, hr, ?_⟩
      rcases hcase with ⟨rfl, hall⟩ | ⟨l1, l2, hl, hcr, hlt, h1, h2⟩
      · left
        refine ⟨rfl, ?_⟩
        intro c hc hcc
        rcases List.mem_cons.mp hc with rfl | hc
        · exact hle hcc
        · exact hall c hc hcc
      · right
        refine ⟨x :: l1, l2, by rw [hl]; rfl, hcr, hlt, ?_, h2⟩
        intro c hc hcc
        rcases List.mem_cons.mp hc with rfl | hc
        · exact lt_of_lt_of_le hlt (hle hcc)
        · exact h1 c hc hcc

theorem closest_fold_none (pos : ℚ) (ca cr : Bool) (l : List ChildInfo) :
    (l.foldl (closest_step pos ca cr) none = none ∧ ∀ c ∈ l, counted ca cr c = false) ∨
    (∃ r l1 l2, l.foldl (closest_step pos ca cr) none = some r ∧ l = l1 ++ r :: l2 ∧
      counted ca cr r = true ∧
      (∀ c ∈ l1, counted ca cr c = true →
        ABS (r.snap_point - pos) < ABS (c.snap_point - pos)) ∧
      (∀ c ∈ l2, counted ca cr c = true →
        ABS (r.snap_point - pos) ≤ ABS (c.snap_point - pos))) := by
  induction l with
  | nil => exact Or.inl ⟨rfl, fun c hc => absurd hc (List.not_mem_nil c)⟩
  | cons x l ih =>
    simp only [List.foldl_cons]
    cases hc : counted ca cr x with
    | false =>
      rw [closest_step_of_not_counted pos ca cr _ x hc]
      rcases ih with ⟨hn, hall⟩ | ⟨r, l1, l2, hr, hl, hcr, h1, h2⟩
      · left
        refine ⟨hn, ?_⟩
        intro c hm
        rcases List.mem_cons.mp hm with rfl | hm
        · exact hc
        · exact hall c hm
      · right
        refine ⟨r, x :: l1, l2, hr, by rw [hl]; rfl, hcr, ?_, h2⟩
        intro c hm hcc
        rcases List.mem_cons.mp hm with rfl | hm
        · rw [hc] at hcc; exact absurd hcc (by simp)
        · exact h1 c hm hcc
    | true =>
      rw [closest_step_of_counted pos ca cr _ x hc]
      dsimp only
      obtain ⟨r, hr, hcase⟩ := closest_fold_some pos ca cr l x
      right
      rcases hcase with ⟨rfl, hall⟩ | ⟨l1, l2, hl, hcr, hlt, h1, h2⟩
      · exact ⟨r, [], l, hr, rfl, hc, fun c hm => absurd hm (List.not_mem_nil c), hall⟩
      · refine ⟨r, x :: l1, l2, hr, by rw [hl]; rfl, hcr, ?_, h2⟩
        intro c hm hcc
        rcases List.mem_cons.mp hm with rfl | hm
        · exact hlt
        · exact h1 c hm hcc

theorem counted_false_true (c : ChildInfo) : counted false true c = !c.adding := by
  unfold counted
  simp

theorem g_list_index_from_of_split (l1 l2 : List ChildInfo) (c : ChildInfo) (q : Nat) (i : Int)
    (hc : c.ptr = q) (h1 : q ∉ child_ptrs l1) :
    g_list_index_from (l1 ++ c :: l2) q i = i + (l1.length : Int) := by
  induction l1 generalizing i with
  | nil => simp [g_list_index_from, hc]
  | cons a l ih =>
    simp only [child_ptrs, List.map_cons, List.mem_cons, not_or] at h1
    rw [List.cons_append]
    unfold g_list_index_from
    rw [if_neg (fun e => h1.1 e.symm), ih (i + 1) h1.2]
    simp only [List.length_cons]
    push_cast
    ring

theorem g_list_index_of_split (l1 l2 : List ChildInfo) (c : ChildInfo)
    (h1 : c.ptr ∉ child_ptrs l1) :
    g_list_index (l1 ++ c :: l2) c.ptr = (l1.length : Int) := by
  unfold g_list_index
  rw [g_list_index_from_of_split l1 l2 c c.ptr 0 rfl h1]
  simp

/-! ## Uniform spacing: the current page is centred -/

theorem apply_position_shift_of_zero (s : BzCarousel) (h : s.position_shift = 0) :
    apply_position_shift s = s := by
  unfold apply_position_shift
  rw [h]
  have : G_APPROX_VALUE 0 0 DBL_EPSILON = true := by decide!
  rw [this]
  rfl

theorem size_loop_uniform_ready (s : BzCarousel) (tk : Toolkit) (width height : Int)
    (hu : s.uniform_spacing = true) (l : List ChildInfo) (m : Int)
    (hvis : ∀ x ∈ l, x.removing = false → tk.visible x.widget = true) :
    ∀ c ∈ (size_loop s tk width height l m).1,
      c.removing = false → tk.visible c.widget = true ∧ c.size = 1 := by
  induction l generalizing m with
  | nil => intro c hc; simp [size_loop] at hc
  | cons a l ih =>
    have hl : ∀ x ∈ l, x.removing = false → tk.visible x.widget = true :=
      fun x hx => hvis x (List.mem_cons_of_mem a hx)
    intro c hc hr
    unfold size_loop at hc
    split at hc
    · rename_i hrem
      rcases List.mem_cons.mp hc with rfl | hc
      · rw [hrem] at hr; exact absurd hr (by simp)
      · exact ih m hl c hc hr
    · rename_i hrem
      rcases List.mem_cons.mp hc with rfl | hc
      · refine ⟨hvis a (List.mem_cons_self a l) (by simpa using hrem), ?_⟩
        simp [hu]
      · exact ih _ hl c hc hr

theorem snap_point_loop_uniform_ready (tk : Toolkit) (target : Option Nat)
    (l : List ChildInfo) (acc : ℚ) (anim : SpringAnimation)
    (h : ∀ x ∈ l, x.removing = false → tk.visible x.widget = true ∧ x.size = 1) :
    ∀ c ∈ (snap_point_loop target l acc anim).1,
      c.removing = false → tk.visible c.widget = true ∧ c.size = 1 := by
  induction l generalizing acc anim with
  | nil => intro c hc; simp [snap_point_loop] at hc
  | cons a l ih =>
    have hl : ∀ x ∈ l, x.removing = false → tk.visible x.widget = true ∧ x.size = 1 :=
      fun x hx => h x (List.mem_cons_of_mem a hx)
    intro c hc hr
    unfold snap_point_loop at hc
    split at hc
    · rcases List.mem_cons.mp hc with rfl | hc
      · exact h _ (List.mem_cons_self _ l) hr
      · exact ih acc anim hl c hc hr
    · rcases List.mem_cons.mp hc with rfl | hc
      · exact h a (List.mem_cons_self a l) hr
      · exact ih _ _ hl c hc hr

theorem allocate_loop_uniform (s2 : BzCarousel) (tk : Toolkit) (width height max_size : Int)
    (dir : ℚ) (hu : s2.uniform_spacing = true)
    (hdir : ∀ coord adv : ℚ,
      (if s2.orientation = GtkOrientation.VERTICAL then coord + adv
        else if tk.is_rtl = true then coord - adv else coord + adv) = coord + dir * adv)
    (l : List ChildInfo) (coord : ℚ)
    (hready : ∀ x ∈ l, x.removing = false → tk.visible x.widget = true ∧ x.size = 1)
    (k : Nat) (c : ChildInfo)
    (hk : ((allocate_loop s2 tk width height max_size l coord).1.filter
      (fun c => !c.removing)).get? k = some c) :
    ∃ a, (allocate_loop s2 tk width height max_size l coord).2.get? k = some a ∧
      a.widget = c.widget ∧
      a.position = c_trunc (coord + dir * ((k : ℚ) * s2.distance)) ∧
      a.child_width =
        (if s2.orientation = GtkOrientation.HORIZONTAL then max_size else width) ∧
      a.child_height =
        (if s2.orientation = GtkOrientation.HORIZONTAL then height else max_size) := by
  induction l generalizing coord k with
  | nil => simp [allocate_loop] at hk
  | cons x l ih =>
    have hl : ∀ y ∈ l, y.removing = false → tk.visible y.widget = true ∧ y.size = 1 :=
      fun y hy => hready y (List.mem_cons_of_mem x hy)
    unfold allocate_loop at hk ⊢
    cases hr : x.removing with
    | true =>
      simp only [hr, if_true] at hk ⊢
      rw [List.filter_cons_of_neg (by simp [hr])] at hk
      exact ih coord hl k hk
    | false =>
      obtain ⟨hv, hsz⟩ := hready x (List.mem_cons_self x l) hr
      simp only [hr, hv, Bool.false_eq_true, if_false, Bool.not_true, hu, if_true, hsz,
        mul_one] at hk ⊢
      rw [List.filter_cons_of_pos (by simp [hr])] at hk
      cases k with
      | zero =>
        simp only [List.get?_cons_zero, Option.some.injEq] at hk ⊢
        refine ⟨_, rfl, ?_, ?_, rfl, rfl⟩
        · rw [← hk]
        · simp
      | succ k =>
        simp only [List.get?_cons_succ] at hk ⊢
        rw [hdir] at hk ⊢
        obtain ⟨a, h1, h2, h3, h4, h5⟩ := ih _ hl k hk
        refine ⟨a, h1, h2, ?_, h4, h5⟩
        rw [h3]
        congr 1
        push_cast
        ring

theorem sum_take_of_all_one (L : List ℚ) (k : Nat) (h : ∀ x ∈ L, x = 1) (hk : k < L.length) :
    (L.take (k + 1)).sum = (k : ℚ) + 1 := by
  induction L generalizing k with
  | nil => simp at hk
  | cons a L ih =>
    have ha : a = 1 := h a (List.mem_cons_self a L)
    rw [List.take_succ_cons, List.sum_cons, ha]
    cases k with
    | zero => simp
    | succ k =>
      rw [ih k (fun x hx => h x (List.mem_cons_of_mem a hx))
        (by simpa using hk)]
      push_cast
      ring

theorem size_loop_max_size_ge (s : BzCarousel) (tk : Toolkit) (width height : Int)
    (l : List ChildInfo) (m : Int) :
    m ≤ (size_loop s tk width height l m).2 ∧
    ∀ x ∈ l, x.removing = false →
      measured_child_size s tk width height x.widget ≤ (size_loop s tk width height l m).2 := by
  induction l generalizing m with
  | nil => exact ⟨le_refl m, fun x hx => absurd hx (List.not_mem_nil x)⟩
  | cons a l ih =>
    unfold size_loop
    split
    · rename_i hrem
      refine ⟨(ih m).1, ?_⟩
      intro x hx hr
      rcases List.mem_cons.mp hx with rfl | hx
      · rw [hrem] at hr; exact absurd hr (by simp)
      · exact (ih m).2 x hx hr
    · dsimp only
      have hM1 : m ≤ MAX m (measured_child_size s tk width height a.widget) := by
        unfold MAX; split
        · exact le_refl m
        · rename_i h; exact not_lt.mp h
      have hM2 : measured_child_size s tk width height a.widget ≤
          MAX m (measured_child_size s tk width height a.widget) := by
        unfold MAX; split
        · rename_i h; exact le_of_lt h
        · exact le_refl _
      refine ⟨le_trans hM1 (ih _).1, ?_⟩
      intro x hx hr
      rcases List.mem_cons.mp hx with rfl | hx
      · exact le_trans hM2 (ih _).1
      · exact (ih _).2 x hx hr

theorem uniform_page_position (s : BzCarousel) (tk : Toolkit) (width height : Int)
    (k : Nat) (c : ChildInfo) (hu : s.uniform_spacing = true)
    (hk : ((bz_carousel_size_allocate s tk width height).children.filter
      (fun c => !c.removing)).get? k = some c) :
    c.snap_point = (k : ℚ) := by
  rw [size_allocate_snap_formula s tk width height k c hk]
  have hlen : k < (((bz_carousel_size_allocate s tk width height).children.filter
      (fun c => !c.removing)).map (fun c => c.size)).length := by
    rw [List.length_map]
    by_contra hc
    rw [List.get?_eq_none.mpr (not_lt.mp hc)] at hk
    exact absurd hk (by simp)
  rw [sum_take_of_all_one _ k ?_ hlen]
  · ring
  · rw [size_allocate_page_sizes]
    intro x hx
    obtain ⟨c0, hc0, rfl⟩ := List.mem_map.mp hx
    have hm := List.mem_filter.mp hc0
    have hr : c0.removing = false := by simpa using hm.2
    have hu2 : (apply_position_shift s).uniform_spacing = true := by
      rw [apply_position_shift_uniform_spacing]; exact hu
    clear hk hlen hx hc0
    revert hm hr
    generalize (apply_position_shift s).children = l
    generalize (0 : Int) = m
    intro hm hr
    induction l generalizing m with
    | nil => simp [size_loop] at hm
    | cons a l ih =>
      unfold size_loop at hm
      split at hm
      · rename_i hrem
        rcases List.mem_cons.mp hm.1 with rfl | h
        · rw [hrem] at hr; exact absurd hr (by simp)
        · exact ih m ⟨h, hm.2⟩
      · rcases List.mem_cons.mp hm.1 with rfl | h
        · simp [hu2]
        · exact ih _ ⟨h, hm.2⟩

/-- C12: in uniform-spacing mode, for a layout pass with no pending position shift in which
all pages are visible and the scroll position equals the snap point the pass computes for
page `k`, page `k` is allocated centred along the scroll axis: its offset is
`(extent - max_size) / 2` truncated to an integer, where `extent` is the width of the
carousel when horizontal (in either text direction) and its height when vertical, and its
length along the axis is `max_size`, which no measured page size exceeds. -/
theorem uniform_layout_centres_current_page (s : BzCarousel) (tk : Toolkit)
    (width height : Int) (k : Nat) (c : ChildInfo)
    (hu : s.uniform_spacing = true) (hshift : s.position_shift = 0)
    (hvis : ∀ x ∈ s.children, x.removing = false → tk.visible x.widget = true)
    (hk : ((bz_carousel_size_allocate s tk width height).children.filter
      (fun c => !c.removing)).get? k = some c)
    (hpos : s.position = c.snap_point) :
    ∃ a, (bz_carousel_size_allocate_calls s tk width height).2.get? k = some a ∧
      a.widget = c.widget ∧
      a.position =
        c_trunc (((layout_extent s width height - layout_max_size s tk width height : Int) : ℚ)
          / 2) ∧
      (s.orientation = GtkOrientation.HORIZONTAL →
        a.child_width = layout_max_size s tk width height) ∧
      (s.orientation = GtkOrientation.VERTICAL →
        a.child_height = layout_max_size s tk width height) ∧
      (∀ x ∈ s.children, x.removing = false →
        measured_child_size s tk width height x.widget ≤
          layout_max_size s tk width height) := by
  have hp : s.position = (k : ℚ) :=
    hpos.trans (uniform_page_position s tk width height k c hu hk)
  have hap := apply_position_shift_of_zero s hshift
  have hready := snap_point_loop_uniform_ready tk s.animation_target_child
    (size_loop s tk width height s.children 0).1 0 s.animation
    (size_loop_uniform_ready s tk width height hu s.children 0 hvis)
  have hmax := (size_loop_max_size_ge s tk width height s.children 0).2
  unfold bz_carousel_size_allocate bz_carousel_size_allocate_calls at hk
  unfold bz_carousel_size_allocate_calls
  rw [hap] at hk ⊢
  simp only [hu, if_true] at hk ⊢
  have hdir : ∀ coord adv : ℚ,
      (if s.orientation = GtkOrientation.VERTICAL then coord + adv
        else if tk.is_rtl = true then coord - adv else coord + adv) =
      coord + layout_direction s tk * adv := by
    intro coord adv
    unfold layout_direction
    split
    · ring
    · split
      · ring
      · ring
  obtain ⟨a, h1, h2, h3, h4, h5⟩ := allocate_loop_uniform _ tk width height
    (size_loop s tk width height s.children 0).2 (layout_direction s tk) (by rfl)
    (by exact hdir) _ _ (by exact hready) k c hk
  refine ⟨a, h1, h2, ?_, ?_, ?_, hmax⟩
  · rw [h3]
    congr 1
    unfold layout_direction layout_extent layout_max_size
    dsimp only
    rw [hp]
    split
    · ring
    · split
      · ring
      · ring
  · intro ho
    rw [h4]
    exact if_pos ho
  · intro ho
    rw [h5]
    have : ¬ s.orientation = GtkOrientation.HORIZONTAL := by rw [ho]; decide
    exact if_neg this

/-- C12 at a concrete input: two idle pages of measured size 50 in a carousel 100 wide, at
position 0; page 1 is allocated at offset 25 with width 50. -/
theorem uniform_layout_centres_current_page_witness :
    ∃ a, (bz_carousel_size_allocate_calls two_pages example_toolkit 100 100).2.get? 0 = some a ∧
      a.widget = some 1 ∧ a.position = 25 ∧ a.child_width = 50 := by
  obtain ⟨a, h1, h2, h3, h4, _⟩ := uniform_layout_centres_current_page two_pages
    example_toolkit 100 100 0 idle_page_one (by decide!) (by decide!)
    (fun _ _ _ => rfl) (by decide!) (by decide!)
  refine ⟨a, h1, h2, h3.trans (by decide!), (h4 (by decide!)).trans (by decide!)⟩

/-! ## Non-uniform spacing: the page at the current snap point is not aligned -/

/-- C13 fails on the code: in non-uniform mode, with two visible pages of measured size 50
in a horizontal left-to-right carousel 100 wide, no pending shift and position 0, the layout
pass computes the snap points -1/2 and 0, so the position is the snap point of the second
page (which `get_page_at_position` reports as the current page); the pass allocates that
page at offset 75 and the first page at offset 25, while the centring offset
`(extent - max_size) / 2` is 25. -/
theorem nonuniform_layout_misaligns_current_page :
    nonuniform_two_pages.uniform_spacing = false ∧
    nonuniform_two_pages.position_shift = 0 ∧
    page_snap_points
      (bz_carousel_size_allocate nonuniform_two_pages example_toolkit 100 100) = [-1 / 2, 0] ∧
    nonuniform_two_pages.position = 0 ∧
    get_page_at_position nonuniform_two_pages nonuniform_two_pages.position = some 2 ∧
    (bz_carousel_size_allocate_calls nonuniform_two_pages example_toolkit 100 100).2 =
      [{ widget := some 1, position := 25, child_width := 50, child_height := 100 },
       { widget := some 2, position := 75, child_width := 50, child_height := 100 }] ∧
    c_trunc (((layout_extent nonuniform_two_pages 100 100 -
      layout_max_size nonuniform_two_pages example_toolkit 100 100 : Int) : ℚ) / 2) = 25 := by
  decide!

/-! ## Reordering while a record is being removed -/

/-- C15 fails on the code: with the record of a removed page still first in the sequence
(its shrink animation is in flight) and the pages 2 and 3 after it, `bz_carousel_reorder`
of page 2 to page index 1 returns early, because the raw list index of page 2 is 1, and page
2 stays at page index 0; `bz_carousel_reorder` of page 2 to the end (-1) returns early as
well, because its raw index is `n_pages - 1`, and page 2 does not become the last page. -/
theorem bz_carousel_reorder_mixes_raw_and_page_index :
    bz_carousel_get_n_pages first_page_shrinking = 2 ∧
    find_child_index first_page_shrinking (some 2) false = 0 ∧
    find_child_index (bz_carousel_reorder first_page_shrinking 2 1) (some 2) false = 0 ∧
    bz_carousel_get_nth_page (bz_carousel_reorder first_page_shrinking 2 1) 1 = some 3 ∧
    bz_carousel_get_nth_page (bz_carousel_reorder first_page_shrinking 2 (-1)) 1 = some 3 := by
  decide!

/-! ## Frame of a resize tick -/

theorem resize_animation_value_cb_eq (s : BzCarousel) (v : ℚ) (q : Nat) :
    resize_animation_value_cb s v q =
      { s with
        children := update_child s.children q (fun c => { c with size := v })
        position_shift := (resize_animation_value_cb s v q).position_shift } := by
  have hc := resize_animation_value_cb_children s v q
  unfold resize_animation_value_cb at hc ⊢
  split
  · rename_i h
    rw [h] at hc
    dsimp only at hc
    rw [← hc]
  · dsimp only
    split <;> rfl

/-- C21: a resize tick `resize_animation_value_cb (value, c)` for a record `c` of a carousel
whose records have distinct addresses changes only the size of `c` and the pending
`position_shift`: the children sequence keeps its order, every other record is unchanged in
all its fields, `c` keeps all fields but `size`, and every other field of the carousel,
the scroll position included, is unchanged. -/
theorem resize_animation_value_cb_frame (s : BzCarousel) (c : ChildInfo) (v : ℚ)
    (hd : PtrsDistinct s) (hc : c ∈ s.children) :
    ∃ l1 l2, s.children = l1 ++ c :: l2 ∧
      resize_animation_value_cb s v c.ptr =
        { s with
          children := l1 ++ { c with size := v } :: l2
          position_shift := (resize_animation_value_cb s v c.ptr).position_shift } ∧
      (resize_animation_value_cb s v c.ptr).position = s.position := by
  obtain ⟨l1, l2, hs⟩ := List.append_of_mem hc
  unfold PtrsDistinct at hd
  rw [hs] at hd
  obtain ⟨h1, h2⟩ := nodup_split l1 l2 c hd
  refine ⟨l1, l2, hs, ?_, resize_animation_value_cb_position s v c.ptr⟩
  have he := resize_animation_value_cb_eq s v c.ptr
  rw [hs, update_child_append_cons l1 l2 c c.ptr _ rfl h1 h2] at he
  exact he

/-- C21 at a concrete input: a tick with value 1/2 of the shrink animation of page 2. -/
theorem resize_animation_value_cb_frame_witness :
    ∃ l1 l2, last_page_shrinking.children = l1 ++ shrinking_page_two :: l2 ∧
      resize_animation_value_cb last_page_shrinking (1 / 2) 102 =
        { last_page_shrinking with
          children := l1 ++ { shrinking_page_two with size := 1 / 2 } :: l2
          position_shift :=
            (resize_animation_value_cb last_page_shrinking (1 / 2) 102).position_shift } ∧
      (resize_animation_value_cb last_page_shrinking (1 / 2) 102).position =
        last_page_shrinking.position :=
  resize_animation_value_cb_frame last_page_shrinking shrinking_page_two (1 / 2)
    (by unfold PtrsDistinct; decide!) (by decide!)

/-! ## Frame of a swipe update -/

theorem FlagUpdated_refl (l : List ChildInfo) : List.Forall₂ FlagUpdated l l := by
  induction l with
  | nil => exact List.Forall₂.nil
  | cons a l ih => exact List.Forall₂.cons ⟨a.shift_position, rfl, fun _ _ => rfl⟩ ih

theorem FlagUpdated_update_child (orig cur : List ChildInfo) (p : Nat)
    (g : ChildInfo → ChildInfo) (hg : FlagOnly g)
    (hp : ∀ c ∈ orig, c.ptr = p → (c.adding || c.removing) = true)
    (hrel : List.Forall₂ FlagUpdated orig cur) :
    List.Forall₂ FlagUpdated orig (update_child cur p g) := by
  unfold update_child
  induction hrel with
  | nil => exact List.Forall₂.nil
  | @cons c c1 l l1 hcc _ ih =>
    rw [List.map_cons]
    refine List.Forall₂.cons ?_ (ih (fun x hx => hp x (List.mem_cons_of_mem c hx)))
    obtain ⟨b, hb, hcond⟩ := hcc
    split
    · rename_i hptr
      obtain ⟨b2, hb2⟩ := hg c1
      have hcp : c.ptr = p := by rw [hb] at hptr; exact hptr
      have hflag := hp c (List.mem_cons_self c l) hcp
      refine ⟨b2, ?_, ?_⟩
      · rw [hb2, hb]
      · intro ha hr
        rw [ha, hr] at hflag
        exact absurd hflag (by simp)
    · exact ⟨b, hb, hcond⟩

theorem eq_of_ptr_eq_of_nodup (l : List ChildInfo) (c1 c2 : ChildInfo)
    (hd : (child_ptrs l).Nodup) (h1 : c1 ∈ l) (h2 : c2 ∈ l) (hp : c1.ptr = c2.ptr) :
    c1 = c2 :=
  List.inj_on_of_nodup_map hd h1 h2 hp

theorem FlagUpdated_flag_loop (orig : List ChildInfo) (hd : (child_ptrs orig).Nodup)
    (l : List ChildInfo) (hl : ∀ c ∈ l, c ∈ orig) (st : BzCarousel)
    (hrel : List.Forall₂ FlagUpdated orig st.children) :
    List.Forall₂ FlagUpdated orig (l.foldl (fun s child =>
      if child.adding || child.removing then update_shift_position_flag s child.ptr else s)
      st).children := by
  induction l generalizing st with
  | nil => exact hrel
  | cons a l ih =>
    simp only [List.foldl_cons]
    apply ih (fun c hc => hl c (List.mem_cons_of_mem a hc))
    split
    · rename_i hflag
      obtain ⟨g, hg, he⟩ := update_shift_position_flag_children st a.ptr
      rw [he]
      apply FlagUpdated_update_child orig st.children a.ptr g hg _ hrel
      intro c hc hp
      have := eq_of_ptr_eq_of_nodup orig c a hd hc (hl a (List.mem_cons_self a l)) hp
      rw [this]
      exact hflag
    · exact hrel

theorem set_position_children_rel (s : BzCarousel) (v : ℚ) (hd : PtrsDistinct s) :
    List.Forall₂ FlagUpdated s.children (set_position s v).children := by
  unfold set_position
  exact FlagUpdated_flag_loop s.children hd s.children (fun _ h => h) _
    (FlagUpdated_refl s.children)

/-- C22: for a carousel whose records have distinct addresses and a swipe progress value
`g`, `update_swipe_cb` sets the scroll position to `g` clamped into
`[0, MAX (0, position_shift + last snap point)]` and leaves every other field of the
carousel, the pending `position_shift` included, as it was; the children sequence keeps its
records in order, each with all fields unchanged except that the `shift_position` flag of
a record that is adding or removing may change. -/
theorem update_swipe_cb_frame (s : BzCarousel) (g : ℚ) (hd : PtrsDistinct s) :
    (update_swipe_cb s g).position =
      CLAMP g 0 (MAX 0 (s.position_shift + last_snap_point s)) ∧
    (update_swipe_cb s g).position_shift = s.position_shift ∧
    update_swipe_cb s g =
      { s with
        children := (update_swipe_cb s g).children
        position := (update_swipe_cb s g).position } ∧
    List.Forall₂ FlagUpdated s.children (update_swipe_cb s g).children := by
  unfold update_swipe_cb
  exact ⟨set_position_position s g, set_position_position_shift s g, set_position_eq s g,
    set_position_children_rel s g hd⟩

/-- C22 at a concrete input: a swipe update to 3/2 over two pages, the second of which is
shrinking; the range is `[0, 1]`, so the position becomes 1. -/
theorem update_swipe_cb_frame_witness :
    (update_swipe_cb last_page_shrinking (3 / 2)).position = 1 ∧
    List.Forall₂ FlagUpdated last_page_shrinking.children
      (update_swipe_cb last_page_shrinking (3 / 2)).children :=
  ⟨(update_swipe_cb_frame last_page_shrinking (3 / 2)
      (by unfold PtrsDistinct; decide!)).1.trans (by decide!),
    (update_swipe_cb_frame last_page_shrinking (3 / 2)
      (by unfold PtrsDistinct; decide!)).2.2.2⟩

/-! ## Child sizes after a layout pass -/

theorem measured_child_size_le_width (s : BzCarousel) (tk : Toolkit) (width height : Int)
    (w : Option Nat) (ho : s.orientation = GtkOrientation.HORIZONTAL)
    (hm : ∀ w o f, (tk.measure w o f).1 ≤ (tk.measure w o f).2) :
    measured_child_size s tk width height w ≤ width := by
  unfold measured_child_size CLAMP
  rw [ho]
  dsimp only
  split_ifs with h1 h2 h3
  · exact le_refl width
  · exact le_refl width
  · exact absurd (hm w GtkOrientation.HORIZONTAL height) (not_le.mpr h3)
  · exact not_lt.mp h2

theorem size_loop_size_unit_interval (s : BzCarousel) (tk : Toolkit) (width height : Int)
    (h : s.uniform_spacing = true ∨ s.orientation = GtkOrientation.HORIZONTAL)
    (hw : 0 < width) (hh : 0 < height)
    (hm : ∀ w o f, 0 ≤ (tk.measure w o f).1 ∧ (tk.measure w o f).1 ≤ (tk.measure w o f).2)
    (l : List ChildInfo) (m : Int) :
    ∀ c ∈ (size_loop s tk width height l m).1, c.removing = false →
      0 ≤ c.size ∧ c.size ≤ 1 := by
  induction l generalizing m with
  | nil => intro c hc; simp [size_loop] at hc
  | cons a l ih =>
    intro c hc hr
    unfold size_loop at hc
    split at hc
    · rename_i hrem
      rcases List.mem_cons.mp hc with rfl | hc
      · rw [hrem] at hr; exact absurd hr (by simp)
      · exact ih m c hc hr
    · rcases List.mem_cons.mp hc with rfl | hc
      · dsimp only
        by_cases hu : s.uniform_spacing = true
        · rw [if_pos hu]
          exact ⟨zero_le_one, le_refl 1⟩
        · rw [if_neg hu]
          have ho : s.orientation = GtkOrientation.HORIZONTAL := h.resolve_left hu
          have h0 := measured_child_size_nonneg s tk width height a.widget (le_of_lt hw)
            (le_of_lt hh) (fun w o f => (hm w o f).1)
          have h1 := measured_child_size_le_width s tk width height a.widget ho
            (fun w o f => (hm w o f).2)
          have hwq : (0 : ℚ) < (width : ℚ) := by exact_mod_cast hw
          refine ⟨div_nonneg (by exact_mod_cast h0) (le_of_lt hwq), ?_⟩
          rw [div_le_one hwq]
          exact_mod_cast h1
      · exact ih _ c hc hr

/-- C23 fails on the code: in vertical orientation and non-uniform mode, a layout pass with
width 100 and height 200 over a page that measures minimum 10 and natural 150 gives the
page the size 150 / 100 = 3/2, which is not a fraction in `[0, 1]`: the size is the child
size divided by the width also when the carousel is vertical. -/
theorem vertical_nonuniform_size_exceeds_one :
    vertical_nonuniform_page.orientation = GtkOrientation.VERTICAL ∧
    vertical_nonuniform_page.uniform_spacing = false ∧
    tall_toolkit.measure (some 1) GtkOrientation.VERTICAL 100 = (10, 150) ∧
    (bz_carousel_size_allocate vertical_nonuniform_page tall_toolkit 100 200).children.map
      (fun c => (c.removing, c.size)) = [(false, 3 / 2)] := by
  decide!

/-! ## Reordering the current page -/

/-- C24 fails on the code: three idle pages in uniform mode, no pending shift, position 2
(the snap point of page 3). After `bz_carousel_reorder` of page 3 to index 1 the pending
shift is -1; the layout pass clamps the new position 1 into `[0, MAX (0, -1 + 1)]`, because
the last record is now page 2 with its old snap point 1, so the position becomes 0 while
the new snap point of page 3 is 1. -/
theorem reorder_of_last_page_loses_current_page :
    three_pages_at_last.uniform_spacing = true ∧
    three_pages_at_last.position_shift = 0 ∧
    three_pages_at_last.children.map
      (fun c => (c.widget, c.snap_point, c.adding, c.removing)) =
      [(some 1, 0, false, false), (some 2, 1, false, false), (some 3, 2, false, false)] ∧
    three_pages_at_last.position = 2 ∧
    (bz_carousel_reorder three_pages_at_last 3 1).position_shift = -1 ∧
    (bz_carousel_size_allocate (bz_carousel_reorder three_pages_at_last 3 1)
      example_toolkit 100 100).position = 0 ∧
    (bz_carousel_size_allocate (bz_carousel_reorder three_pages_at_last 3 1)
      example_toolkit 100 100).children.map (fun c => (c.widget, c.snap_point)) =
      [(some 1, 0), (some 3, 1), (some 2, 2)] := by
  decide!

/-- Moving the current page the other way keeps it current: with three idle pages and
position 0 (the snap point of page 1), `bz_carousel_reorder` of page 1 to index 2 followed
by a layout pass leaves the position at 2, the new snap point of page 1. -/
theorem reorder_of_first_page_keeps_current_page :
    three_pages_at_first.position = 0 ∧
    (bz_carousel_reorder three_pages_at_first 1 2).position_shift = 2 ∧
    (bz_carousel_size_allocate (bz_carousel_reorder three_pages_at_first 1 2)
      example_toolkit 100 100).position = 2 ∧
    (bz_carousel_size_allocate (bz_carousel_reorder three_pages_at_first 1 2)
      example_toolkit 100 100).children.map (fun c => (c.widget, c.snap_point)) =
      [(some 2, 0), (some 3, 1), (some 1, 2)] := by
  decide!

/-! ## Scroll targets -/

/-- C25 fails on the code: when the only record is one that is being removed, a swipe that
ends finds no page, `get_page_at_position` yields the null widget, and `find_child_info`
matches the null widget with the record being removed, whose widget reference has been
cleared: `scroll_to` makes that record the animation target. -/
theorem scroll_to_null_targets_removing_record :
    only_page_shrinking.children.map (fun c => (c.ptr, c.widget, c.removing)) =
      [(101, none, true)] ∧
    get_page_at_position only_page_shrinking 0 = none ∧
    (find_child_info only_page_shrinking none).map (fun c => (c.ptr, c.removing)) =
      some (101, true) ∧
    (end_swipe_cb only_page_shrinking 0 0).animation_target_child = some 101 := by
  decide!

/-! ## Keyboard navigation -/

/-- What `navigate_to_direction` does in every state: it
returns FALSE and leaves the state as it is when the carousel has no pages, when the
direction is BACK and `round (position)` is 0, and when the direction is FORWARD and
`round (position) ≥ n_pages - 1`. When it returns TRUE for FORWARD it scrolls to the index
`round (position) + 1`, which is below `bz_carousel_get_n_pages`; when it returns TRUE for
BACK it scrolls to the index `round (position) - 1`, which is below
`bz_carousel_get_n_pages` provided `round (position) ≤ n_pages`. -/
theorem navigate_to_direction_spec (s : BzCarousel) :
    (bz_carousel_get_n_pages s = 0 →
      ∀ d, navigate_to_direction s d = (false, s)) ∧
    (navigation_index s = 0 →
      navigate_to_direction s AdwNavigationDirection.BACK = (false, s)) ∧
    (bz_carousel_get_n_pages s - 1 ≤ navigation_index s →
      navigate_to_direction s AdwNavigationDirection.FORWARD = (false, s)) ∧
    ((navigate_to_direction s AdwNavigationDirection.FORWARD).1 = true →
      navigation_index s + 1 < bz_carousel_get_n_pages s ∧
      (navigate_to_direction s AdwNavigationDirection.FORWARD).2 =
        scroll_to s (bz_carousel_get_nth_page s (navigation_index s + 1)) 0) ∧
    ((navigate_to_direction s AdwNavigationDirection.BACK).1 = true →
      (navigate_to_direction s AdwNavigationDirection.BACK).2 =
        scroll_to s (bz_carousel_get_nth_page s (navigation_index s - 1)) 0 ∧
      (navigation_index s ≤ bz_carousel_get_n_pages s →
        navigation_index s - 1 < bz_carousel_get_n_pages s)) := by
  refine ⟨?_, ?_, ?_, ?_, ?_⟩
  · intro h d
    unfold navigate_to_direction
    simp [h]
  · intro h
    unfold navigate_to_direction
    simp [h]
  · intro h
    unfold navigate_to_direction
    dsimp only
    split
    · rfl
    · rw [if_neg (by omega)]
  · intro h
    unfold navigate_to_direction at h ⊢
    dsimp only at h ⊢
    split at h
    · exact absurd h (by simp)
    · rename_i hn
      rw [if_neg hn]
      split at h
      · rename_i hlt
        rw [if_pos hlt]
        exact ⟨by omega, rfl⟩
      · exact absurd h (by simp)
  · intro h
    unfold navigate_to_direction at h ⊢
    dsimp only at h ⊢
    split at h
    · exact absurd h (by simp)
    · rename_i hn
      rw [if_neg hn]
      split at h
      · rename_i hlt
        rw [if_pos hlt]
        exact ⟨rfl, fun hle => by omega⟩
      · exact absurd h (by simp)

/-- C26 fails on the code: in a reachable state with one page and position 2 (two pages
were removed while still growing), `navigate_to_direction` BACK returns TRUE for the index
`round (position) - 1 = 1`, which is not below `bz_carousel_get_n_pages` = 1;
`bz_carousel_get_nth_page` rejects the index and yields the null widget, so no scroll
starts although TRUE is returned. -/
theorem navigate_back_past_last_page :
    bz_carousel_get_n_pages position_past_pages = 1 ∧
    position_past_pages.position = 2 ∧
    navigation_index position_past_pages - 1 = 1 ∧
    (navigate_to_direction position_past_pages AdwNavigationDirection.BACK).1 = true ∧
    bz_carousel_get_nth_page position_past_pages 1 = none ∧
    (navigate_to_direction position_past_pages
      AdwNavigationDirection.BACK).2.animation_target_child = none := by
  decide!

/-! ## The colour conversions -/

theorem c_fmod_of_lt (x : ℚ) (h0 : 0 ≤ x) (h6 : x < 6) : c_fmod x 6 = x := by
  unfold c_fmod c_trunc
  have hq : 0 ≤ x / 6 := by positivity
  have hfl : ⌊x / 6⌋ = 0 := by
    rw [Int.floor_eq_iff]
    constructor
    · simpa using hq
    · rw [div_lt_iff₀ (by norm_num)]; simpa using h6
  rw [if_pos hq, hfl]
  simp

/-- The value of `hsv_to_rgb` at hue `x / 6` when `x` lies in the sextant `[k, k + 1)`. -/
theorem hsv_to_rgb_sector (x s v : ℚ) (k : Int) (hk0 : 0 ≤ k) (hk6 : k < 6)
    (hlo : (k : ℚ) ≤ x) (hhi : x < k + 1) :
    hsv_to_rgb ⟨x / 6, s, v⟩ =
      match k with
      | 0 => (v, v * (1 - (1 - (x - 0)) * s), v * (1 - s))
      | 1 => (v * (1 - (x - 1) * s), v, v * (1 - s))
      | 2 => (v * (1 - s), v, v * (1 - (1 - (x - 2)) * s))
      | 3 => (v * (1 - s), v * (1 - (x - 3) * s), v)
      | 4 => (v * (1 - (1 - (x - 4)) * s), v * (1 - s), v)
      | _ => (v, v * (1 - s), v * (1 - (x - 5) * s)) := by
  have hx : x / 6 * 6 = x := div_mul_cancel₀ x (by norm_num)
  have hfl : ⌊x⌋ = k := Int.floor_eq_iff.mpr ⟨hlo, hhi⟩
  unfold hsv_to_rgb
  simp only [hx, hfl]
  rw [Int.tmod_eq_of_lt hk0 hk6]
  interval_cases k <;> simp

theorem fmax_eq_max (a b : ℚ) : fmax a b = max a b := by
  unfold fmax
  split_ifs with h
  · exact (max_eq_right h.le).symm
  · exact (max_eq_left (not_lt.mp h)).symm

theorem fmin_eq_min (a b : ℚ) : fmin a b = min a b := by
  unfold fmin
  split_ifs with h
  · exact (min_eq_right h.le).symm
  · exact (min_eq_left (not_lt.mp h)).symm

theorem fmax3_eq (r g b M : ℚ) (hM : M = r ∨ M = g ∨ M = b) (h1 : r ≤ M) (h2 : g ≤ M)
    (h3 : b ≤ M) : fmax (fmax r g) b = M := by
  rw [fmax_eq_max, fmax_eq_max]
  apply le_antisymm
  · exact max_le (max_le h1 h2) h3
  · rcases hM with h | h | h <;> subst h
    · exact le_trans (le_max_left _ _) (le_max_left _ _)
    · exact le_trans (le_max_right _ _) (le_max_left _ _)
    · exact le_max_right _ _

theorem fmin3_eq (r g b m : ℚ) (hm : m = r ∨ m = g ∨ m = b) (h1 : m ≤ r) (h2 : m ≤ g)
    (h3 : m ≤ b) : fmin (fmin r g) b = m := by
  rw [fmin_eq_min, fmin_eq_min]
  apply le_antisymm
  · rcases hm with h | h | h <;> subst h
    · exact le_trans (min_le_left _ _) (min_le_left _ _)
    · exact le_trans (min_le_left _ _) (min_le_right _ _)
    · exact min_le_right _ _
  · exact le_min (le_min h1 h2) h3

/-- Assembling the round-trip property from the value of `rgb_to_hsv`. -/
theorem ColourRoundTrip_of (r g b x M m : ℚ)
    (hsv : rgb_to_hsv r g b = ⟨x / 6, (M - m) / M, M⟩)
    (hback : hsv_to_rgb ⟨x / 6, (M - m) / M, M⟩ = (r, g, b))
    (hx0 : 0 ≤ x) (hx6 : x < 6) (hm0 : 0 ≤ m) (hmM : m < M) (hM1 : M ≤ 1) :
    ColourRoundTrip r g b := by
  unfold ColourRoundTrip
  rw [hsv]
  have hMpos : 0 < M := lt_of_le_of_lt hm0 hmM
  refine ⟨hback, by positivity, ?_, ?_, ?_, hMpos.le, hM1⟩
  · exact (div_lt_one (by norm_num)).mpr hx6
  · exact div_nonneg (by linarith) hMpos.le
  · exact (div_le_one hMpos).mpr (by linarith)

/-- Grey: `r = g = b`. -/
theorem ColourRoundTrip_grey (r : ℚ) (h0 : 0 ≤ r) (h1 : r ≤ 1) : ColourRoundTrip r r r := by
  have hsv : rgb_to_hsv r r r = ⟨0 / 6, 0, r⟩ := by
    unfold rgb_to_hsv
    simp [fmax_eq_max, fmin_eq_min]
  unfold ColourRoundTrip
  rw [hsv]
  refine ⟨?_, by norm_num, by norm_num, le_refl _, by norm_num, h0, h1⟩
  rw [hsv_to_rgb_sector 0 0 r 0 (by norm_num) (by norm_num) (by norm_num) (by norm_num)]
  simp

/-- Red largest, blue smallest, green below red: first sextant. -/
theorem ColourRoundTrip_sector0 (r g b : ℚ) (hb0 : 0 ≤ b) (hr1 : r ≤ 1) (hbg : b ≤ g)
    (hgr : g < r) : ColourRoundTrip r g b := by
  have hM : fmax (fmax r g) b = r :=
    fmax3_eq r g b r (Or.inl rfl) (le_refl _) hgr.le (by linarith)
  have hm : fmin (fmin r g) b = b :=
    fmin3_eq r g b b (Or.inr (Or.inr rfl)) (by linarith) hbg (le_refl _)
  have hd : 0 < r - b := by linarith
  have hr : 0 < r := by linarith
  have hx0 : 0 ≤ (g - b) / (r - b) := div_nonneg (by linarith) hd.le
  have hx1 : (g - b) / (r - b) < 1 := (div_lt_one hd).mpr (by linarith)
  have hsv : rgb_to_hsv r g b = ⟨(g - b) / (r - b) / 6, (r - b) / r, r⟩ := by
    unfold rgb_to_hsv
    simp only [hM, hm, if_neg hd.ne', if_neg hr.ne', if_true, if_neg (not_lt.mpr hbg),
      add_zero]
    rw [c_fmod_of_lt _ hx0 (by linarith)]
  refine ColourRoundTrip_of r g b _ r b hsv ?_ hx0 (by linarith) hb0 (by linarith) hr1
  rw [hsv_to_rgb_sector _ _ _ 0 (by norm_num) (by norm_num) (by push_cast; linarith)
    (by push_cast; linarith)]
  simp only [Prod.mk.injEq]
  refine ⟨trivial, ?_, ?_⟩ <;> field_simp

/-- Red and green equal and largest: the hue is exactly `1 / 6`. -/
theorem ColourRoundTrip_yellow (r b : ℚ) (hb0 : 0 ≤ b) (hr1 : r ≤ 1) (hbr : b < r) :
    ColourRoundTrip r r b := by
  have hM : fmax (fmax r r) b = r :=
    fmax3_eq r r b r (Or.inl rfl) (le_refl _) (le_refl _) hbr.le
  have hm : fmin (fmin r r) b = b :=
    fmin3_eq r r b b (Or.inr (Or.inr rfl)) hbr.le hbr.le (le_refl _)
  have hd : 0 < r - b := by linarith
  have hr : 0 < r := by linarith
  have hsv : rgb_to_hsv r r b = ⟨1 / 6, (r - b) / r, r⟩ := by
    unfold rgb_to_hsv
    simp only [hM, hm, if_neg hd.ne', if_neg hr.ne', if_true, if_neg (not_lt.mpr hbr.le),
      add_zero, div_self hd.ne']
    rw [c_fmod_of_lt _ (by norm_num) (by norm_num)]
  refine ColourRoundTrip_of r r b _ r b hsv ?_ (by norm_num) (by norm_num) hb0
    (by linarith) hr1
  rw [hsv_to_rgb_sector _ _ _ 1 (by norm_num) (by norm_num) (by push_cast; linarith)
    (by push_cast; linarith)]
  simp only [Prod.mk.injEq]
  refine ⟨?_, trivial, ?_⟩ <;> field_simp

/-- Red largest, green smallest and below blue: sixth sextant. -/
theorem ColourRoundTrip_sector5 (r g b : ℚ) (hg0 : 0 ≤ g) (hr1 : r ≤ 1) (hgb : g < b)
    (hbr : b ≤ r) : ColourRoundTrip r g b := by
  have hM : fmax (fmax r g) b = r :=
    fmax3_eq r g b r (Or.inl rfl) (le_refl _) (by linarith) hbr
  have hm : fmin (fmin r g) b = g :=
    fmin3_eq r g b g (Or.inr (Or.inl rfl)) (by linarith) (le_refl _) hgb.le
  have hd : 0 < r - g := by linarith
  have hr : 0 < r := by linarith
  have hx0 : -1 ≤ (g - b) / (r - g) := (le_div_iff₀ hd).mpr (by linarith)
  have hx1 : (g - b) / (r - g) < 0 := div_neg_of_neg_of_pos (by linarith) hd
  have hsv : rgb_to_hsv r g b = ⟨((g - b) / (r - g) + 6) / 6, (r - g) / r, r⟩ := by
    unfold rgb_to_hsv
    simp only [hM, hm, if_neg hd.ne', if_neg hr.ne', if_true, if_pos hgb]
    rw [c_fmod_of_lt _ (by linarith) (by linarith)]
  refine ColourRoundTrip_of r g b _ r g hsv ?_ (by linarith) (by linarith) hg0
    (by linarith) hr1
  rw [hsv_to_rgb_sector _ _ _ 5 (by norm_num) (by norm_num) (by push_cast; linarith)
    (by push_cast; linarith)]
  simp only [Prod.mk.injEq]
  refine ⟨trivial, ?_, ?_⟩ <;> first | (field_simp; ring) | field_simp

/-- Green strictly largest, blue smallest and below red: second sextant. -/
theorem ColourRoundTrip_sector1 (r g b : ℚ) (hb0 : 0 ≤ b) (hg1 : g ≤ 1) (hbr : b < r)
    (hrg : r < g) : ColourRoundTrip r g b := by
  have hM : fmax (fmax r g) b = g :=
    fmax3_eq r g b g (Or.inr (Or.inl rfl)) hrg.le (le_refl _) (by linarith)
  have hm : fmin (fmin r g) b = b :=
    fmin3_eq r g b b (Or.inr (Or.inr rfl)) hbr.le (by linarith) (le_refl _)
  have hd : 0 < g - b := by linarith
  have hg : 0 < g := by linarith
  have hx0 : -1 < (b - r) / (g - b) := (lt_div_iff₀ hd).mpr (by linarith)
  have hx1 : (b - r) / (g - b) < 0 := div_neg_of_neg_of_pos (by linarith) hd
  have hsv : rgb_to_hsv r g b = ⟨((b - r) / (g - b) + 2) / 6, (g - b) / g, g⟩ := by
    unfold rgb_to_hsv
    simp only [hM, hm, if_neg hd.ne', if_neg hg.ne', if_neg hrg.ne', if_true]
  refine ColourRoundTrip_of r g b _ g b hsv ?_ (by linarith) (by linarith) hb0
    (by linarith) hg1
  rw [hsv_to_rgb_sector _ _ _ 1 (by norm_num) (by norm_num) (by push_cast; linarith)
    (by push_cast; linarith)]
  simp only [Prod.mk.injEq]
  refine ⟨?_, trivial, ?_⟩ <;> first | (field_simp; ring) | field_simp

/-- Green strictly largest, red smallest, blue below green: third sextant. -/
theorem ColourRoundTrip_sector2 (r g b : ℚ) (hr0 : 0 ≤ r) (hg1 : g ≤ 1) (hrb : r ≤ b)
    (hbg : b < g) : ColourRoundTrip r g b := by
  have hrg : r < g := by linarith
  have hM : fmax (fmax r g) b = g :=
    fmax3_eq r g b g (Or.inr (Or.inl rfl)) hrg.le (le_refl _) hbg.le
  have hm : fmin (fmin r g) b = r :=
    fmin3_eq r g b r (Or.inl rfl) (le_refl _) hrg.le hrb
  have hd : 0 < g - r := by linarith
  have hg : 0 < g := by linarith
  have hx0 : 0 ≤ (b - r) / (g - r) := div_nonneg (by linarith) hd.le
  have hx1 : (b - r) / (g - r) < 1 := (div_lt_one hd).mpr (by linarith)
  have hsv : rgb_to_hsv r g b = ⟨((b - r) / (g - r) + 2) / 6, (g - r) / g, g⟩ := by
    unfold rgb_to_hsv
    simp only [hM, hm, if_neg hd.ne', if_neg hg.ne', if_neg hrg.ne', if_true]
  refine ColourRoundTrip_of r g b _ g r hsv ?_ (by linarith) (by linarith) hr0
    (by linarith) hg1
  rw [hsv_to_rgb_sector _ _ _ 2 (by norm_num) (by norm_num) (by push_cast; linarith)
    (by push_cast; linarith)]
  simp only [Prod.mk.injEq]
  refine ⟨?_, trivial, ?_⟩ <;> first | (field_simp; ring) | field_simp

/-- Green and blue equal and largest: the hue is exactly `3 / 6`. -/
theorem ColourRoundTrip_cyan (r g : ℚ) (hr0 : 0 ≤ r) (hg1 : g ≤ 1) (hrg : r < g) :
    ColourRoundTrip r g g := by
  have hM : fmax (fmax r g) g = g :=
    fmax3_eq r g g g (Or.inr (Or.inl rfl)) hrg.le (le_refl _) (le_refl _)
  have hm : fmin (fmin r g) g = r :=
    fmin3_eq r g g r (Or.inl rfl) (le_refl _) hrg.le hrg.le
  have hd : 0 < g - r := by linarith
  have hg : 0 < g := by linarith
  have hsv : rgb_to_hsv r g g = ⟨(1 + 2) / 6, (g - r) / g, g⟩ := by
    unfold rgb_to_hsv
    simp only [hM, hm, if_neg hd.ne', if_neg hg.ne', if_neg hrg.ne', if_true,
      div_self hd.ne']
  refine ColourRoundTrip_of r g g _ g r hsv ?_ (by norm_num) (by norm_num) hr0
    (by linarith) hg1
  rw [hsv_to_rgb_sector _ _ _ 3 (by norm_num) (by norm_num) (by push_cast; linarith)
    (by push_cast; linarith)]
  simp only [Prod.mk.injEq]
  refine ⟨?_, ?_, trivial⟩ <;> first | (field_simp; ring) | field_simp

/-- Blue strictly largest, red smallest and below green: fourth sextant. -/
theorem ColourRoundTrip_sector3 (r g b : ℚ) (hr0 : 0 ≤ r) (hb1 : b ≤ 1) (hrg : r < g)
    (hgb : g < b) : ColourRoundTrip r g b := by
  have hrb : r < b := by linarith
  have hM : fmax (fmax r g) b = b :=
    fmax3_eq r g b b (Or.inr (Or.inr rfl)) hrb.le hgb.le (le_refl _)
  have hm : fmin (fmin r g) b = r :=
    fmin3_eq r g b r (Or.inl rfl) (le_refl _) hrg.le hrb.le
  have hd : 0 < b - r := by linarith
  have hb : 0 < b := by linarith
  have hx0 : -1 < (r - g) / (b - r) := (lt_div_iff₀ hd).mpr (by linarith)
  have hx1 : (r - g) / (b - r) < 0 := div_neg_of_neg_of_pos (by linarith) hd
  have hsv : rgb_to_hsv r g b = ⟨((r - g) / (b - r) + 4) / 6, (b - r) / b, b⟩ := by
    unfold rgb_to_hsv
    simp only [hM, hm, if_neg hd.ne', if_neg hb.ne', if_neg hrb.ne', if_neg hgb.ne']
  refine ColourRoundTrip_of r g b _ b r hsv ?_ (by linarith) (by linarith) hr0
    (by linarith) hb1
  rw [hsv_to_rgb_sector _ _ _ 3 (by norm_num) (by norm_num) (by push_cast; linarith)
    (by push_cast; linarith)]
  simp only [Prod.mk.injEq]
  refine ⟨?_, ?_, trivial⟩ <;> first | (field_simp; ring) | field_simp

/-- Blue strictly largest, green smallest: fifth sextant. -/
theorem ColourRoundTrip_sector4 (r g b : ℚ) (hg0 : 0 ≤ g) (hb1 : b ≤ 1) (hgr : g ≤ r)
    (hrb : r < b) : ColourRoundTrip r g b := by
  have hgb : g < b := by linarith
  have hM : fmax (fmax r g) b = b :=
    fmax3_eq r g b b (Or.inr (Or.inr rfl)) hrb.le hgb.le (le_refl _)
  have hm : fmin (fmin r g) b = g :=
    fmin3_eq r g b g (Or.inr (Or.inl rfl)) hgr (le_refl _) hgb.le
  have hd : 0 < b - g := by linarith
  have hb : 0 < b := by linarith
  have hx0 : 0 ≤ (r - g) / (b - g) := div_nonneg (by linarith) hd.le
  have hx1 : (r - g) / (b - g) < 1 := (div_lt_one hd).mpr (by linarith)
  have hsv : rgb_to_hsv r g b = ⟨((r - g) / (b - g) + 4) / 6, (b - g) / b, b⟩ := by
    unfold rgb_to_hsv
    simp only [hM, hm, if_neg hd.ne', if_neg hb.ne', if_neg hrb.ne', if_neg hgb.ne']
  refine ColourRoundTrip_of r g b _ b g hsv ?_ (by linarith) (by linarith) hg0
    (by linarith) hb1
  rw [hsv_to_rgb_sector _ _ _ 4 (by norm_num) (by norm_num) (by push_cast; linarith)
    (by push_cast; linarith)]
  simp only [Prod.mk.injEq]
  refine ⟨?_, ?_, trivial⟩ <;> first | (field_simp; ring) | field_simp

/-- The round trip in every case of the ordering of the three channels. -/
theorem ColourRoundTrip_all (r g b : ℚ) (hr0 : 0 ≤ r) (hr1 : r ≤ 1) (hg0 : 0 ≤ g)
    (hg1 : g ≤ 1) (hb0 : 0 ≤ b) (hb1 : b ≤ 1) : ColourRoundTrip r g b := by
  by_cases h1 : g ≤ r ∧ b ≤ r
  · obtain ⟨hgr, hbr⟩ := h1
    rcases eq_or_lt_of_le hgr with he | hlt
    · subst he
      rcases eq_or_lt_of_le hbr with he2 | hlt2
      · subst he2; exact ColourRoundTrip_grey b hb0 hb1
      · exact ColourRoundTrip_yellow g b hb0 hg1 hlt2
    · rcases le_or_lt b g with hbg | hgb
      · exact ColourRoundTrip_sector0 r g b hb0 hr1 hbg hlt
      · exact ColourRoundTrip_sector5 r g b hg0 hr1 hgb hbr
  · by_cases h2 : r < g ∧ b ≤ g
    · obtain ⟨hrg, hbg⟩ := h2
      rcases eq_or_lt_of_le hbg with he | hlt
      · subst he; exact ColourRoundTrip_cyan r b hr0 hb1 hrg
      · rcases lt_or_le b r with hbr | hrb
        · exact ColourRoundTrip_sector1 r g b hb0 hg1 hbr hrg
        · exact ColourRoundTrip_sector2 r g b hr0 hg1 hrb hlt
    · have hrb : r < b := by
        by_contra hc
        push_neg at hc
        rcases le_or_lt g r with h | h
        · exact h1 ⟨h, hc⟩
        · exact h2 ⟨h, by linarith⟩
      have hgb : g < b := by
        by_contra hc
        push_neg at hc
        rcases le_or_lt g r with h | h
        · exact h1 ⟨h, by linarith⟩
        · exact h2 ⟨h, hc⟩
      rcases lt_or_le r g with hrg | hgr
      · exact ColourRoundTrip_sector3 r g b hr0 hb1 hrg hgb
      · exact ColourRoundTrip_sector4 r g b hg0 hb1 hgr hrb

/-- C27: with doubles as exact rationals, for every r, g, b in [0, 1] converting
(r, g, b) with `rgb_to_hsv` and the result back with `hsv_to_rgb` returns exactly
(r, g, b), and the intermediate hue lies in [0, 1), the saturation and the value in
[0, 1]. -/
theorem hsv_to_rgb_rgb_to_hsv (r g b : ℚ) (hr0 : 0 ≤ r) (hr1 : r ≤ 1) (hg0 : 0 ≤ g)
    (hg1 : g ≤ 1) (hb0 : 0 ≤ b) (hb1 : b ≤ 1) :
    hsv_to_rgb (rgb_to_hsv r g b) = (r, g, b) ∧
    0 ≤ (rgb_to_hsv r g b).h ∧ (rgb_to_hsv r g b).h < 1 ∧
    0 ≤ (rgb_to_hsv r g b).s ∧ (rgb_to_hsv r g b).s ≤ 1 ∧
    0 ≤ (rgb_to_hsv r g b).v ∧ (rgb_to_hsv r g b).v ≤ 1 :=
  ColourRoundTrip_all r g b hr0 hr1 hg0 hg1 hb0 hb1

theorem hsv_to_rgb_rgb_to_hsv_witness :
    rgb_to_hsv (1 / 5) (3 / 5) (4 / 5) = ⟨5 / 9, 3 / 4, 4 / 5⟩ ∧
    hsv_to_rgb (rgb_to_hsv (1 / 5) (3 / 5) (4 / 5)) = (1 / 5, 3 / 5, 4 / 5) :=
  ⟨by decide!,
    (hsv_to_rgb_rgb_to_hsv (1 / 5) (3 / 5) (4 / 5) (by norm_num) (by norm_num) (by norm_num)
      (by norm_num) (by norm_num) (by norm_num)).1⟩

/-! ## The fading clamp -/

theorem MIN_eq_min (a b : Int) : MIN a b = min a b := by
  unfold MIN
  split_ifs with h
  · exact (min_eq_left (le_of_lt h)).symm
  · exact (min_eq_right (not_lt.mp h)).symm

theorem bz_fading_clamp_update_will_change_fields (self : BzFadingClamp)
    (measure : ChildMeasure) :
    (bz_fading_clamp_update_will_change self measure).current_height = self.current_height ∧
    (bz_fading_clamp_update_will_change self measure).animating_max_height =
      self.animating_max_height ∧
    (bz_fading_clamp_update_will_change self measure).max_height = self.max_height := by
  unfold bz_fading_clamp_update_will_change
  dsimp only
  split_ifs <;> exact ⟨rfl, rfl, rfl⟩

/-- The result of a vertical measure of a clamp that has a child and is not animating. -/
theorem bz_fading_clamp_measure_vertical_eq (self : BzFadingClamp) (measure : ChildMeasure)
    (for_size : Int) (hchild : self.child ≠ none)
    (hidle : self.animating_max_height = false) :
    bz_fading_clamp_measure self measure GtkOrientation.VERTICAL for_size =
      ⟨{ bz_fading_clamp_update_will_change self measure with
          current_height := min (measure GtkOrientation.VERTICAL for_size).2 self.max_height },
        min (measure GtkOrientation.VERTICAL for_size).1
          (min (measure GtkOrientation.VERTICAL for_size).2 self.max_height),
        min (measure GtkOrientation.VERTICAL for_size).2
          (min (measure GtkOrientation.VERTICAL for_size).2 self.max_height)⟩ := by
  obtain ⟨-, hanim, -⟩ := bz_fading_clamp_update_will_change_fields self measure
  unfold bz_fading_clamp_measure
  cases hc : self.child with
  | none => exact absurd hc hchild
  | some w =>
    have hf := hanim.trans hidle
    simp only [reduceCtorEq, if_false, MIN_eq_min]
    generalize bz_fading_clamp_update_will_change self measure = u at hf ⊢
    cases u
    simp only at hf
    subst hf
    simp only [true_and]
    split_ifs with h
    · rfl
    · have h1 := not_not.mp h
      subst h1
      rfl

/-- C28: for a clamp with a child and no max-height animation in progress, a vertical
measure reports natural = min (child natural, max_height) and minimum = min (child minimum,
that natural value), so neither exceeds max_height nor the child's own height; the current
height of the clamp becomes that natural value. A clamp without a child reports 0 and 0
in either orientation. -/
theorem bz_fading_clamp_measure_vertical (self : BzFadingClamp) (measure : ChildMeasure)
    (for_size : Int) (orientation : GtkOrientation)
    (hchild : self.child ≠ none) (hidle : self.animating_max_height = false) :
    let r := bz_fading_clamp_measure self measure GtkOrientation.VERTICAL for_size
    let child_minimum := (measure GtkOrientation.VERTICAL for_size).1
    let child_natural := (measure GtkOrientation.VERTICAL for_size).2
    r.natural = min child_natural self.max_height ∧
    r.minimum = min child_minimum r.natural ∧
    r.natural ≤ self.max_height ∧ r.minimum ≤ self.max_height ∧
    r.natural ≤ child_natural ∧ r.minimum ≤ child_minimum ∧
    r.self.current_height = r.natural ∧
    (bz_fading_clamp_measure { self with child := none } measure orientation for_size).minimum
      = 0 ∧
    (bz_fading_clamp_measure { self with child := none } measure orientation for_size).natural
      = 0 := by
  intro r child_minimum child_natural
  have hr := bz_fading_clamp_measure_vertical_eq self measure for_size hchild hidle
  have hn : r.natural = min child_natural self.max_height := by
    show (bz_fading_clamp_measure self measure GtkOrientation.VERTICAL for_size).natural = _
    rw [hr]
    exact min_eq_right (min_le_left _ _)
  have hm : r.minimum = min child_minimum r.natural := by
    rw [hn]
    show (bz_fading_clamp_measure self measure GtkOrientation.VERTICAL for_size).minimum = _
    rw [hr]
  have hcurrent : r.self.current_height = r.natural := by
    rw [hn]
    show (bz_fading_clamp_measure self measure
      GtkOrientation.VERTICAL for_size).self.current_height = _
    rw [hr]
  refine ⟨hn, hm, ?_, ?_, ?_, ?_, hcurrent, rfl, rfl⟩
  · rw [hn]; exact min_le_right _ _
  · rw [hm, hn]; exact le_trans (min_le_right _ _) (min_le_right _ _)
  · rw [hn]; exact min_le_left _ _
  · rw [hm]; exact min_le_left _ _

theorem bz_fading_clamp_measure_vertical_witness :
    example_clamp.child ≠ none ∧ example_clamp.animating_max_height = false ∧
    (bz_fading_clamp_measure example_clamp example_child_measure
      GtkOrientation.VERTICAL 80).natural = 300 ∧
    (bz_fading_clamp_measure example_clamp example_child_measure
      GtkOrientation.VERTICAL 80).minimum = 120 :=
  ⟨by decide, by decide,
    (bz_fading_clamp_measure_vertical example_clamp example_child_measure 80
      GtkOrientation.VERTICAL (by decide) (by decide)).1.trans (by decide),
    (bz_fading_clamp_measure_vertical example_clamp example_child_measure 80
      GtkOrientation.VERTICAL (by decide) (by decide)).2.1.trans (by decide)⟩

/-! ## The preferences dialog -/

theorem check_duplicate_loop_iff (l : List BzRepository) (seen : List String) :
    check_duplicate_loop l seen = true ↔
      (∃ x ∈ l, x.name ∈ seen) ∨ ¬ (l.map BzRepository.name).Nodup := by
  induction l generalizing seen with
  | nil => simp [check_duplicate_loop]
  | cons a rest ih =>
    unfold check_duplicate_loop
    by_cases ha : a.name ∈ seen
    · simp only [ha, if_true, true_iff]
      exact Or.inl ⟨a, List.mem_cons_self _ _, ha⟩
    · simp only [ha, if_false]
      rw [ih]
      simp only [List.mem_cons, List.map_cons, List.nodup_cons, List.mem_map, not_and_or,
        not_not]
      constructor
      · rintro (⟨x, hx, hxs | hxs⟩ | h)
        · exact Or.inr (Or.inl ⟨x, hx, hxs⟩)
        · exact Or.inl ⟨x, Or.inr hx, hxs⟩
        · exact Or.inr (Or.inr h)
      · rintro (⟨x, hx | hx, hxs⟩ | ⟨x, hx, hxs⟩ | h)
        · subst hx; exact absurd hxs ha
        · exact Or.inl ⟨x, hx, Or.inr hxs⟩
        · exact Or.inl ⟨x, hx, Or.inl hxs⟩
        · exact Or.inr h

/-- C29: `check_duplicate_repositories` returns TRUE exactly when two entries of the
repository list, at different indices, have the same name; it returns FALSE for the empty
list and for pairwise distinct names; `bz_preferences_dialog_new` stores the value of the
check in `scope_dropdown_visible`. -/
theorem check_duplicate_repositories_iff (state : BzStateInfo) :
    let dialog := bz_preferences_dialog_new state
    (check_duplicate_repositories dialog = true ↔
      ∃ i j : Nat, i < j ∧ j < state.repositories.length ∧
        (state.repositories.map BzRepository.name)[i]? =
          (state.repositories.map BzRepository.name)[j]?) ∧
    (check_duplicate_repositories dialog = false ↔
      (state.repositories.map BzRepository.name).Nodup) ∧
    check_duplicate_repositories (bz_preferences_dialog_new ⟨[]⟩) = false ∧
    dialog.state = state ∧
    dialog.scope_dropdown_visible = check_duplicate_repositories dialog := by
  intro dialog
  have hiff : check_duplicate_repositories dialog = true ↔
      ¬ (state.repositories.map BzRepository.name).Nodup := by
    show check_duplicate_loop state.repositories [] = true ↔ _
    rw [check_duplicate_loop_iff]
    simp
  refine ⟨?_, ?_, rfl, rfl, rfl⟩
  · rw [hiff, List.nodup_iff_getElem?_ne_getElem?]
    simp only [List.length_map]
    push_neg
    rfl
  · rw [← Bool.not_eq_true, hiff, not_not]

/-! ## Records that are being removed keep their snap point in a layout pass -/

theorem removing_records_update_child (l : List ChildInfo) (q : Nat) (g : ChildInfo → ChildInfo)
    (hg : FlagOnly g) : removing_records (update_child l q g) = removing_records l := by
  unfold removing_records update_child
  rw [List.map_map]
  apply List.map_congr_left
  intro c _
  simp only [Function.comp_apply]
  split
  · obtain ⟨b, hb⟩ := hg c
    rw [hb]
  · rfl

theorem removing_records_flag_loop (l : List ChildInfo) (t : BzCarousel) :
    removing_records (l.foldl (fun s child =>
      if child.adding || child.removing then update_shift_position_flag s child.ptr else s)
      t).children = removing_records t.children := by
  induction l generalizing t with
  | nil => rfl
  | cons c l ih =>
    simp only [List.foldl_cons]
    rw [ih]
    split
    · obtain ⟨g, hg, he⟩ := update_shift_position_flag_children t c.ptr
      rw [he]
      exact removing_records_update_child _ _ g hg
    · rfl

theorem removing_records_apply_position_shift (s : BzCarousel) :
    removing_records (apply_position_shift s).children = removing_records s.children := by
  unfold apply_position_shift
  split
  · show removing_records (set_position s _).children = _
    unfold set_position
    exact removing_records_flag_loop _ _
  · rfl

theorem size_loop_removing_records (s : BzCarousel) (tk : Toolkit) (width height : Int)
    (l : List ChildInfo) (m : Int) :
    removing_records (size_loop s tk width height l m).1 = removing_records l := by
  induction l generalizing m with
  | nil => rfl
  | cons a l ih =>
    unfold size_loop
    split
    · simp only [removing_records, List.map_cons] at ih ⊢
      rw [ih]
    · simp only [removing_records, List.map_cons] at ih ⊢
      rw [ih]

theorem snap_point_loop_removing_records (target : Option Nat) (l : List ChildInfo) (acc : ℚ)
    (anim : SpringAnimation) :
    removing_records (snap_point_loop target l acc anim).1 = removing_records l := by
  induction l generalizing acc anim with
  | nil => rfl
  | cons a l ih =>
    unfold snap_point_loop
    split
    · simp only [removing_records, List.map_cons] at ih ⊢
      rw [ih]
    · rename_i hrem
      simp only [removing_records, List.map_cons] at ih ⊢
      rw [ih]
      simp [hrem]

theorem allocate_loop_removing_records (s : BzCarousel) (tk : Toolkit)
    (width height max_size : Int) (l : List ChildInfo) (coord : ℚ) :
    removing_records (allocate_loop s tk width height max_size l coord).1 =
      removing_records l := by
  induction l generalizing coord with
  | nil => rfl
  | cons a l ih =>
    unfold allocate_loop
    split
    · simp only [removing_records, List.map_cons] at ih ⊢
      rw [ih]
    · split
      · simp only [removing_records, List.map_cons] at ih ⊢
        rw [ih]
      · simp only [removing_records, List.map_cons] at ih ⊢
        rw [ih]

theorem bz_carousel_size_allocate_removing_records (s : BzCarousel) (tk : Toolkit)
    (width height : Int) :
    removing_records (bz_carousel_size_allocate s tk width height).children =
      removing_records s.children := by
  obtain ⟨m, coord, hc⟩ := bz_carousel_size_allocate_children s tk width height
  rw [hc, allocate_loop_removing_records, snap_point_loop_removing_records,
    size_loop_removing_records, removing_records_apply_position_shift]

/-- C3 (as amended): after a layout pass, in uniform-spacing mode or with a positive width,
a non-negative height and non-negative minimum sizes reported by the toolkit, the snap points
of the child records that are not being removed, read in sequence order, are non-decreasing.
The pass keeps the records in sequence order with their `removing` flags, and every record
that is being removed keeps the snap point it had before the pass. -/
theorem page_snap_points_sorted_after_size_allocate (s : BzCarousel) (tk : Toolkit)
    (width height : Int)
    (h : s.uniform_spacing = true ∨
      (0 < width ∧ 0 ≤ height ∧ ∀ w o f, 0 ≤ (tk.measure w o f).1)) :
    List.Sorted (· ≤ ·) (page_snap_points (bz_carousel_size_allocate s tk width height)) ∧
    removing_records (bz_carousel_size_allocate s tk width height).children =
      removing_records s.children := by
  refine ⟨?_, bz_carousel_size_allocate_removing_records s tk width height⟩
  obtain ⟨m, coord, hc⟩ := bz_carousel_size_allocate_children s tk width height
  unfold page_snap_points
  rw [hc, allocate_loop_page_snap_points]
  refine (snap_point_loop_sorted _ _ 0 _ ?_).1
  apply size_loop_size_nonneg
  rw [apply_position_shift_uniform_spacing]
  exact h

/-- C3 (as amended) at a concrete input: the layout pass after pages 2 and 1 of four pages
started shrinking. Pages 3 and 4 get the snap points 0 and 1; the records of pages 1 and 2
keep their snap points 0 and 1, so the whole sequence reads 0, 1, 0, 1. -/
theorem page_snap_points_sorted_after_size_allocate_witness :
    two_of_four_shrinking.uniform_spacing = true ∧
    page_snap_points (bz_carousel_size_allocate two_of_four_shrinking example_toolkit 100 100)
      = [0, 1] ∧
    removing_records two_of_four_shrinking.children =
      [(101, true, some 0), (102, true, some 1), (103, false, none), (104, false, none)] ∧
    List.Sorted (· ≤ ·)
      (page_snap_points
        (bz_carousel_size_allocate two_of_four_shrinking example_toolkit 100 100)) ∧
    removing_records
      (bz_carousel_size_allocate two_of_four_shrinking example_toolkit 100 100).children =
      removing_records two_of_four_shrinking.children :=
  ⟨by decide!, by decide!, by decide!,
    page_snap_points_sorted_after_size_allocate two_of_four_shrinking example_toolkit 100 100
      (Or.inl (by decide!))⟩

/-! ## The shift-position flag -/

/-- C19 (as amended): for a record `c` of a carousel whose records have distinct addresses,
`update_shift_position_flag (c)` leaves everything as it is when every record is adding;
when some record is not adding, a closest record `cl` is found (the record closest to the
current scroll position among the records that are not adding, records being removed
included, the earliest of equally close ones), and the call sets `c.shift_position` to true
exactly when the index of `c` in the children sequence is at most the index of `cl`, and
changes nothing else. A resize tick of `c` that follows at once adds `value - size` to
`position_shift` when `c` is at or before `cl` and leaves it as it was when `c` lies after
`cl`. In every state a tick reads the flag as it is stored on the record. -/
theorem update_shift_position_flag_spec (s : BzCarousel) (c : ChildInfo)
    (hd : PtrsDistinct s) (hc : c ∈ s.children) :
    ((∀ x ∈ s.children, x.adding = true) → update_shift_position_flag s c.ptr = s) ∧
    ((∃ x ∈ s.children, x.adding = false) →
      ∃ cl l1 l2 m1 m2, get_closest_child_at s s.position false true = some cl ∧
        s.children = l1 ++ c :: l2 ∧ s.children = m1 ++ cl :: m2 ∧
        cl.adding = false ∧
        (∀ x ∈ m1, x.adding = false →
          ABS (cl.snap_point - s.position) < ABS (x.snap_point - s.position)) ∧
        (∀ x ∈ m2, x.adding = false →
          ABS (cl.snap_point - s.position) ≤ ABS (x.snap_point - s.position)) ∧
        update_shift_position_flag s c.ptr =
          { s with children :=
              l1 ++ { c with shift_position := decide (l1.length ≤ m1.length) } :: l2 } ∧
        (∀ v,
          (resize_animation_value_cb (update_shift_position_flag s c.ptr) v c.ptr).position_shift
            = if l1.length ≤ m1.length then s.position_shift + (v - c.size)
              else s.position_shift)) ∧
    (∀ (t : BzCarousel) (c1 : ChildInfo) (v : ℚ), deref t.children c.ptr = some c1 →
      (resize_animation_value_cb t v c.ptr).position_shift =
        if c1.shift_position = true then t.position_shift + (v - c1.size)
        else t.position_shift) := by
  have hcount : ∀ x : ChildInfo, counted false true x = !x.adding := counted_false_true
  refine ⟨?_, ?_, fun t c1 v h => (resize_animation_value_cb_deref t v c.ptr c1 h).2⟩
  · intro hall
    rcases closest_fold_none s.position false true s.children with
      ⟨hnone, _⟩ | ⟨r, m1, m2, _, hm, hcr, _, _⟩
    · unfold update_shift_position_flag
      rw [get_closest_child_at_eq, hnone]
    · have hr : r ∈ s.children := by rw [hm]; simp
      rw [hcount, hall r hr] at hcr
      exact absurd hcr (by simp)
  · rintro ⟨x, hx, hxa⟩
    obtain ⟨l1, l2, hs⟩ := List.append_of_mem hc
    have hd1 := hd
    unfold PtrsDistinct at hd1
    rw [hs] at hd1
    obtain ⟨h1, h2⟩ := nodup_split l1 l2 c hd1
    rcases closest_fold_none s.position false true s.children with
      ⟨_, hall⟩ | ⟨r, m1, m2, hr, hm, hcr, g1, g2⟩
    · have := hall x hx
      rw [hcount, hxa] at this
      exact absurd this (by simp)
    · have hd2 := hd
      unfold PtrsDistinct at hd2
      rw [hm] at hd2
      obtain ⟨k1, _⟩ := nodup_split m1 m2 r hd2
      have hadd : r.adding = false := by
        rw [hcount] at hcr
        simpa using hcr
      have hchildren : (update_shift_position_flag s c.ptr).children =
          l1 ++ { c with shift_position := decide (l1.length ≤ m1.length) } :: l2 := by
        unfold update_shift_position_flag
        rw [get_closest_child_at_eq, hr]
        dsimp only
        have i1 : g_list_index s.children c.ptr = (l1.length : Int) := by
          rw [hs]; exact g_list_index_of_split l1 l2 c h1
        have i2 : g_list_index s.children r.ptr = (m1.length : Int) := by
          rw [hm]; exact g_list_index_of_split m1 m2 r k1
        rw [i1, i2]
        have hdec : decide ((m1.length : Int) ≥ (l1.length : Int)) =
            decide (l1.length ≤ m1.length) := by
          apply decide_eq_decide.mpr
          omega
        rw [hdec, hs, update_child_append_cons l1 l2 c c.ptr _ rfl h1 h2]
      refine ⟨r, l1, l2, m1, m2, by rw [get_closest_child_at_eq, hr], hs, hm, hadd,
        ?_, ?_, ?_, ?_⟩
      · intro y hy hya
        exact g1 y hy (by rw [hcount, hya]; rfl)
      · intro y hy hya
        exact g2 y hy (by rw [hcount, hya]; rfl)
      · rw [update_shift_position_flag_eq, hchildren]
      · intro v
        have hderef : deref (update_shift_position_flag s c.ptr).children c.ptr =
            some { c with shift_position := decide (l1.length ≤ m1.length) } := by
          rw [hchildren]
          exact deref_append_cons l1 l2 _ c.ptr rfl h1
        rw [(resize_animation_value_cb_deref _ v c.ptr _ hderef).2,
          update_shift_position_flag_position_shift]
        by_cases hle : l1.length ≤ m1.length
        · simp [hle]
        · simp [hle]

/-- C19 (as amended) at a concrete input: page 1 of two idle pages at position 0 is itself
the closest record, so its flag is set to true (page 2 keeps false), and a tick of page 1
with value 1/2 adds 1/2 - 1 to the pending shift. -/
theorem update_shift_position_flag_spec_witness :
    (update_shift_position_flag two_pages 101).children.map
      (fun c => (c.ptr, c.shift_position)) = [(101, true), (102, false)] ∧
    ∃ cl l1 l2 m1 m2, get_closest_child_at two_pages two_pages.position false true = some cl ∧
      two_pages.children = l1 ++ idle_page_one :: l2 ∧
      two_pages.children = m1 ++ cl :: m2 ∧
      update_shift_position_flag two_pages 101 =
        { two_pages with children :=
            l1 ++ { idle_page_one with
                    shift_position := decide (l1.length ≤ m1.length) } :: l2 } ∧
      (resize_animation_value_cb (update_shift_position_flag two_pages 101) (1 / 2)
        101).position_shift =
        if l1.length ≤ m1.length then two_pages.position_shift + (1 / 2 - idle_page_one.size)
        else two_pages.position_shift := by
  obtain ⟨cl, l1, l2, m1, m2, h0, h1, h2, _, _, _, h6, h7⟩ :=
    (update_shift_position_flag_spec two_pages idle_page_one
      (by unfold PtrsDistinct; decide!) (by decide!)).2.1 ⟨idle_page_one, by decide!, rfl⟩
  exact ⟨by decide!, cl, l1, l2, m1, m2, h0, h1, h2, h6, h7 (1 / 2)⟩

/-- C19 as stated fails in its last sentence: page 2 starts shrinking while page 3 is the
current page behind it, so its flag is set; page 3 is then reordered to the front. The
record closest to the position is now page 3 at index 0 and the shrinking record of page 2
lies after it, at index 2, with its flag still set: its next tick, with value 1/2, changes
the pending shift from -2 to -5/2. -/
theorem stale_flag_after_reorder_contributes :
    reordered_past_shrinking_page.children.map
      (fun c => (c.ptr, c.removing, c.shift_position)) =
      [(103, false, false), (101, false, false), (102, true, true)] ∧
    (get_closest_child_at reordered_past_shrinking_page
      reordered_past_shrinking_page.position false true).map (fun c => c.ptr) = some 103 ∧
    g_list_index reordered_past_shrinking_page.children 103 = 0 ∧
    g_list_index reordered_past_shrinking_page.children 102 = 2 ∧
    reordered_past_shrinking_page.position_shift = -2 ∧
    (step reordered_past_shrinking_page (Event.resize_value 102 (1 / 2))).position_shift
      = -5 / 2 := by
  decide!

/-! ## Resize ticks in binary64 arithmetic -/

/-- Values of `binary64_round`: numbers with a short significand are kept, a tie goes to
the even significand, and 1/10 goes to the double nearest to it. -/
theorem binary64_round_examples :
    binary64_round 1 = 1 ∧ binary64_round (-3 / 4) = -3 / 4 ∧
    binary64_round (1 + 1 / 2 ^ 52) = 1 + 1 / 2 ^ 52 ∧
    binary64_round (1 + 1 / 2 ^ 53) = 1 ∧
    binary64_round (1 + 3 / 2 ^ 53) = 1 + 2 / 2 ^ 52 ∧
    binary64_round (1 + 1 / 2 ^ 53 + 1 / 2 ^ 60) = 1 + 1 / 2 ^ 52 ∧
    binary64_round (1 / 10) = 3602879701896397 / 36028797018963968 ∧
    binary64_round (-1 / 10) = -3602879701896397 / 36028797018963968 := by
  decide!

/-- C9 as stated fails in binary64 arithmetic: with a pending shift of 1.0, a growing
record of size 0 whose flag is set, and the ticks 0.1, 0.2, 0.3 (the doubles nearest to
these decimals), the pending shift ends at 1.3000000000000003, while 1.0 plus the last
value 0.3 is 1.3 after rounding: the total increase is not the last value minus the size
before the first tick, neither exactly nor after rounding. -/
theorem resize_ticks_binary64_do_not_telescope :
    growing_page_with_pending_shift.position_shift = 1 ∧
    (deref growing_page_with_pending_shift.children 103).map
      (fun c => (c.size, c.shift_position)) = some (0, true) ∧
    binary64_round (1 / 10) = 3602879701896397 / 36028797018963968 ∧
    binary64_round (2 / 10) = 3602879701896397 / 18014398509481984 ∧
    binary64_round (3 / 10) = 5404319552844595 / 18014398509481984 ∧
    (resize_ticks_binary64 growing_page_with_pending_shift 103
      [binary64_round (1 / 10), binary64_round (2 / 10), binary64_round (3 / 10)]).position_shift
      = 2927339757790823 / 2251799813685248 ∧
    binary64_round (1 + (binary64_round (3 / 10) - 0)) =
      5854679515581645 / 4503599627370496 ∧
    (resize_ticks_binary64 growing_page_with_pending_shift 103
      [binary64_round (1 / 10), binary64_round (2 / 10), binary64_round (3 / 10)]).position_shift
      ≠ growing_page_with_pending_shift.position_shift + (binary64_round (3 / 10) - 0) ∧
    (resize_ticks_binary64 growing_page_with_pending_shift 103
      [binary64_round (1 / 10), binary64_round (2 / 10), binary64_round (3 / 10)]).position_shift
      ≠ binary64_round
        (growing_page_with_pending_shift.position_shift + (binary64_round (3 / 10) - 0)) := by
  decide!

end Bazaar
